import Mathlib

/-!
# DrizLink: session registry, rooms, routing, heartbeat and discovery

A shallow embedding of the server's connection registry and room directory
(`server/internal/connection.go`, `server/interfaces/interfaces.go`) and of the
client's discovery scan (`client/internal/discovery.go`).

Modelling conventions.

* A Go `string` is a Lean `String`; the `strings` functions are written on the
  list of characters.  Separators used by the code are single ASCII
  characters, for which splitting UTF-8 bytes and splitting code points agree.
* A Go `map[string]T` is `GoMap T`: an association list with pairwise distinct
  keys.  `range` visits the entries in list order (Go leaves the order
  unspecified; no result below depends on it other than through the order of
  the produced writes).
* `*User` is an address `Ptr` into `Server.heap`; `Server.next` is the first
  address that has not been allocated.  Two maps may hold the same address,
  exactly as two Go maps may hold the same pointer.
* `net.Conn` is a handle `NetConn`; each `Write` call is recorded as a `Write`
  event, whether or not it reports an error.  A `Read` delivers one message (the
  code reads into a buffer of 1024 bytes and treats what one read returns as one
  message).
* `sync.Mutex` of the server is the flag `Server.Mutex` (true = held).  Go
  mutexes are not reentrant: `Lock` on a held mutex parks the goroutine, which
  is the ending `Ending.blocked`.
-/

namespace DrizLink

/-! ## Go maps -/

/-- First value stored under key `k` in an association list. -/
def assocGet {α : Type} (k : String) : List (String × α) → Option α
  | [] => none
  | (k', v) :: es => if k' = k then some v else assocGet k es

/-- Store `v` under `k`: overwrite the entry when the key is present, add one otherwise. -/
def assocSet {α : Type} (k : String) (v : α) : List (String × α) → List (String × α)
  | [] => [(k, v)]
  | (k', v') :: es => if k' = k then (k, v) :: es else (k', v') :: assocSet k v es

/-- Remove the entry stored under `k`, if any. -/
def assocDel {α : Type} (k : String) : List (String × α) → List (String × α)
  | [] => []
  | (k', v') :: es => if k' = k then es else (k', v') :: assocDel k es

theorem assocSet_keys {α : Type} (k : String) (v : α) (es : List (String × α)) :
    (assocSet k v es).map Prod.fst =
      if k ∈ es.map Prod.fst then es.map Prod.fst else es.map Prod.fst ++ [k] := by
  induction es with
  | nil => simp [assocSet]
  | cons e es ih =>
    obtain ⟨k', v'⟩ := e
    by_cases h : k' = k
    · subst h; simp [assocSet]
    · have h' : ¬ k = k' := fun e => h e.symm
      simp only [assocSet, h, if_false, List.map_cons, ih, List.mem_cons, h', false_or]
      split <;> simp

theorem assocSet_nodup {α : Type} (k : String) (v : α) (es : List (String × α))
    (h : (es.map Prod.fst).Nodup) : ((assocSet k v es).map Prod.fst).Nodup := by
  rw [assocSet_keys]
  split
  · exact h
  · rename_i hk
    rw [List.nodup_append]
    refine ⟨h, List.nodup_singleton k, ?_⟩
    intro a ha hb
    simp only [List.mem_singleton] at hb
    subst hb
    exact hk ha

theorem assocDel_sublist {α : Type} (k : String) (es : List (String × α)) :
    List.Sublist (assocDel k es) es := by
  induction es with
  | nil => simp [assocDel]
  | cons e es ih =>
    obtain ⟨k', v'⟩ := e
    by_cases h : k' = k
    · simp [assocDel, h]
    · simp [assocDel, h, ih]

theorem assocDel_nodup {α : Type} (k : String) (es : List (String × α))
    (h : (es.map Prod.fst).Nodup) : ((assocDel k es).map Prod.fst).Nodup :=
  List.Nodup.sublist ((assocDel_sublist k es).map Prod.fst) h

/-- A Go map with string keys: an association list whose keys are pairwise distinct. -/
structure GoMap (α : Type) where
  entries : List (String × α)
  nodup : (entries.map Prod.fst).Nodup
deriving DecidableEq

namespace GoMap

variable {α : Type}

/-- The map `make(map[string]T)`. -/
def empty : GoMap α := ⟨[], List.nodup_nil⟩

/-- The lookup `v, ok := m[k]`. -/
def get? (m : GoMap α) (k : String) : Option α := assocGet k m.entries

/-- The assignment `m[k] = v`. -/
def set (m : GoMap α) (k : String) (v : α) : GoMap α :=
  ⟨assocSet k v m.entries, assocSet_nodup k v m.entries m.nodup⟩

/-- The statement `delete(m, k)`. -/
def erase (m : GoMap α) (k : String) : GoMap α :=
  ⟨assocDel k m.entries, assocDel_nodup k m.entries m.nodup⟩

/-- Keys of the map, in iteration order. -/
def keys (m : GoMap α) : List String := m.entries.map Prod.fst

/-- Values of the map, in iteration order. -/
def values (m : GoMap α) : List α := m.entries.map Prod.snd

/-- The length `len(m)`. -/
def size (m : GoMap α) : Nat := m.entries.length

/-- Whether `_, ok := m[k]` reports `ok`. -/
def contains (m : GoMap α) (k : String) : Bool := (m.get? k).isSome

end GoMap

/-! ## Go strings -/

/-- Cut at the first occurrence of `sep`: the text before it and the text after it. -/
def cutChars (sep : Char) : List Char → Option (List Char × List Char)
  | [] => none
  | c :: cs =>
    if c = sep then some ([], cs)
    else match cutChars sep cs with
      | none => none
      | some (a, b) => some (c :: a, b)

/-- Pieces of a text between the occurrences of `sep`; a text without `sep` is one piece. -/
def splitChars (sep : Char) : List Char → List (List Char)
  | [] => [[]]
  | c :: cs =>
    if c = sep then [] :: splitChars sep cs
    else match splitChars sep cs with
      | [] => [[c]]
      | p :: ps => (c :: p) :: ps

/-- At most `n` pieces, the last one being the unsplit remainder. -/
def splitNChars (sep : Char) : Nat → List Char → List (List Char)
  | 0, _ => []
  | 1, s => [s]
  | n + 2, s =>
    match cutChars sep s with
    | none => [s]
    | some (a, b) => a :: splitNChars sep (n + 1) b

/-- The call `strings.Split(s, sep)` for a one-character separator. -/
def Split (s : String) (sep : Char) : List String :=
  (splitChars sep s.data).map String.mk

/-- The call `strings.SplitN(s, sep, n)` for a one-character separator and `n ≥ 0`. -/
def SplitN (s : String) (sep : Char) (n : Nat) : List String :=
  (splitNChars sep n s.data).map String.mk

/-- The call `strings.HasPrefix(s, pre)`. -/
def HasPrefix (s pre : String) : Bool := pre.data.isPrefixOf s.data

/-- White space as `unicode.IsSpace` defines it. -/
def isSpace (c : Char) : Bool :=
  let n := c.toNat
  (9 ≤ n && n ≤ 13) || n = 32 || n = 0x85 || n = 0xA0 || n = 0x1680 ||
  (0x2000 ≤ n && n ≤ 0x200A) || n = 0x2028 || n = 0x2029 || n = 0x202F ||
  n = 0x205F || n = 0x3000

/-- The call `strings.TrimSpace(s)`: leading and trailing white space removed. -/
def TrimSpace (s : String) : String :=
  ⟨((s.data.dropWhile isSpace).reverse.dropWhile isSpace).reverse⟩

/-- Value of a run of decimal digits, `none` when a character is not a digit. -/
def digitsValue : List Char → Nat → Option Nat
  | [], acc => some acc
  | c :: cs, acc =>
    if 48 ≤ c.toNat ∧ c.toNat ≤ 57 then digitsValue cs (acc * 10 + (c.toNat - 48)) else none

/-- The call `strconv.ParseInt(s, 10, 64)`; `none` stands for a non-nil error. -/
def ParseInt (s : String) : Option Int :=
  let signed : Bool × List Char :=
    match s.data with
    | '-' :: cs => (true, cs)
    | '+' :: cs => (false, cs)
    | cs => (false, cs)
  match signed.2 with
  | [] => none
  | cs =>
    match digitsValue cs 0 with
    | none => none
    | some v =>
      if signed.1 then (if v ≤ 2 ^ 63 then some (-(v : Int)) else none)
      else (if v < 2 ^ 63 then some (v : Int) else none)

/-! ## Data model (`server/interfaces/interfaces.go`) -/

/-- Address of a `User` object. -/
abbrev Ptr := Nat

/-- Handle of a `net.Conn`. -/
abbrev NetConn := Nat

/-- The struct `interfaces.User`. -/
structure User where
  UserId : String
  Username : String
  StoreFilePath : String
  Conn : NetConn
  IsOnline : Bool
  IpAddress : String
  CurrentRoomID : String
deriving DecidableEq, Inhabited

/-- The struct `interfaces.Room`; `Members` holds addresses of users.  The room's own
`RWMutex` is never requested while it is held and is left out. -/
structure Room where
  ID : String
  Name : String
  Members : GoMap Ptr
  CreatedBy : String
  CreatedAt : String
deriving DecidableEq

/-- The struct `interfaces.Server` together with the memory its maps point into.
The channel `Messages` is never used by the code and is left out. -/
structure Server where
  Address : String
  Connections : GoMap Ptr
  IpAddresses : GoMap Ptr
  Rooms : GoMap Room
  Mutex : Bool
  heap : Ptr → User
  next : Ptr

/-- Assignment through a pointer: the object at `p` becomes `u`. -/
def Server.setUser (s : Server) (p : Ptr) (u : User) : Server :=
  { s with heap := fun q => if q = p then u else s.heap q }

/-- One call of `Write` on a connection: the session whose connection it is (for a
write on a handler's own `conn`, the session that handler serves), the handle, the bytes. -/
structure Write where
  session : Ptr
  conn : NetConn
  data : String
deriving DecidableEq

/-- How a call ends: it returns a value, it parks forever in `Lock` on a held
mutex, or it panics. -/
inductive Ending (α : Type) where
  | returned (a : α)
  | blocked
  | panicked
deriving DecidableEq

/-- Change the returned value of an ending. -/
def Ending.map {α β : Type} (f : α → β) : Ending α → Ending β
  | .returned a => .returned (f a)
  | .blocked => .blocked
  | .panicked => .panicked

/-- Effect of a call: the server it leaves, the writes it made, how it ended. -/
structure Outcome (α : Type) where
  server : Server
  out : List Write
  ending : Ending α

/-- Whether the loop of `handleUserMessages` goes on to the next read or returns. -/
inductive LoopCtl where
  | again
  | exit
deriving DecidableEq

/-! ## Routing (`server/internal/connection.go`) -/

/-- Writes of the loop of `BroadcastMessage`: one per entry of `Connections` whose user
is online and is not `sender` (a comparison of pointers). -/
def broadcastWrites (content : String) (server : Server) (sender : Ptr) : List Write :=
  server.Connections.entries.filterMap fun e =>
    let recipient := e.2
    if (server.heap recipient).IsOnline && recipient != sender then
      some ⟨recipient, (server.heap recipient).Conn,
        (server.heap sender).Username ++ ": " ++ content ++ "\n"⟩
    else none

/-- The function `BroadcastMessage`.  It locks `server.Mutex` first and unlocks it on
return, so it leaves the server as it found it. -/
def BroadcastMessage (content : String) (server : Server) (sender : Ptr) : Outcome Unit :=
  if server.Mutex then ⟨server, [], .blocked⟩
  else ⟨server, broadcastWrites content server sender, .returned ()⟩

/-- Writes of the loop of `BroadcastRoomMessage` over the members of `room`. -/
def roomWrites (room : Room) (senderUsername content : String) (server : Server)
    (sender : Ptr) : List Write :=
  room.Members.entries.filterMap fun e =>
    let member := e.2
    if (server.heap member).IsOnline && member != sender then
      some ⟨member, (server.heap member).Conn,
        "[Room " ++ room.Name ++ "] " ++ senderUsername ++ ": " ++ content ++ "\n"⟩
    else none

/-- The function `BroadcastRoomMessage`. -/
def BroadcastRoomMessage (roomID senderUsername content : String) (server : Server)
    (sender : Ptr) : Outcome Unit :=
  if server.Mutex then ⟨server, [], .blocked⟩
  else
    match server.Rooms.get? roomID with
    | none => ⟨server, [], .returned ()⟩
    | some room => ⟨server, roomWrites room senderUsername content server sender, .returned ()⟩

/-! ## Registry -/

/-- An accepted connection as `HandleConnection` sees it: its handle, the text of
`conn.RemoteAddr().String()`, whether a `Write` on it reports an error, and the results of
its successive `Read` calls (`none` is an error; past the end every read is an error). -/
structure Inbound where
  conn : NetConn
  remoteAddr : String
  writeFails : Bool
  reads : List (Option String)

/-- The function `HandleConnection` up to its final call of `handleUserMessages`.
It returns `some (user, reads)` when it goes on to serve `user` with the reads that are
left, and `none` when it returns before that.  `GenerateUserId` is the value that
`helper.GenerateUserId()` (package `helper`, not part of this development) yields for this
call. -/
def HandleConnection (GenerateUserId : String) (c : Inbound) (server : Server) :
    Outcome (Option (Ptr × List (Option String))) :=
  match (Split c.remoteAddr ':').head? with
  | none => ⟨server, [], .panicked⟩
  | some ip =>
    match server.IpAddresses.get? ip with
    | some existingUser =>
      let u := server.heap existingUser
      let reconnectMsg : Write :=
        ⟨existingUser, c.conn, "/RECONNECT " ++ u.Username ++ " " ++ u.StoreFilePath⟩
      if c.writeFails then ⟨server, [reconnectMsg], .returned none⟩
      else if server.Mutex then ⟨server, [reconnectMsg], .blocked⟩
      else
        let s1 := server.setUser existingUser { u with Conn := c.conn, IsOnline := true }
        let b := BroadcastMessage ("User " ++ u.Username ++ " has rejoined the chat") s1
          existingUser
        ⟨b.server, reconnectMsg :: b.out, b.ending.map fun _ => some (existingUser, c.reads)⟩
    | none =>
      match c.reads with
      | some username :: some storeFilePath :: rest =>
        if server.Mutex then ⟨server, [], .blocked⟩
        else
          let user : User :=
            { UserId := GenerateUserId, Username := username, StoreFilePath := storeFilePath,
              Conn := c.conn, IsOnline := true, IpAddress := ip, CurrentRoomID := "" }
          let p := server.next
          let s1 : Server :=
            { server with
              heap := fun q => if q = p then user else server.heap q
              next := p + 1
              Connections := server.Connections.set user.UserId p
              IpAddresses := server.IpAddresses.set ip p }
          let b := BroadcastMessage ("User " ++ username ++ " has joined the chat") s1 p
          ⟨b.server, b.out, b.ending.map fun _ => some (p, rest)⟩
      | _ => ⟨server, [], .returned none⟩

/-! ## Rooms -/

/-- The function `generateRoomID`; `rnd` is the value of `rand.Intn(100000)`. -/
def generateRoomID (rnd : Fin 100000) : String := "room_" ++ toString rnd.val

/-- Body of the loop of `CreateRoom` over the listed ids: the id is added with its user
when it is registered and that user is online. -/
def addListed (server : Server) (members : GoMap Ptr) (memberID : String) : GoMap Ptr :=
  match server.Connections.get? memberID with
  | some user => if (server.heap user).IsOnline then members.set memberID user else members
  | none => members

/-- The member set `CreateRoom` builds: the creator when registered, then the listed ids. -/
def createRoomMembers (server : Server) (creatorID : String) (memberIDs : List String) :
    GoMap Ptr :=
  let withCreator : GoMap Ptr :=
    match server.Connections.get? creatorID with
    | some creator => GoMap.empty.set creatorID creator
    | none => GoMap.empty
  memberIDs.foldl (addListed server) withCreator

/-- The function `CreateRoom`; `rnd` is the value of `rand.Intn(100000)` and `now` the
formatted `time.Now()`.  The returned error is always nil, so the value is the room. -/
def CreateRoom (rnd : Fin 100000) (now : String) (server : Server) (roomName creatorID : String)
    (memberIDs : List String) : Outcome Room :=
  if server.Mutex then ⟨server, [], .blocked⟩
  else
    let roomID := generateRoomID rnd
    let room : Room :=
      { ID := roomID, Name := roomName,
        Members := createRoomMembers server creatorID memberIDs,
        CreatedBy := creatorID, CreatedAt := now }
    ⟨{ server with Rooms := server.Rooms.set roomID room }, [], .returned room⟩

/-- The function `AddUserToRoom`; `some` text is the error it returns. -/
def AddUserToRoom (server : Server) (roomID userID : String) : Outcome (Option String) :=
  if server.Mutex then ⟨server, [], .blocked⟩
  else
    match server.Rooms.get? roomID with
    | none => ⟨server, [], .returned (some "room not found")⟩
    | some room =>
      match server.Connections.get? userID with
      | none => ⟨server, [], .returned (some "user not found")⟩
      | some user =>
        ⟨{ server with
            Rooms := server.Rooms.set roomID { room with Members := room.Members.set userID user } },
          [], .returned none⟩

/-- The function `RemoveUserFromRoom`; `some` text is the error it returns. -/
def RemoveUserFromRoom (server : Server) (roomID userID : String) : Outcome (Option String) :=
  if server.Mutex then ⟨server, [], .blocked⟩
  else
    match server.Rooms.get? roomID with
    | none => ⟨server, [], .returned (some "room not found")⟩
    | some room =>
      ⟨{ server with
          Rooms := server.Rooms.set roomID { room with Members := room.Members.erase userID } },
        [], .returned none⟩

/-- The function `GetOnlineUsersList`: copies of the users that are online. -/
def GetOnlineUsersList (server : Server) : Outcome (List User) :=
  if server.Mutex then ⟨server, [], .blocked⟩
  else
    ⟨server, [],
      .returned ((server.Connections.values.map server.heap).filter fun u => u.IsOnline)⟩

/-! ## The dispatcher `handleUserMessages` -/

/-- What one iteration of the dispatcher takes from outside the modelled code: whether a
`Write` on a connection reports an error, the values of `rand.Intn(100000)` and of the
formatted `time.Now()`, and the five handlers of package `connection` that are defined in
another file of the package, not part of this development (they may change the server and
write as they please). -/
structure Env where
  writeFails : NetConn → Bool
  rnd : Fin 100000
  now : String
  HandleFileTransfer : Server → NetConn → String → String → Int → Outcome Unit
  HandleFolderTransfer : Server → NetConn → String → String → Int → Outcome Unit
  HandleLookupRequest : Server → NetConn → String → Outcome Unit
  HandleLookupResponse : Server → NetConn → String → List String → Outcome Unit
  HandleDownloadRequest : Server → NetConn → String → String → String → Outcome Unit

/-- The iteration goes on to the next read without any effect (`continue`). -/
def skip (server : Server) : Outcome LoopCtl := ⟨server, [], .returned .again⟩

/-- The iteration ends with `continue` after a call of an outside handler. -/
def afterHandler (o : Outcome Unit) : Outcome LoopCtl :=
  ⟨o.server, o.out, o.ending.map fun _ => .again⟩

/-- Read error and `/exit`: the user goes offline under the lock, the others are told,
the loop returns. -/
def onDisconnect (user : Ptr) (server : Server) : Outcome LoopCtl :=
  if server.Mutex then ⟨server, [], .blocked⟩
  else
    let s1 := server.setUser user { server.heap user with IsOnline := false }
    let b := BroadcastMessage ("User " ++ (s1.heap user).Username ++ " is now offline") s1 user
    ⟨b.server, b.out, b.ending.map fun _ => .exit⟩

/-- Case `/FILE_REQUEST` (and, with the other handler, `/FOLDER_REQUEST`). -/
def onTransferRequest (handler : Server → NetConn → String → String → Int → Outcome Unit)
    (conn : NetConn) (server : Server) (messageContent : String) : Outcome LoopCtl :=
  match SplitN messageContent ' ' 5 with
  | [_, recipientId, fileName, size] =>
    match ParseInt (TrimSpace size) with
    | none => skip server
    | some fileSize => afterHandler (handler server conn recipientId fileName fileSize)
  | [_, recipientId, fileName, size, checksum] =>
    match ParseInt (TrimSpace size) with
    | none => skip server
    | some fileSize =>
      afterHandler (handler server conn recipientId (fileName ++ "|" ++ TrimSpace checksum) fileSize)
  | _ => skip server

/-- Case `/status`: the header, then one line per online user, all on `conn`. -/
def onStatus (env : Env) (conn : NetConn) (user : Ptr) (server : Server) : Outcome LoopCtl :=
  if env.writeFails conn then ⟨server, [⟨user, conn, "USERS:"⟩], .returned .again⟩
  else
    ⟨server,
      ⟨user, conn, "USERS:"⟩ ::
        server.Connections.entries.filterMap (fun e =>
          let u := server.heap e.2
          if u.IsOnline then
            some ⟨user, conn, u.Username ++ " (" ++ u.UserId ++ ") is online\n"⟩
          else none),
      .returned .again⟩

/-- Case `/GET_ONLINE_USERS`. -/
def onGetOnlineUsers (conn : NetConn) (user : Ptr) (server : Server) : Outcome LoopCtl :=
  let g := GetOnlineUsersList server
  match g.ending with
  | .returned users =>
    let response := users.foldl
      (fun response u =>
        if u.UserId ≠ (g.server.heap user).UserId then
          response ++ (" " ++ u.UserId ++ "|" ++ u.Username)
        else response)
      "ONLINE_USERS_LIST"
    ⟨g.server, [⟨user, conn, response ++ "\n"⟩], .returned .again⟩
  | .blocked => ⟨g.server, g.out, .blocked⟩
  | .panicked => ⟨g.server, g.out, .panicked⟩

/-- Case `/CREATE_ROOM`: the room is created, then every online member is told. -/
def onCreateRoom (env : Env) (user : Ptr) (server : Server) (messageContent : String) :
    Outcome LoopCtl :=
  match SplitN messageContent ' ' 3 with
  | [_, roomName, memberIDsStr] =>
    let c := CreateRoom env.rnd env.now server roomName (server.heap user).UserId
      (Split memberIDsStr ',')
    match c.ending with
    | .returned room =>
      ⟨c.server,
        room.Members.entries.filterMap (fun e =>
          let member := e.2
          if (c.server.heap member).IsOnline then
            some ⟨member, (c.server.heap member).Conn,
              "ROOM_CREATED " ++ room.ID ++ " " ++ room.Name ++ " " ++
                (c.server.heap user).Username ++ "\n"⟩
          else none),
        .returned .again⟩
    | .blocked => ⟨c.server, c.out, .blocked⟩
    | .panicked => ⟨c.server, c.out, .panicked⟩
  | _ => skip server

/-- Case `/JOIN_ROOM`. -/
def onJoinRoom (conn : NetConn) (user : Ptr) (server : Server) (messageContent : String) :
    Outcome LoopCtl :=
  match SplitN messageContent ' ' 2 with
  | [_, arg] =>
    let roomID := TrimSpace arg
    if server.Mutex then ⟨server, [], .blocked⟩
    else
      match server.Rooms.get? roomID with
      | none => ⟨server, [⟨user, conn, "ROOM_NOT_FOUND\n"⟩], .returned .again⟩
      | some room =>
        match room.Members.get? (server.heap user).UserId with
        | none => ⟨server, [⟨user, conn, "NOT_ROOM_MEMBER\n"⟩], .returned .again⟩
        | some _ =>
          ⟨server.setUser user { server.heap user with CurrentRoomID := roomID },
            [⟨user, conn, "ROOM_JOINED " ++ roomID ++ " " ++ room.Name ++ "\n"⟩],
            .returned .again⟩
  | _ => skip server

/-- Case `/LEAVE_ROOM`. -/
def onLeaveRoom (conn : NetConn) (user : Ptr) (server : Server) : Outcome LoopCtl :=
  if (server.heap user).CurrentRoomID ≠ "" then
    let oldRoomID := (server.heap user).CurrentRoomID
    ⟨server.setUser user { server.heap user with CurrentRoomID := "" },
      [⟨user, conn, "ROOM_LEFT " ++ oldRoomID ++ "\n"⟩], .returned .again⟩
  else skip server

/-- Entries of the `/LIST_ROOMS` reply: id, name and member count of every room of the
directory whose member map has the key `userId`. -/
def roomsListEntries (server : Server) (userId : String) : List (String × String × Nat) :=
  server.Rooms.entries.filterMap fun e =>
    match e.2.Members.get? userId with
    | some _ => some (e.1, e.2.Name, e.2.Members.size)
    | none => none

/-- The text `fmt.Sprintf(" %s|%s|%d", roomID, room.Name, len(room.Members))`. -/
def roomsListEntry (e : String × String × Nat) : String :=
  " " ++ e.1 ++ "|" ++ e.2.1 ++ "|" ++ toString e.2.2

/-- Case `/LIST_ROOMS`. -/
def onListRooms (conn : NetConn) (user : Ptr) (server : Server) : Outcome LoopCtl :=
  if server.Mutex then ⟨server, [], .blocked⟩
  else
    let response := (roomsListEntries server (server.heap user).UserId).foldl
      (fun response e => response ++ roomsListEntry e) "ROOMS_LIST"
    ⟨server, [⟨user, conn, response ++ "\n"⟩], .returned .again⟩

/-- Case `/ROOM_MESSAGE`. -/
def onRoomMessage (user : Ptr) (server : Server) (messageContent : String) : Outcome LoopCtl :=
  match SplitN messageContent ' ' 3 with
  | [_, roomID, content] =>
    if server.Mutex then ⟨server, [], .blocked⟩
    else
      match server.Rooms.get? roomID with
      | none => skip server
      | some room =>
        match room.Members.get? (server.heap user).UserId with
        | none => skip server
        | some _ =>
          afterHandler
            (BroadcastRoomMessage roomID (server.heap user).Username content server user)
  | _ => skip server

/-- Case `/LOOK`. -/
def onLook (env : Env) (conn : NetConn) (server : Server) (messageContent : String) :
    Outcome LoopCtl :=
  match SplitN messageContent ' ' 2 with
  | [_, arg] => afterHandler (env.HandleLookupRequest server conn (TrimSpace arg))
  | _ => skip server

/-- Case `/DIR_LISTING`. -/
def onDirListing (env : Env) (conn : NetConn) (server : Server) (messageContent : String) :
    Outcome LoopCtl :=
  match SplitN messageContent ' ' 3 with
  | [_, userId, files] =>
    afterHandler
      (env.HandleLookupResponse server conn (TrimSpace userId) (Split (TrimSpace files) ' '))
  | _ => skip server

/-- Case `/DOWNLOAD_REQUEST`. -/
def onDownloadRequest (env : Env) (conn : NetConn) (user : Ptr) (server : Server)
    (messageContent : String) : Outcome LoopCtl :=
  match SplitN messageContent ' ' 3 with
  | [_, senderId, filePath] =>
    afterHandler
      (env.HandleDownloadRequest server conn (TrimSpace senderId) (server.heap user).UserId
        (TrimSpace filePath))
  | _ => skip server

/-- The default case: a chat line goes to the current room when one is set, to everybody
otherwise. -/
def onChat (user : Ptr) (server : Server) (messageContent : String) : Outcome LoopCtl :=
  if (server.heap user).CurrentRoomID ≠ "" then
    afterHandler
      (BroadcastRoomMessage (server.heap user).CurrentRoomID (server.heap user).Username
        messageContent server user)
  else afterHandler (BroadcastMessage messageContent server user)

/-- One iteration of the loop of `handleUserMessages(conn, user, server)` on the result
`read` of `conn.Read` (`none` is an error): the `switch` in source order. -/
def handleUserMessages (env : Env) (conn : NetConn) (user : Ptr) (server : Server)
    (read : Option String) : Outcome LoopCtl :=
  match read with
  | none => onDisconnect user server
  | some messageContent =>
    if messageContent = "/exit" then onDisconnect user server
    else if HasPrefix messageContent "/FILE_REQUEST" then
      onTransferRequest env.HandleFileTransfer conn server messageContent
    else if HasPrefix messageContent "/FOLDER_REQUEST" then
      onTransferRequest env.HandleFolderTransfer conn server messageContent
    else if messageContent = "PONG\n" then skip server
    else if HasPrefix messageContent "/status" then onStatus env conn user server
    else if HasPrefix messageContent "/GET_ONLINE_USERS" then onGetOnlineUsers conn user server
    else if HasPrefix messageContent "/CREATE_ROOM" then onCreateRoom env user server messageContent
    else if HasPrefix messageContent "/JOIN_ROOM" then onJoinRoom conn user server messageContent
    else if HasPrefix messageContent "/LEAVE_ROOM" then onLeaveRoom conn user server
    else if HasPrefix messageContent "/LIST_ROOMS" then onListRooms conn user server
    else if HasPrefix messageContent "/ROOM_MESSAGE" then onRoomMessage user server messageContent
    else if HasPrefix messageContent "/LOOK" then onLook env conn server messageContent
    else if HasPrefix messageContent "/DIR_LISTING" then onDirListing env conn server messageContent
    else if HasPrefix messageContent "/DOWNLOAD_REQUEST" then
      onDownloadRequest env conn user server messageContent
    else onChat user server messageContent

/-! ## Heartbeat -/

/-- The loop `for _, user := range server.Connections` of one tick of `StartHeartBeat`,
run with `server.Mutex` held, followed by the `Unlock` that ends the tick. -/
def heartBeatLoop (writeFails : NetConn → Bool) :
    List (String × Ptr) → Server → List Write → Outcome Unit
  | [], s, out => ⟨{ s with Mutex := false }, out, .returned ()⟩
  | e :: rest, s, out =>
    let user := e.2
    if (s.heap user).IsOnline then
      let ping : Write := ⟨user, (s.heap user).Conn, "PING\n"⟩
      if writeFails (s.heap user).Conn then
        let s1 := s.setUser user { s.heap user with IsOnline := false }
        let b := BroadcastMessage ("User " ++ (s1.heap user).Username ++ " is now offline") s1 user
        match b.ending with
        | .returned _ => heartBeatLoop writeFails rest b.server (out ++ ping :: b.out)
        | .blocked => ⟨b.server, out ++ ping :: b.out, .blocked⟩
        | .panicked => ⟨b.server, out ++ ping :: b.out, .panicked⟩
      else heartBeatLoop writeFails rest s (out ++ [ping])
    else heartBeatLoop writeFails rest s out

/-- One tick of the goroutine started by `StartHeartBeat`: lock, probe every online user,
unlock. -/
def heartBeatTick (writeFails : NetConn → Bool) (server : Server) : Outcome Unit :=
  if server.Mutex then ⟨server, [], .blocked⟩
  else heartBeatLoop writeFails server.Connections.entries { server with Mutex := true } []

/-! ## Discovery (`client/internal/discovery.go`) -/

/-- The struct `DiscoveredServer`. -/
structure DiscoveredServer where
  Address : String
  IP : String
  Port : String
deriving DecidableEq

/-- The receive loop of `DiscoverServers` over the results of `ReadFromUDP` up to the
time-out that ends the scan: `none` is an error other than the time-out, `some` a datagram. -/
def discoverLoop : List (Option String) → List DiscoveredServer → GoMap Bool →
    List DiscoveredServer
  | [], servers, _ => servers
  | none :: rest, servers, serverMap => discoverLoop rest servers serverMap
  | some message :: rest, servers, serverMap =>
    if HasPrefix message "DRIZLINK_SERVER:" then
      match Split message ':' with
      | [_, serverIP, serverPort] =>
        let serverAddress := serverIP ++ ":" ++ serverPort
        if (serverMap.get? serverAddress).getD false then discoverLoop rest servers serverMap
        else
          discoverLoop rest (servers ++ [⟨serverAddress, serverIP, serverPort⟩])
            (serverMap.set serverAddress true)
      | _ => discoverLoop rest servers serverMap
    else discoverLoop rest servers serverMap

/-- The function `DiscoverServers`: `resolveErr` and `listenErr` are the errors of
`net.ResolveUDPAddr` and `net.ListenUDP`, if any; `reads` are the reads of the scan window. -/
def DiscoverServers (resolveErr listenErr : Option String) (reads : List (Option String)) :
    Except String (List DiscoveredServer) :=
  match resolveErr with
  | some err => .error ("error resolving UDP address: " ++ err)
  | none =>
    match listenErr with
    | some err => .error ("error creating UDP listener: " ++ err)
    | none => .ok (discoverLoop reads [] GoMap.empty)

/-- The beacon text `fmt.Sprintf("DRIZLINK_SERVER:%s:%s", serverIP, port)` that
`StartDiscoveryBroadcast` sends. -/
def beacon (ip port : String) : String := "DRIZLINK_SERVER:" ++ ip ++ ":" ++ port

/-- The text has no colon. -/
def colonFree (s : String) : Prop := ':' ∉ s.data

/-- Position of the first occurrence of `x` in a list of reads (its length when absent). -/
def firstIndex (x : Option String) : List (Option String) → Nat
  | [] => 0
  | y :: ys => if y = x then 0 else firstIndex x ys + 1

/-- What the scan has collected after the reads `pre`: every entry is the pair of a
received beacon with colon-free fields, every such beacon has its entry, no address
occurs twice, and the entries stand in the order in which their beacons first arrived. -/
structure ScanInv (pre : List (Option String)) (servers : List DiscoveredServer) : Prop where
  shape : ∀ e ∈ servers, e.Address = e.IP ++ ":" ++ e.Port ∧ colonFree e.IP ∧
    colonFree e.Port ∧ some (beacon e.IP e.Port) ∈ pre
  complete : ∀ ip port, colonFree ip → colonFree port → some (beacon ip port) ∈ pre →
    (⟨ip ++ ":" ++ port, ip, port⟩ : DiscoveredServer) ∈ servers
  nodup : (servers.map DiscoveredServer.Address).Nodup
  order : servers.Pairwise fun e₁ e₂ =>
    firstIndex (some (beacon e₁.IP e₁.Port)) pre < firstIndex (some (beacon e₂.IP e₂.Port)) pre

/-! ## Registry states -/

/-- The registry as `main` creates it: empty tables, nothing allocated, mutex free. -/
def Server.init (address : String) : Server :=
  { Address := address, Connections := GoMap.empty, IpAddresses := GoMap.empty,
    Rooms := GoMap.empty, Mutex := false, heap := fun _ => default, next := 0 }

/-- Sessions the registry holds: the users either table points to. -/
def Server.sessions (s : Server) : List Ptr := s.Connections.values ++ s.IpAddresses.values

/-- Consistency of the two tables between calls: the mutex is free, every entry of the IP
table is an allocated user filed under its own address, and every user of `Connections`
is in the IP table. -/
structure Server.Registered (s : Server) : Prop where
  free : s.Mutex = false
  ips : ∀ ip p, s.IpAddresses.get? ip = some p → p < s.next ∧ (s.heap p).IpAddress = ip
  conns : ∀ k p, s.Connections.get? k = some p → s.IpAddresses.get? (s.heap p).IpAddress = some p

/-- No two distinct sessions held by the registry have the same source IP. -/
def Server.OnePerIP (s : Server) : Prop :=
  ∀ p ∈ s.sessions, ∀ q ∈ s.sessions, (s.heap p).IpAddress = (s.heap q).IpAddress → p = q

/-- Consistency of the references between calls: the tables are consistent, every user of
`Connections` is filed under its own id, and every member entry of every room points to an
allocated user filed under its own id. -/
structure Server.Filed (s : Server) : Prop where
  registered : s.Registered
  conns : ∀ k p, s.Connections.get? k = some p → (s.heap p).UserId = k
  rooms : ∀ rid room, s.Rooms.get? rid = some room →
    ∀ k p, room.Members.get? k = some p → p < s.next ∧ (s.heap p).UserId = k

/-- The server after a sequence of `HandleConnection` calls, each with its generated id. -/
def handleConnections : List (String × Inbound) → Server → Server
  | [], s => s
  | (g, c) :: cs, s => handleConnections cs (HandleConnection g c s).server

/-- The outside handlers keep the two tables consistent, and keep the references
consistent. -/
structure Env.KeepsRegistry (env : Env) : Prop where
  file : ∀ s conn a b n, s.Registered → (env.HandleFileTransfer s conn a b n).server.Registered
  folder : ∀ s conn a b n, s.Registered →
    (env.HandleFolderTransfer s conn a b n).server.Registered
  lookup : ∀ s conn a, s.Registered → (env.HandleLookupRequest s conn a).server.Registered
  listing : ∀ s conn a l, s.Registered → (env.HandleLookupResponse s conn a l).server.Registered
  download : ∀ s conn a b d, s.Registered →
    (env.HandleDownloadRequest s conn a b d).server.Registered
  fileRefs : ∀ s conn a b n, s.Filed → (env.HandleFileTransfer s conn a b n).server.Filed
  folderRefs : ∀ s conn a b n, s.Filed → (env.HandleFolderTransfer s conn a b n).server.Filed
  lookupRefs : ∀ s conn a, s.Filed → (env.HandleLookupRequest s conn a).server.Filed
  listingRefs : ∀ s conn a l, s.Filed → (env.HandleLookupResponse s conn a l).server.Filed
  downloadRefs : ∀ s conn a b d, s.Filed → (env.HandleDownloadRequest s conn a b d).server.Filed

/-- What happens at the server, one thing at a time: a connection is accepted and handled
by `HandleConnection` (with the id generated for it), or the loop of `handleUserMessages`
for `user` on `conn` makes one iteration on the result of its read. -/
inductive Event where
  | connect (GenerateUserId : String) (c : Inbound)
  | message (env : Env) (conn : NetConn) (user : Ptr) (read : Option String)

/-- The server after one event. -/
def Server.step (s : Server) : Event → Server
  | .connect g c => (HandleConnection g c s).server
  | .message env conn user read => (handleUserMessages env conn user s read).server

/-- The server after a sequence of events. -/
def Server.run : List Event → Server → Server
  | [], s => s
  | e :: es, s => Server.run es (s.step e)

/-- Every iteration of the dispatcher among the events runs with outside handlers that keep
the tables and the references consistent. -/
def Event.Tame : Event → Prop
  | .connect _ _ => True
  | .message env _ _ _ => env.KeepsRegistry

/-- A registry with four identities `C`, `A`, `B`, `D` connected from four hosts. -/
def demoServer : Server :=
  handleConnections
    [("C", ⟨1, "10.0.0.1:5000", false, [some "carol", some "/home/carol"]⟩),
     ("A", ⟨2, "10.0.0.2:5000", false, [some "ann", some "/home/ann"]⟩),
     ("B", ⟨3, "10.0.0.3:5000", false, [some "bob", some "/home/bob"]⟩),
     ("D", ⟨4, "10.0.0.4:5000", false, [some "dan", some "/home/dan"]⟩)]
    (Server.init ":8080")

/-- An environment whose outside handlers do nothing and in which no write fails. -/
def demoEnv : Env :=
  { writeFails := fun _ => false, rnd := ⟨7, by decide⟩, now := "2024-01-01 00:00:00",
    HandleFileTransfer := fun s _ _ _ _ => ⟨s, [], .returned ()⟩,
    HandleFolderTransfer := fun s _ _ _ _ => ⟨s, [], .returned ()⟩,
    HandleLookupRequest := fun s _ _ => ⟨s, [], .returned ()⟩,
    HandleLookupResponse := fun s _ _ _ => ⟨s, [], .returned ()⟩,
    HandleDownloadRequest := fun s _ _ _ _ => ⟨s, [], .returned ()⟩ }

/-! ## Discovery broadcast (`StartDiscoveryBroadcast`) -/

/-- The call `strings.TrimPrefix(s, pre)`. -/
def TrimPrefix (s pre : String) : String :=
  if HasPrefix s pre then ⟨s.data.drop pre.data.length⟩ else s

/-- The call `strings.Join(elems, sep)`. -/
def Join : List String → String → String
  | [], _ => ""
  | [a], _ => a
  | a :: b :: rest, sep => a ++ sep ++ Join (b :: rest) sep

/-- The text `ip.String()` of an IPv4 address, as `getServerIP` returns it: the four octets
in decimal, separated by dots. -/
def ipv4Text (a b c d : Fin 256) : String :=
  toString a.val ++ "." ++ toString b.val ++ "." ++ toString c.val ++ "." ++ toString d.val

/-- The text `broadcastMsg` of `StartDiscoveryBroadcast`: the port is the listening address
with a leading colon removed. -/
def broadcastMsg (serverAddress serverIP : String) : String :=
  beacon serverIP (TrimPrefix serverAddress ":")

/-- The function `StartDiscoveryBroadcast` over its first `ticks` ticks: the datagrams it
writes.  `getServerIP` is the result of `getServerIP()` (an address of the first interface
that is up, not loopback and has an IPv4 address, or an error) and `dialErr` the error of
`net.Dial`, if any; on either error the function returns without a write. -/
def StartDiscoveryBroadcast (serverAddress : String) (getServerIP : Except String String)
    (dialErr : Option String) (ticks : Nat) : List String :=
  match getServerIP with
  | .error _ => []
  | .ok serverIP =>
    match dialErr with
    | some _ => []
    | none => List.replicate ticks (broadcastMsg serverAddress serverIP)

/-- The parse at the head of case `/CREATE_ROOM` of the dispatcher on `messageContent`, the
text that its read into a buffer of 1024 bytes returned: the room name and the member ids
that the dispatcher passes to `CreateRoom`. -/
def parseCreateRoom (messageContent : String) : Option (String × List String) :=
  match SplitN messageContent ' ' 3 with
  | [_, roomName, memberIDsStr] => some (roomName, Split memberIDsStr ',')
  | _ => none

/-! ## Reads into a buffer of 1024 bytes -/

/-- Number of bytes of a text in UTF-8, the `len` of the Go string. -/
def byteLen : List Char → Nat
  | [] => 0
  | c :: cs => c.utf8Size + byteLen cs

/-- The longest run of whole characters at the head of a text that fits in `n` bytes. -/
def takeBytes : Nat → List Char → List Char
  | _, [] => []
  | n, c :: cs => if c.utf8Size ≤ n then c :: takeBytes (n - c.utf8Size) cs else []

/-- The text `string(buffer[:n])` after `n, err := conn.Read(buffer)` with
`buffer := make([]byte, 1024)` and no error, when `arrived` is the text waiting on the
connection: all of it when it has at most 1024 bytes, otherwise what of it fits in 1024
bytes.  (When the cut falls inside a character of several bytes, the Go string also holds
the leading bytes of that character; they are no character and are left out here.) -/
def readBuffer (arrived : String) : String := ⟨takeBytes 1024 arrived.data⟩

/-- What is still waiting on the connection after that read. -/
def afterRead (arrived : String) : String :=
  ⟨arrived.data.drop (takeBytes 1024 arrived.data).length⟩

/-- The text of `n` times the character `c`. -/
def repeatChar (c : Char) (n : Nat) : String := ⟨List.replicate n c⟩

/-! ## The client (`client/internal/connection.go`, `client/cmd/client.go`) -/

namespace Client

/-- How a call of `UserInput` ends: it returns the error "reconnect"; it writes the typed
value and returns nil; the write fails and it panics; or it asks for a directory for ever. -/
inductive UserInputEnd where
  | reconnect
  | sent (input : String)
  | panicked
  | stuck
deriving DecidableEq

/-- The test at the head of `UserInput` on the result of the read (`none` is an error, among
them the time-out of two seconds): a non-empty message that starts with `/RECONNECT` and has
exactly three fields when split at blanks into at most four. -/
def isReconnect (read : Option String) : Bool :=
  match read with
  | none => false
  | some message =>
    message.data.length > 0 && HasPrefix message "/RECONNECT" &&
      (SplitN message ' ' 4).length == 3

/-- The loop of `UserInput` for the attribute "Store File Path": the typed value is asked
again until `os.Stat` finds a directory (`isDir`).  `lines` are the results of the calls of
`reader.ReadString` still to come in this call of `UserInput`; past the end every
`ReadString` yields the empty text.  The result is the accepted value, or `none` when the
loop never ends. -/
def promptDirectory (isDir : String → Bool) : List String → String → Option String
  | [], input => if isDir input then some input else if isDir "" then some "" else none
  | line :: rest, input =>
    if isDir input then some input else promptDirectory isDir rest (TrimSpace line)

/-- The function `UserInput(attribute, conn)`, the attribute being `attributeName`:
`arrived` is the text waiting on the connection when `conn.Read` is called with its buffer
of 1024 bytes (`none`: the read reports an error, the time-out of two seconds among them),
`lines` are the results of the calls of `ReadString` on the reader that this call makes for
standard input, `isDir` tells whether a path is an existing directory, `writeFails` whether
`conn.Write` reports an error. -/
def UserInput (attributeName : String) (arrived : Option String) (lines : List String)
    (isDir : String → Bool) (writeFails : Bool) : UserInputEnd :=
  if isReconnect (arrived.map readBuffer) then .reconnect
  else
    let input := TrimSpace (lines.headD "")
    let checked : Option String :=
      if attributeName = "Store File Path" then promptDirectory isDir lines.tail input
      else some input
    match checked with
    | none => .stuck
    | some input => if writeFails then .panicked else .sent input

/-- How the login of `main` ends: it jumps to `startChat` on a reconnection without
having asked anything, it reaches `startChat` after sending name and path, or it does not
reach it. -/
inductive LoginEnd where
  | reconnected
  | registered (username path : String)
  | failed
deriving DecidableEq

/-- The login of `main` (the two calls of `UserInput` and the jumps to `startChat`):
`arrived₁`, `lines₁` and `arrived₂`, `lines₂` are what the two calls find on the connection
and read from their readers. -/
def login (arrived₁ arrived₂ : Option String) (lines₁ lines₂ : List String)
    (isDir : String → Bool) (writeFails : Bool) : LoginEnd :=
  match UserInput "Username" arrived₁ lines₁ isDir writeFails with
  | .reconnect => .reconnected
  | .sent username =>
    match UserInput "Store File Path" arrived₂ lines₂ isDir writeFails with
    | .reconnect => .reconnected
    | .sent path => .registered username path
    | _ => .failed
  | _ => .failed

/-- The cases of the `switch` of `ReadLoop`. -/
inductive ReadCase where
  | fileResponse
  | folderResponse
  | onlineUsersList
  | roomCreated
  | roomJoined
  | roomLeft
  | roomsList
  | roomNotFound
  | notRoomMember
  | ping
  | users
  | lookRequest
  | lookResponse
  | downloadRequest
  | chat
deriving DecidableEq

/-- The case of the `switch` of `ReadLoop` that a received message is dispatched to, in
source order; `chat` is the `default` case, which prints the message as a chat line. -/
def readLoopCase (message : String) : ReadCase :=
  if HasPrefix message "/FILE_RESPONSE" then .fileResponse
  else if HasPrefix message "/FOLDER_RESPONSE" then .folderResponse
  else if HasPrefix message "ONLINE_USERS_LIST" then .onlineUsersList
  else if HasPrefix message "ROOM_CREATED" then .roomCreated
  else if HasPrefix message "ROOM_JOINED" then .roomJoined
  else if HasPrefix message "ROOM_LEFT" then .roomLeft
  else if HasPrefix message "ROOMS_LIST" then .roomsList
  else if message = "ROOM_NOT_FOUND" then .roomNotFound
  else if message = "NOT_ROOM_MEMBER" then .notRoomMember
  else if HasPrefix message "PING" then .ping
  else if message = "USERS:" then .users
  else if HasPrefix message "/LOOK_REQUEST" then .lookRequest
  else if HasPrefix message "/LOOK_RESPONSE" then .lookResponse
  else if HasPrefix message "/DOWNLOAD_REQUEST" then .downloadRequest
  else .chat

/-- The users `handleOnlineUsersList` offers: one per non-empty item of the list that has
exactly two parts at the bar, as (id, name). -/
def offeredUsers (userPairs : List String) : List (String × String) :=
  userPairs.filterMap fun pair =>
    if pair = "" then none
    else
      match Split pair '|' with
      | [id, name] => some (id, name)
      | _ => none

/-- The ids `handleOnlineUsersList` selects: for each number of the selection that parses
and lies between 1 and the number of users, the id of that user. -/
def selectedUserIDs (users : List (String × String)) (selectedNumbers : List String) :
    List String :=
  selectedNumbers.filterMap fun numStr =>
    match ParseInt (TrimSpace numStr) with
    | none => none
    | some num =>
      if num < 1 ∨ num > (users.length : Int) then none
      else (users.get? (num.toNat - 1)).map Prod.fst

/-- The text `fmt.Sprintf("/CREATE_ROOM %s %s", roomName, strings.Join(selectedUserIDs, ","))`. -/
def createRoomMsg (roomName : String) (selectedUserIDs : List String) : String :=
  "/CREATE_ROOM " ++ roomName ++ " " ++ Join selectedUserIDs ","

/-- The function `handleOnlineUsersList(message)`: `nameLine` and `selectionLine` are the two
lines it reads from standard input.  The result is the value it gives to
`pendingRoomCreation` (the message `WriteLoop` then sends), `none` when it returns without
setting it. -/
def handleOnlineUsersList (message nameLine selectionLine : String) : Option String :=
  match SplitN message ' ' 2 with
  | [_, list] =>
    let users := offeredUsers (Split list ' ')
    if users.length = 0 then none
    else
      let roomName := TrimSpace nameLine
      if roomName = "" then none
      else
        let selection := TrimSpace selectionLine
        if selection = "" then none
        else
          let ids := selectedUserIDs users (Split selection ',')
          if ids.length = 0 then none
          else some (createRoomMsg roomName ids)
  | _ => none

end Client

/-! ## The client's command loop and its transfers -/

namespace Client

/-- What `WriteLoop` does with a typed line, case by case of its `switch`. -/
inductive WriteCmd where
  | exit
  | help
  | createRoom
  | joinRoom (roomID : String)
  | leaveRoom
  | rooms
  | sendFile (recipientId filePath : String)
  | sendFolder (recipientId folderPath : String)
  | lookup (recipientId : String)
  | status (message : String)
  | download (recipientId filePath : String)
  | transfers
  | pause (transferID : String)
  | resume (transferID : String)
  | usage
  | chat (message : String)
  | nothing
deriving DecidableEq

/-- The `switch` of `WriteLoop` on a line read from standard input, in source order;
`usage` stands for the cases that print "Invalid arguments" and go on. -/
def writeLoopCommand (line : String) : WriteCmd :=
  let message := TrimSpace line
  if message = "exit" then .exit
  else if message = "/help" then .help
  else if message = "/createroom" then .createRoom
  else if HasPrefix message "/joinroom" then
    match SplitN message ' ' 2 with
    | [_, roomID] => .joinRoom (TrimSpace roomID)
    | _ => .usage
  else if message = "/leaveroom" then .leaveRoom
  else if message = "/rooms" then .rooms
  else if HasPrefix message "/sendfile" then
    match SplitN message ' ' 3 with
    | [_, recipientId, filePath] => .sendFile recipientId filePath
    | _ => .usage
  else if HasPrefix message "/sendfolder" then
    match SplitN message ' ' 3 with
    | [_, recipientId, folderPath] => .sendFolder recipientId folderPath
    | _ => .usage
  else if HasPrefix message "/lookup" then
    match SplitN message ' ' 2 with
    | [_, recipientId] => .lookup recipientId
    | _ => .usage
  else if HasPrefix message "/status" then .status message
  else if HasPrefix message "/download" then
    match SplitN message ' ' 3 with
    | [_, recipientId, filePath] => .download recipientId filePath
    | _ => .usage
  else if HasPrefix message "/transfers" then .transfers
  else if HasPrefix message "/pause" then
    match SplitN message ' ' 2 with
    | [_, transferID] => .pause transferID
    | _ => .usage
  else if HasPrefix message "/resume" then
    match SplitN message ' ' 2 with
    | [_, transferID] => .resume transferID
    | _ => .usage
  else if message ≠ "" then .chat message
  else .nothing

/-- Modelled from the spec: the states of a Transfer Descriptor (§4.3); the descriptors and
the functions working on them are defined in a client file that is not part of this
development. -/
inductive TransferState where
  | requested
  | accepted
  | inProgress
  | completed
  | paused
  | failed
  | cancelled
deriving DecidableEq

/-- Modelled from the spec: a Transfer Descriptor (§3), with the bytes of the source, the
bytes written at the storage path so far, the current offset and the state.  The type of
descriptors is missing from the sources. -/
structure Transfer where
  id : String
  source : List Nat
  written : List Nat
  offset : Nat
  state : TransferState
deriving DecidableEq

/-- Modelled from the spec: a transfer at the start of its bulk copy (§4.3, Request): nothing
written, offset zero, in progress.  The function that starts the copy is missing from the
sources. -/
def Transfer.start (id : String) (source : List Nat) : Transfer :=
  ⟨id, source, [], 0, .inProgress⟩

/-- Modelled from the spec: the bytes that a copy of at most `n` bytes moves next: those of
the source from the current offset on (§4.3, Bulk copy).  The copy step is missing from the
sources. -/
def Transfer.chunk (n : Nat) (t : Transfer) : List Nat := (t.source.drop t.offset).take n

/-- Modelled from the spec: a copy of at most `n` bytes of a transfer in progress: the bytes
are appended to what is written and the offset advances by their number; a transfer that is
not in progress copies nothing (§4.3, Bulk copy and Pause).  The copy step is missing from
the sources. -/
def Transfer.copy (n : Nat) (t : Transfer) : Transfer :=
  if t.state = .inProgress then
    { t with written := t.written ++ t.chunk n, offset := t.offset + (t.chunk n).length }
  else t

/-- Modelled from the spec: `HandlePauseTransfer(transferID)`, missing from the sources: the
transfer of that id, when in progress, becomes paused; its offset and what it has written
are kept (§4.3, Pause). -/
def HandlePauseTransfer (transferID : String) (transfers : List Transfer) : List Transfer :=
  transfers.map fun t =>
    if t.id = transferID ∧ t.state = .inProgress then { t with state := .paused } else t

/-- Modelled from the spec: `HandleResumeTransfer(transferID)`, missing from the sources: the
transfer of that id, when paused, is in progress again, from the offset it kept (§4.3,
Resume: the only transition out of Paused). -/
def HandleResumeTransfer (transferID : String) (transfers : List Transfer) : List Transfer :=
  transfers.map fun t =>
    if t.id = transferID ∧ t.state = .paused then { t with state := .inProgress } else t

/-- The effect of a command of `WriteLoop` on the client's transfers: `/pause` and `/resume`
call their handlers with the id typed.  The other cases are taken to leave the transfers as
they are (those that start a transfer call handlers that are missing from the sources). -/
def writeLoopTransfers (cmd : WriteCmd) (transfers : List Transfer) : List Transfer :=
  match cmd with
  | .pause transferID => HandlePauseTransfer transferID transfers
  | .resume transferID => HandleResumeTransfer transferID transfers
  | _ => transfers

end Client

/-! ## Remote addresses -/

/-- The key `ip := strings.Split(ipAddr, ":")[0]` under which `HandleConnection` looks a
connection up in `server.IpAddresses`; `none` stands for an index out of range. -/
def registryKey (ipAddr : String) : Option String := (Split ipAddr ':').head?

/-- The call `net.JoinHostPort(host, port)`, which gives the text of
`conn.RemoteAddr().String()` for a TCP peer: `host:port`, with the host in square brackets
when it contains a colon (a literal IPv6 address). -/
def JoinHostPort (host port : String) : String :=
  if ':' ∈ host.data then "[" ++ host ++ "]:" ++ port else host ++ ":" ++ port

/-! ## Current-room references -/

/-- Every current-room reference is live: a user whose `CurrentRoomID` is not empty names
a room of the directory whose member map has an entry for the user's id. -/
def Server.Roomed (s : Server) : Prop :=
  ∀ p, (s.heap p).CurrentRoomID ≠ "" →
    ∃ room, s.Rooms.get? (s.heap p).CurrentRoomID = some room ∧
      (room.Members.get? (s.heap p).UserId).isSome = true

/-- The outside handlers keep every current-room reference live. -/
structure Env.KeepsRooms (env : Env) : Prop where
  file : ∀ s conn a b n, s.Roomed → (env.HandleFileTransfer s conn a b n).server.Roomed
  folder : ∀ s conn a b n, s.Roomed → (env.HandleFolderTransfer s conn a b n).server.Roomed
  lookup : ∀ s conn a, s.Roomed → (env.HandleLookupRequest s conn a).server.Roomed
  listing : ∀ s conn a l, s.Roomed → (env.HandleLookupResponse s conn a l).server.Roomed
  download : ∀ s conn a b d, s.Roomed → (env.HandleDownloadRequest s conn a b d).server.Roomed

/-- The event happens in state `s` with a fresh room id: when it is an iteration of the
dispatcher, its outside handlers keep the current-room references live, and when it is a
`/CREATE_ROOM` line the id generated for the room is not in the directory. -/
def Event.FreshIn (s : Server) : Event → Prop
  | .connect _ _ => True
  | .message env _ _ read =>
    env.KeepsRooms ∧
      ∀ m, read = some m → HasPrefix m "/CREATE_ROOM" = true →
        s.Rooms.get? (generateRoomID env.rnd) = none

/-- Every event of the sequence, started in `s`, happens with a fresh room id. -/
def Server.FreshRun : List Event → Server → Prop
  | [], _ => True
  | e :: es, s => e.FreshIn s ∧ Server.FreshRun es (s.step e)

/-- Four connections from four hosts, then three iterations of the dispatcher in which
`rand.Intn(100000)` yields 7 both times a room is created: `C` creates `team` with `D`,
`D` joins it, `A` creates `board` with `B`. -/
def collisionTrace : List Event :=
  [.connect "C" ⟨1, "10.0.0.1:5000", false, [some "carol", some "/home/carol"]⟩,
   .connect "A" ⟨2, "10.0.0.2:5000", false, [some "ann", some "/home/ann"]⟩,
   .connect "B" ⟨3, "10.0.0.3:5000", false, [some "bob", some "/home/bob"]⟩,
   .connect "D" ⟨4, "10.0.0.4:5000", false, [some "dan", some "/home/dan"]⟩,
   .message demoEnv 1 0 (some "/CREATE_ROOM team D"),
   .message demoEnv 4 3 (some "/JOIN_ROOM room_7"),
   .message demoEnv 2 1 (some "/CREATE_ROOM board B")]

/-! ## Facts about Go maps -/

theorem assocGet_assocSet {α : Type} (k k' : String) (v : α) (es : List (String × α)) :
    assocGet k' (assocSet k v es) = if k = k' then some v else assocGet k' es := by
  induction es with
  | nil => simp [assocSet, assocGet]
  | cons e es ih =>
    obtain ⟨k₁, v₁⟩ := e
    by_cases h : k₁ = k
    · subst h
      by_cases h' : k₁ = k' <;> simp [assocSet, assocGet, h']
    · by_cases h' : k₁ = k'
      · subst h'
        have : ¬ k = k₁ := fun e => h e.symm
        simp [assocSet, assocGet, h, this]
      · simp [assocSet, assocGet, h, h', ih]

theorem assocGet_eq_none {α : Type} (k : String) (es : List (String × α)) :
    assocGet k es = none ↔ k ∉ es.map Prod.fst := by
  induction es with
  | nil => simp [assocGet]
  | cons e es ih =>
    obtain ⟨k₁, v₁⟩ := e
    by_cases h : k₁ = k
    · simp [assocGet, h]
    · have h' : ¬ k = k₁ := fun e => h e.symm
      simp [assocGet, h, h', ih]

theorem assocGet_eq_some {α : Type} (k : String) (v : α) (es : List (String × α))
    (hn : (es.map Prod.fst).Nodup) : assocGet k es = some v ↔ (k, v) ∈ es := by
  induction es with
  | nil => simp [assocGet]
  | cons e es ih =>
    obtain ⟨k₁, v₁⟩ := e
    simp only [List.map_cons, List.nodup_cons] at hn
    by_cases h : k₁ = k
    · subst h
      simp only [assocGet, if_true, Option.some.injEq, List.mem_cons, Prod.mk.injEq, true_and]
      constructor
      · intro e; exact Or.inl e.symm
      · rintro (e | hm)
        · exact e.symm
        · exact absurd (List.mem_map_of_mem Prod.fst hm) hn.1
    · have h' : ¬ k = k₁ := fun e => h e.symm
      simp [assocGet, h, h', ih hn.2]

namespace GoMap

variable {α : Type}

theorem entries_inj {m m' : GoMap α} (h : m.entries = m'.entries) : m = m' := by
  cases m; cases m'; cases h; rfl

theorem get?_set (m : GoMap α) (k k' : String) (v : α) :
    (m.set k v).get? k' = if k = k' then some v else m.get? k' :=
  assocGet_assocSet k k' v m.entries

theorem get?_eq_none (m : GoMap α) (k : String) : m.get? k = none ↔ k ∉ m.keys :=
  assocGet_eq_none k m.entries

theorem get?_eq_some (m : GoMap α) (k : String) (v : α) :
    m.get? k = some v ↔ (k, v) ∈ m.entries :=
  assocGet_eq_some k v m.entries m.nodup

theorem mem_keys_iff (m : GoMap α) (k : String) : k ∈ m.keys ↔ ∃ v, m.get? k = some v := by
  constructor
  · intro h
    cases hg : m.get? k with
    | none => exact absurd h ((m.get?_eq_none k).1 hg)
    | some v => exact ⟨v, rfl⟩
  · rintro ⟨v, hv⟩
    by_contra hk
    rw [(m.get?_eq_none k).2 hk] at hv
    cases hv

theorem set_entries_of_none (m : GoMap α) (k : String) (v : α) (h : m.get? k = none) :
    (m.set k v).entries = m.entries ++ [(k, v)] := by
  have hk : k ∉ m.entries.map Prod.fst := (m.get?_eq_none k).1 h
  show assocSet k v m.entries = m.entries ++ [(k, v)]
  generalize m.entries = es at hk
  induction es with
  | nil => rfl
  | cons e es ih =>
    obtain ⟨k₁, v₁⟩ := e
    simp only [List.map_cons, List.mem_cons, not_or] at hk
    have h1 : ¬ k₁ = k := fun e => hk.1 e.symm
    simp [assocSet, h1, ih hk.2]

theorem keys_set (m : GoMap α) (k : String) (v : α) :
    (m.set k v).keys = if k ∈ m.keys then m.keys else m.keys ++ [k] :=
  assocSet_keys k v m.entries

end GoMap

/-! ## Facts about strings -/

theorem splitChars_ne_nil (sep : Char) (s : List Char) : splitChars sep s ≠ [] := by
  cases s with
  | nil => simp [splitChars]
  | cons c cs =>
    simp only [splitChars]
    split
    · simp
    · split <;> simp

theorem split_head_exists (s : String) (sep : Char) : ∃ h, (Split s sep).head? = some h := by
  unfold Split
  cases hs : splitChars sep s.data with
  | nil => exact absurd hs (splitChars_ne_nil sep s.data)
  | cons p ps => exact ⟨String.mk p, rfl⟩

/-! ## C1, C2: the connection registry -/

theorem broadcastMessage_server (content : String) (s : Server) (sender : Ptr) :
    (BroadcastMessage content s sender).server = s := by
  unfold BroadcastMessage
  split <;> rfl

theorem mem_values_iff {α : Type} (m : GoMap α) (v : α) :
    v ∈ m.values ↔ ∃ k, m.get? k = some v := by
  unfold GoMap.values
  constructor
  · intro h
    obtain ⟨⟨k, v'⟩, hm, rfl⟩ := List.mem_map.1 h
    exact ⟨k, (m.get?_eq_some k v').2 hm⟩
  · rintro ⟨k, hk⟩
    exact List.mem_map.2 ⟨(k, v), (m.get?_eq_some k v).1 hk, rfl⟩

theorem registered_session_filed (s : Server) (h : s.Registered) (p : Ptr) (hp : p ∈ s.sessions) :
    s.IpAddresses.get? (s.heap p).IpAddress = some p := by
  unfold Server.sessions at hp
  rcases List.mem_append.1 hp with hc | hi
  · obtain ⟨k, hk⟩ := (mem_values_iff _ _).1 hc
    exact h.conns k p hk
  · obtain ⟨ip, hip⟩ := (mem_values_iff _ _).1 hi
    rw [(h.ips ip p hip).2]
    exact hip

theorem registered_onePerIP (s : Server) (h : s.Registered) : s.OnePerIP := by
  intro p hp q hq he
  have h1 := registered_session_filed s h p hp
  have h2 := registered_session_filed s h q hq
  rw [he, h2] at h1
  exact (Option.some.inj h1).symm

theorem registered_init (address : String) : (Server.init address).Registered := by
  refine ⟨rfl, ?_, ?_⟩ <;> intro k p h <;> simp [Server.init, GoMap.get?, GoMap.empty, assocGet] at h

theorem handleConnection_registered (g : String) (c : Inbound) (s : Server) (h : s.Registered) :
    (HandleConnection g c s).server.Registered := by
  unfold HandleConnection
  split
  · exact h
  · rename_i ip _
    split
    · rename_i existingUser hex
      split
      · exact h
      · simp only [h.free, Bool.false_eq_true, if_false, broadcastMessage_server]
        refine ⟨by simp [Server.setUser, h.free], ?_, ?_⟩
        · intro ip' p hp
          have := h.ips ip' p hp
          refine ⟨this.1, ?_⟩
          simp only [Server.setUser]
          split
          · rename_i e; subst e; exact this.2
          · exact this.2
        · intro k p hp
          have := h.conns k p hp
          simp only [Server.setUser]
          split
          · rename_i e; subst e; exact this
          · exact this
    · rename_i hnone
      split
      · rename_i username storeFilePath rest
        simp only [h.free, Bool.false_eq_true, if_false, broadcastMessage_server]
        refine ⟨by simp [Server.setUser, h.free], ?_, ?_⟩
        · intro ip' p hp
          simp only [GoMap.get?_set] at hp
          split at hp
          · rename_i e
            cases hp
            simp [e]
          · have := h.ips ip' p hp
            have hne : p ≠ s.next := Nat.ne_of_lt this.1
            simp only [hne, if_false]
            exact ⟨Nat.lt_succ_of_lt this.1, this.2⟩
        · intro k p hp
          simp only [GoMap.get?_set] at hp
          split at hp
          · cases hp
            simp [GoMap.get?_set]
          · have hf := h.conns k p hp
            have hlt := (h.ips _ p hf).1
            have hne : p ≠ s.next := Nat.ne_of_lt hlt
            simp only [hne, if_false, GoMap.get?_set]
            split
            · rename_i e
              rw [← e, hnone] at hf
              cases hf
            · exact hf
      · exact h

theorem handleConnections_registered (cs : List (String × Inbound)) (s : Server)
    (h : s.Registered) : (handleConnections cs s).Registered := by
  induction cs generalizing s with
  | nil => exact h
  | cons e cs ih =>
    obtain ⟨g, c⟩ := e
    exact ih _ (handleConnection_registered g c s h)

theorem handleConnection_known (g : String) (c : Inbound) (s : Server) (ip : String) (p : Ptr)
    (hip : (Split c.remoteAddr ':').head? = some ip) (hp : s.IpAddresses.get? ip = some p) :
    (HandleConnection g c s).server.Connections = s.Connections ∧
    (HandleConnection g c s).server.IpAddresses = s.IpAddresses ∧
    (HandleConnection g c s).server.next = s.next := by
  unfold HandleConnection
  simp only [hip, hp]
  split
  · exact ⟨rfl, rfl, rfl⟩
  · split
    · exact ⟨rfl, rfl, rfl⟩
    · simp [broadcastMessage_server, Server.setUser]

theorem handleConnection_unknown (g : String) (c : Inbound) (s : Server) (h : s.Registered)
    (ip username path : String) (rest : List (Option String))
    (hip : (Split c.remoteAddr ':').head? = some ip) (hnone : s.IpAddresses.get? ip = none)
    (hreads : c.reads = some username :: some path :: rest) :
    (HandleConnection g c s).server.IpAddresses.entries = s.IpAddresses.entries ++ [(ip, s.next)] ∧
    (HandleConnection g c s).server.Connections = s.Connections.set g s.next ∧
    (HandleConnection g c s).server.next = s.next + 1 ∧
    (∀ q ∈ s.sessions, (s.heap q).IpAddress ≠ ip) ∧
    s.next ∈ (HandleConnection g c s).server.sessions ∧
    (∀ q ∈ (HandleConnection g c s).server.sessions,
      ((HandleConnection g c s).server.heap q).IpAddress = ip ↔ q = s.next) := by
  have hreg := handleConnection_registered g c s h
  have hbefore : ∀ q ∈ s.sessions, (s.heap q).IpAddress ≠ ip := by
    intro q hq e
    have := registered_session_filed s h q hq
    rw [e, hnone] at this
    cases this
  have hserver : (HandleConnection g c s).server =
      { s with
        heap := fun q => if q = s.next then
          { UserId := g, Username := username, StoreFilePath := path, Conn := c.conn,
            IsOnline := true, IpAddress := ip, CurrentRoomID := "" } else s.heap q
        next := s.next + 1
        Connections := s.Connections.set g s.next
        IpAddresses := s.IpAddresses.set ip s.next } := by
    unfold HandleConnection
    simp only [hip, hnone, hreads, h.free, Bool.false_eq_true, if_false, broadcastMessage_server]
  have hfiled : (HandleConnection g c s).server.IpAddresses.get? ip = some s.next := by
    rw [hserver]; simp [GoMap.get?_set]
  have hmem : s.next ∈ (HandleConnection g c s).server.sessions := by
    unfold Server.sessions
    exact List.mem_append_right _ ((mem_values_iff _ _).2 ⟨ip, hfiled⟩)
  refine ⟨?_, ?_, ?_, hbefore, hmem, ?_⟩
  · rw [hserver]; exact GoMap.set_entries_of_none _ _ _ hnone
  · rw [hserver]
  · rw [hserver]
  · intro q hq
    have hq' := registered_session_filed _ hreg q hq
    constructor
    · intro e
      rw [e, hfiled] at hq'
      exact (Option.some.inj hq').symm
    · intro e
      subst e
      rw [hserver]
      simp

theorem registered_setUser (s : Server) (h : s.Registered) (p : Ptr) (u : User)
    (hu : u.IpAddress = (s.heap p).IpAddress) : (s.setUser p u).Registered := by
  refine ⟨h.free, ?_, ?_⟩
  · intro ip q hq
    have := h.ips ip q hq
    refine ⟨this.1, ?_⟩
    simp only [Server.setUser]
    split
    · rename_i e; subst e; rw [hu]; exact this.2
    · exact this.2
  · intro k q hq
    have := h.conns k q hq
    simp only [Server.setUser]
    split
    · rename_i e; subst e; rw [hu]; exact this
    · exact this

theorem broadcastRoomMessage_server (roomID senderUsername content : String) (s : Server)
    (sender : Ptr) : (BroadcastRoomMessage roomID senderUsername content s sender).server = s := by
  unfold BroadcastRoomMessage
  split
  · rfl
  · split <;> rfl

theorem onDisconnect_registered (user : Ptr) (s : Server) (h : s.Registered) :
    (onDisconnect user s).server.Registered := by
  unfold onDisconnect
  simp only [h.free, Bool.false_eq_true, if_false, broadcastMessage_server]
  exact registered_setUser s h user _ rfl

theorem onTransferRequest_registered
    (handler : Server → NetConn → String → String → Int → Outcome Unit)
    (hh : ∀ s conn a b n, s.Registered → (handler s conn a b n).server.Registered)
    (conn : NetConn) (s : Server) (m : String) (h : s.Registered) :
    (onTransferRequest handler conn s m).server.Registered := by
  unfold onTransferRequest
  split
  · split
    · exact h
    · exact hh _ _ _ _ _ h
  · split
    · exact h
    · exact hh _ _ _ _ _ h
  · exact h

theorem onStatus_registered (env : Env) (conn : NetConn) (user : Ptr) (s : Server)
    (h : s.Registered) : (onStatus env conn user s).server.Registered := by
  unfold onStatus
  split <;> exact h

theorem onGetOnlineUsers_registered (conn : NetConn) (user : Ptr) (s : Server)
    (h : s.Registered) : (onGetOnlineUsers conn user s).server.Registered := by
  simp only [onGetOnlineUsers, GetOnlineUsersList, h.free, Bool.false_eq_true, if_false]
  exact h

theorem onCreateRoom_registered (env : Env) (user : Ptr) (s : Server) (m : String)
    (h : s.Registered) : (onCreateRoom env user s m).server.Registered := by
  unfold onCreateRoom
  split
  · simp only [CreateRoom, h.free, Bool.false_eq_true, if_false]
    exact ⟨rfl, h.ips, h.conns⟩
  · exact h

theorem onJoinRoom_registered (conn : NetConn) (user : Ptr) (s : Server) (m : String)
    (h : s.Registered) : (onJoinRoom conn user s m).server.Registered := by
  unfold onJoinRoom
  split
  · simp only [h.free, Bool.false_eq_true, if_false]
    split
    · exact h
    · split
      · exact h
      · exact registered_setUser s h user _ rfl
  · exact h

theorem onLeaveRoom_registered (conn : NetConn) (user : Ptr) (s : Server) (h : s.Registered) :
    (onLeaveRoom conn user s).server.Registered := by
  unfold onLeaveRoom
  split
  · exact registered_setUser s h user _ rfl
  · exact h

theorem onListRooms_registered (conn : NetConn) (user : Ptr) (s : Server) (h : s.Registered) :
    (onListRooms conn user s).server.Registered := by
  unfold onListRooms
  split <;> exact h

theorem onRoomMessage_registered (user : Ptr) (s : Server) (m : String) (h : s.Registered) :
    (onRoomMessage user s m).server.Registered := by
  unfold onRoomMessage
  split
  · split
    · exact h
    · split
      · exact h
      · split
        · exact h
        · simp only [afterHandler, broadcastRoomMessage_server]
          exact h
  · exact h

theorem onChat_registered (user : Ptr) (s : Server) (m : String) (h : s.Registered) :
    (onChat user s m).server.Registered := by
  unfold onChat
  split
  · simp only [afterHandler, broadcastRoomMessage_server]
    exact h
  · simp only [afterHandler, broadcastMessage_server]
    exact h

theorem ite_registered {c : Prop} [Decidable c] {a b : Outcome LoopCtl}
    (ha : a.server.Registered) (hb : b.server.Registered) :
    (if c then a else b).server.Registered := by
  split
  · exact ha
  · exact hb

theorem handleUserMessages_registered (env : Env) (henv : env.KeepsRegistry) (conn : NetConn)
    (user : Ptr) (s : Server) (read : Option String) (h : s.Registered) :
    (handleUserMessages env conn user s read).server.Registered := by
  cases read with
  | none => exact onDisconnect_registered user s h
  | some m =>
    simp only [handleUserMessages]
    refine ite_registered (onDisconnect_registered user s h) ?_
    refine ite_registered (onTransferRequest_registered _ henv.file conn s _ h) ?_
    refine ite_registered (onTransferRequest_registered _ henv.folder conn s _ h) ?_
    refine ite_registered h ?_
    refine ite_registered (onStatus_registered env conn user s h) ?_
    refine ite_registered (onGetOnlineUsers_registered conn user s h) ?_
    refine ite_registered (onCreateRoom_registered env user s _ h) ?_
    refine ite_registered (onJoinRoom_registered conn user s _ h) ?_
    refine ite_registered (onLeaveRoom_registered conn user s h) ?_
    refine ite_registered (onListRooms_registered conn user s h) ?_
    refine ite_registered (onRoomMessage_registered user s _ h) ?_
    refine ite_registered ?_ (ite_registered ?_ (ite_registered ?_ (onChat_registered user s _ h)))
    · unfold onLook
      split
      · exact henv.lookup _ _ _ h
      · exact h
    · unfold onDirListing
      split
      · exact henv.listing _ _ _ _ h
      · exact h
    · unfold onDownloadRequest
      split
      · exact henv.download _ _ _ _ _ h
      · exact h

theorem step_registered (s : Server) (e : Event) (he : e.Tame) (h : s.Registered) :
    (s.step e).Registered := by
  cases e with
  | connect g c => exact handleConnection_registered g c s h
  | message env conn user read => exact handleUserMessages_registered env he conn user s read h

theorem run_registered (es : List Event) (s : Server) (hes : ∀ e ∈ es, e.Tame)
    (h : s.Registered) : (Server.run es s).Registered := by
  induction es generalizing s with
  | nil => exact h
  | cons e es ih =>
    exact ih _ (fun e' he' => hes e' (List.mem_cons_of_mem _ he'))
      (step_registered s e (hes e (List.mem_cons_self _ _)) h)

theorem demoEnv_keepsRegistry : demoEnv.KeepsRegistry :=
  ⟨fun _ _ _ _ _ h => h, fun _ _ _ _ _ h => h, fun _ _ _ h => h, fun _ _ _ _ h => h,
    fun _ _ _ _ _ h => h, fun _ _ _ _ _ h => h, fun _ _ _ _ _ h => h, fun _ _ _ h => h,
    fun _ _ _ _ h => h, fun _ _ _ _ _ h => h⟩

/-- C2: when the source IP of the connection is in the IP table under session `p`, the
reconnect notice is written without error and the mutex is free, `HandleConnection` leaves
user id, username and storage path of `p` as they were, makes the new connection its
handle, sets its online flag, leaves every other session, both tables and the allocation
mark untouched (no identity is minted), and goes on to serve `p`. -/
theorem reconnect_keeps_identity (g : String) (c : Inbound) (s : Server) (ip : String) (p : Ptr)
    (hip : (Split c.remoteAddr ':').head? = some ip) (hknown : s.IpAddresses.get? ip = some p)
    (hwrite : c.writeFails = false) (hfree : s.Mutex = false) :
    ((HandleConnection g c s).server.heap p).UserId = (s.heap p).UserId ∧
    ((HandleConnection g c s).server.heap p).Username = (s.heap p).Username ∧
    ((HandleConnection g c s).server.heap p).StoreFilePath = (s.heap p).StoreFilePath ∧
    ((HandleConnection g c s).server.heap p).Conn = c.conn ∧
    ((HandleConnection g c s).server.heap p).IsOnline = true ∧
    (∀ q, q ≠ p → (HandleConnection g c s).server.heap q = s.heap q) ∧
    (HandleConnection g c s).server.Connections = s.Connections ∧
    (HandleConnection g c s).server.IpAddresses = s.IpAddresses ∧
    (HandleConnection g c s).server.next = s.next ∧
    (HandleConnection g c s).ending = .returned (some (p, c.reads)) := by
  have hserver : (HandleConnection g c s).server =
      s.setUser p { s.heap p with Conn := c.conn, IsOnline := true } := by
    unfold HandleConnection
    simp only [hip, hknown, hwrite, hfree, Bool.false_eq_true, if_false, broadcastMessage_server]
  have hending : (HandleConnection g c s).ending = .returned (some (p, c.reads)) := by
    unfold HandleConnection
    simp [hip, hknown, hwrite, hfree, BroadcastMessage, Server.setUser, Ending.map]
  rw [hserver]
  refine ⟨?_, ?_, ?_, ?_, ?_, ?_, rfl, rfl, rfl, hending⟩ <;> simp [Server.setUser]
  intro q hq
  simp [hq]

theorem reconnect_keeps_identity_witness :
    ((HandleConnection "u9" ⟨7, "10.0.0.1:6000", false, []⟩
        (handleConnections [("u1", ⟨1, "10.0.0.1:5000", false, [some "ann", some "/tmp/ann"]⟩)]
          (Server.init ":8080"))).server.heap 0).Conn = 7 :=
  (reconnect_keeps_identity "u9" ⟨7, "10.0.0.1:6000", false, []⟩
    (handleConnections [("u1", ⟨1, "10.0.0.1:5000", false, [some "ann", some "/tmp/ann"]⟩)]
      (Server.init ":8080")) "10.0.0.1" 0 (by decide) (by decide) rfl rfl).2.2.2.1

/-! ## C3: the sender is never a recipient -/

/-- C3: for every server, sender and content, no write made by `BroadcastMessage` and no
write made by `BroadcastRoomMessage` (whatever the room id and sender name) is addressed to
the sender's own session. -/
theorem broadcast_never_to_sender (s : Server) (sender : Ptr)
    (content roomID senderUsername : String) :
    (∀ w ∈ (BroadcastMessage content s sender).out, w.session ≠ sender) ∧
    (∀ w ∈ (BroadcastRoomMessage roomID senderUsername content s sender).out,
      w.session ≠ sender) := by
  constructor
  · intro w hw
    unfold BroadcastMessage at hw
    split at hw
    · cases hw
    · simp only [broadcastWrites, List.mem_filterMap] at hw
      obtain ⟨e, _, he⟩ := hw
      split at he
      · rename_i hc
        cases he
        simp only [Bool.and_eq_true, bne_iff_ne] at hc
        exact hc.2
      · cases he
  · intro w hw
    unfold BroadcastRoomMessage at hw
    split at hw
    · cases hw
    · split at hw
      · cases hw
      · simp only [roomWrites, List.mem_filterMap] at hw
        obtain ⟨e, _, he⟩ := hw
        split at he
        · rename_i hc
          cases he
          simp only [Bool.and_eq_true, bne_iff_ne] at hc
          exact hc.2
        · cases he

/-! ## C4: `/JOIN_ROOM` -/

theorem hasPrefix_iff (s pre : String) : HasPrefix s pre = true ↔ pre.data <+: s.data := by
  unfold HasPrefix
  exact List.isPrefixOf_iff_prefix

theorem hasPrefix_comparable (m p q : String) (hp : HasPrefix m p = true)
    (hq : HasPrefix m q = true) : HasPrefix q p = true ∨ HasPrefix p q = true := by
  rw [hasPrefix_iff] at hp hq ⊢
  rw [hasPrefix_iff]
  exact List.prefix_or_prefix_of_prefix hp hq

theorem hasPrefix_append (a x pre : String) (h : HasPrefix a pre = true) :
    HasPrefix (a ++ x) pre = true := by
  rw [hasPrefix_iff] at h ⊢
  rw [String.data_append]
  exact h.trans (List.prefix_append _ _)

theorem hasPrefix_excludes (m p q : String) (hp : HasPrefix m p = true)
    (hpq : ¬ (HasPrefix q p = true ∨ HasPrefix p q = true)) : HasPrefix m q = false := by
  cases hq : HasPrefix m q with
  | false => rfl
  | true => exact absurd (hasPrefix_comparable m p q hp hq) hpq

theorem dispatch_joinRoom (env : Env) (conn : NetConn) (user : Ptr) (s : Server) (m : String)
    (hm : HasPrefix m "/JOIN_ROOM" = true) :
    handleUserMessages env conn user s (some m) = onJoinRoom conn user s m := by
  have h0 : m ≠ "/exit" := by intro e; rw [e] at hm; revert hm; decide
  have h1 : m ≠ "PONG\n" := by intro e; rw [e] at hm; revert hm; decide
  have h2 := hasPrefix_excludes m _ "/FILE_REQUEST" hm (by decide)
  have h3 := hasPrefix_excludes m _ "/FOLDER_REQUEST" hm (by decide)
  have h4 := hasPrefix_excludes m _ "/status" hm (by decide)
  have h5 := hasPrefix_excludes m _ "/GET_ONLINE_USERS" hm (by decide)
  have h6 := hasPrefix_excludes m _ "/CREATE_ROOM" hm (by decide)
  simp only [handleUserMessages, h0, h1, h2, h3, h4, h5, h6, hm, if_false, if_true,
    Bool.false_eq_true]

theorem joined_ne_notFound (x : String) : "ROOM_NOT_FOUND\n" ≠ "ROOM_JOINED " ++ x := by
  intro e
  have h := hasPrefix_append "ROOM_JOINED " x "ROOM_J" (by decide)
  rw [← e] at h
  revert h
  decide

theorem joined_ne_notMember (x : String) : "NOT_ROOM_MEMBER\n" ≠ "ROOM_JOINED " ++ x := by
  intro e
  have h := hasPrefix_append "ROOM_JOINED " x "R" (by decide)
  rw [← e] at h
  revert h
  decide

theorem onJoinRoom_notFound (conn : NetConn) (user : Ptr) (s : Server) (m cmd arg : String)
    (hargs : SplitN m ' ' 2 = [cmd, arg]) (hfree : s.Mutex = false)
    (hroom : s.Rooms.get? (TrimSpace arg) = none) :
    onJoinRoom conn user s m =
      ⟨s, [⟨user, conn, "ROOM_NOT_FOUND\n"⟩], .returned .again⟩ := by
  unfold onJoinRoom
  simp only [hargs, hfree, Bool.false_eq_true, if_false, hroom]

theorem onJoinRoom_notMember (conn : NetConn) (user : Ptr) (s : Server) (m cmd arg : String)
    (room : Room) (hargs : SplitN m ' ' 2 = [cmd, arg]) (hfree : s.Mutex = false)
    (hroom : s.Rooms.get? (TrimSpace arg) = some room)
    (hmem : room.Members.get? (s.heap user).UserId = none) :
    onJoinRoom conn user s m =
      ⟨s, [⟨user, conn, "NOT_ROOM_MEMBER\n"⟩], .returned .again⟩ := by
  unfold onJoinRoom
  simp only [hargs, hfree, Bool.false_eq_true, if_false, hroom, hmem]

theorem onJoinRoom_joined (conn : NetConn) (user : Ptr) (s : Server) (m cmd arg : String)
    (room : Room) (q : Ptr) (hargs : SplitN m ' ' 2 = [cmd, arg]) (hfree : s.Mutex = false)
    (hroom : s.Rooms.get? (TrimSpace arg) = some room)
    (hmem : room.Members.get? (s.heap user).UserId = some q) :
    onJoinRoom conn user s m =
      ⟨s.setUser user { s.heap user with CurrentRoomID := TrimSpace arg },
        [⟨user, conn, "ROOM_JOINED " ++ TrimSpace arg ++ " " ++ room.Name ++ "\n"⟩],
        .returned .again⟩ := by
  unfold onJoinRoom
  simp only [hargs, hfree, Bool.false_eq_true, if_false, hroom, hmem]

/-- C4: for a `/JOIN_ROOM` message with a room-id field (the message starts with
`/JOIN_ROOM` and splits at its first blank into the directive and the argument), served
with the mutex free, the dispatcher writes on the requester's connection exactly one
answer: `ROOM_NOT_FOUND` when the trimmed id is not in the directory, whatever the member
sets are; `NOT_ROOM_MEMBER` when the room exists and the requester's id is not a key of its
member set; both leave the server unchanged.  The answer is `ROOM_JOINED` if and only if
the room exists and the requester's id is a key of its member set, and then it carries the
id and the room's name and the session's current room becomes that id. -/
theorem join_room_answers (env : Env) (conn : NetConn) (user : Ptr) (s : Server)
    (m cmd arg : String) (hm : HasPrefix m "/JOIN_ROOM" = true)
    (hargs : SplitN m ' ' 2 = [cmd, arg]) (hfree : s.Mutex = false) :
    (s.Rooms.get? (TrimSpace arg) = none →
      (handleUserMessages env conn user s (some m)).out = [⟨user, conn, "ROOM_NOT_FOUND\n"⟩] ∧
      (handleUserMessages env conn user s (some m)).server = s) ∧
    (∀ room, s.Rooms.get? (TrimSpace arg) = some room →
      room.Members.get? (s.heap user).UserId = none →
      (handleUserMessages env conn user s (some m)).out = [⟨user, conn, "NOT_ROOM_MEMBER\n"⟩] ∧
      (handleUserMessages env conn user s (some m)).server = s) ∧
    (∀ room, s.Rooms.get? (TrimSpace arg) = some room →
      (s.heap user).UserId ∈ room.Members.keys →
      (handleUserMessages env conn user s (some m)).out =
        [⟨user, conn, "ROOM_JOINED " ++ TrimSpace arg ++ " " ++ room.Name ++ "\n"⟩] ∧
      ((handleUserMessages env conn user s (some m)).server.heap user).CurrentRoomID =
        TrimSpace arg) ∧
    ((∃ text, (handleUserMessages env conn user s (some m)).out =
        [⟨user, conn, "ROOM_JOINED " ++ text⟩]) ↔
      ∃ room, s.Rooms.get? (TrimSpace arg) = some room ∧
        (s.heap user).UserId ∈ room.Members.keys) := by
  rw [dispatch_joinRoom env conn user s m hm]
  cases hroom : s.Rooms.get? (TrimSpace arg) with
  | none =>
    rw [onJoinRoom_notFound conn user s m cmd arg hargs hfree hroom]
    refine ⟨fun _ => ⟨rfl, rfl⟩, fun room h => (by cases h), fun room h => (by cases h), ?_⟩
    constructor
    · rintro ⟨text, ht⟩
      simp only [List.cons.injEq, Write.mk.injEq, and_true, true_and] at ht
      exact absurd ht (joined_ne_notFound text)
    · rintro ⟨room, h, _⟩
      cases h
  | some room =>
    cases hmem : room.Members.get? (s.heap user).UserId with
    | none =>
      have hk : (s.heap user).UserId ∉ room.Members.keys := (room.Members.get?_eq_none _).1 hmem
      rw [onJoinRoom_notMember conn user s m cmd arg room hargs hfree hroom hmem]
      refine ⟨fun h => (by cases h), ?_, ?_, ?_⟩
      · intro room' h _
        exact ⟨rfl, rfl⟩
      · intro room' h hin
        cases h
        exact absurd hin hk
      · constructor
        · rintro ⟨text, ht⟩
          simp only [List.cons.injEq, Write.mk.injEq, and_true, true_and] at ht
          exact absurd ht (joined_ne_notMember text)
        · rintro ⟨room', h, hin⟩
          cases h
          exact absurd hin hk
    | some q =>
      have hk : (s.heap user).UserId ∈ room.Members.keys :=
        (room.Members.mem_keys_iff _).2 ⟨q, hmem⟩
      rw [onJoinRoom_joined conn user s m cmd arg room q hargs hfree hroom hmem]
      refine ⟨fun h => (by cases h), ?_, ?_, ?_⟩
      · intro room' h hn
        cases h
        rw [hmem] at hn
        cases hn
      · intro room' h _
        cases h
        refine ⟨rfl, ?_⟩
        simp [Server.setUser]
      · constructor
        · intro _
          exact ⟨room, rfl, hk⟩
        · intro _
          refine ⟨TrimSpace arg ++ " " ++ room.Name ++ "\n", ?_⟩
          simp [String.append_assoc]

theorem join_room_answers_witness :
    (handleUserMessages demoEnv 1 0 (Server.init ":8080") (some "/JOIN_ROOM room_7\n")).out =
      [⟨0, 1, "ROOM_NOT_FOUND\n"⟩] :=
  ((join_room_answers demoEnv 1 0 (Server.init ":8080") "/JOIN_ROOM room_7\n" "/JOIN_ROOM"
      "room_7\n" (by decide) (by decide) rfl).1 (by decide)).1

/-! ## C5, C6: `CreateRoom` -/

theorem mem_keys_set {α : Type} (m : GoMap α) (k k' : String) (v : α) :
    k' ∈ (m.set k v).keys ↔ k' = k ∨ k' ∈ m.keys := by
  rw [GoMap.keys_set]
  split
  · rename_i h
    constructor
    · exact Or.inr
    · rintro (e | h')
      · rw [e]; exact h
      · exact h'
  · simp only [List.mem_append, List.mem_singleton]
    exact Or.comm

theorem mem_keys_addListed (s : Server) (members : GoMap Ptr) (memberID k : String) :
    k ∈ (addListed s members memberID).keys ↔
      k ∈ members.keys ∨
        (k = memberID ∧ ∃ p, s.Connections.get? k = some p ∧ (s.heap p).IsOnline = true) := by
  unfold addListed
  cases hget : s.Connections.get? memberID with
  | none =>
    simp only
    constructor
    · exact Or.inl
    · rintro (h | ⟨e, p, hp, _⟩)
      · exact h
      · rw [e, hget] at hp; cases hp
  | some user =>
    simp only
    split
    · rename_i hon
      rw [mem_keys_set]
      constructor
      · rintro (e | h)
        · exact Or.inr ⟨e, user, by rw [e]; exact hget, hon⟩
        · exact Or.inl h
      · rintro (h | ⟨e, _⟩)
        · exact Or.inr h
        · exact Or.inl e
    · rename_i hoff
      constructor
      · exact Or.inl
      · rintro (h | ⟨e, p, hp, hon⟩)
        · exact h
        · rw [e, hget] at hp
          cases hp
          exact absurd hon hoff

theorem mem_keys_foldl_addListed (s : Server) (memberIDs : List String) (members : GoMap Ptr)
    (k : String) :
    k ∈ (memberIDs.foldl (addListed s) members).keys ↔
      k ∈ members.keys ∨
        (k ∈ memberIDs ∧ ∃ p, s.Connections.get? k = some p ∧ (s.heap p).IsOnline = true) := by
  induction memberIDs generalizing members with
  | nil => simp
  | cons a as ih =>
    rw [List.foldl_cons, ih, mem_keys_addListed]
    simp only [List.mem_cons]
    constructor
    · rintro ((h | ⟨e, h⟩) | ⟨hm, h⟩)
      · exact Or.inl h
      · exact Or.inr ⟨Or.inl e, h⟩
      · exact Or.inr ⟨Or.inr hm, h⟩
    · rintro (h | ⟨e | hm, h⟩)
      · exact Or.inl (Or.inl h)
      · exact Or.inl (Or.inr ⟨e, h⟩)
      · exact Or.inr ⟨hm, h⟩

theorem get?_addListed (s : Server) (members : GoMap Ptr) (memberID k : String) (p : Ptr)
    (h : (addListed s members memberID).get? k = some p) :
    members.get? k = some p ∨ s.Connections.get? k = some p := by
  unfold addListed at h
  split at h
  · rename_i user hget
    split at h
    · rw [GoMap.get?_set] at h
      split at h
      · rename_i e
        cases h
        exact Or.inr (e ▸ hget)
      · exact Or.inl h
    · exact Or.inl h
  · exact Or.inl h

theorem get?_foldl_addListed (s : Server) (memberIDs : List String) (members : GoMap Ptr)
    (k : String) (p : Ptr) (h : (memberIDs.foldl (addListed s) members).get? k = some p) :
    members.get? k = some p ∨ s.Connections.get? k = some p := by
  induction memberIDs generalizing members with
  | nil => exact Or.inl h
  | cons a as ih =>
    rw [List.foldl_cons] at h
    rcases ih _ h with h' | h'
    · exact get?_addListed s members a k p h'
    · exact Or.inr h'

/-- C5: when the mutex is free and the creator's id is registered, `CreateRoom` returns a
room (its error result is always nil) whose member ids are exactly the creator's id and
those listed ids that are registered with an online user; unknown and offline ids are left
out; every member entry points to the user registered under that id; the room is stored in
the directory under its id. -/
theorem createRoom_members (rnd : Fin 100000) (now : String) (s : Server)
    (roomName creatorID : String) (memberIDs : List String) (hfree : s.Mutex = false)
    (hcreator : creatorID ∈ s.Connections.keys) :
    ∃ room, (CreateRoom rnd now s roomName creatorID memberIDs).ending = .returned room ∧
      (∀ k, k ∈ room.Members.keys ↔
        k = creatorID ∨
          (k ∈ memberIDs ∧ ∃ p, s.Connections.get? k = some p ∧ (s.heap p).IsOnline = true)) ∧
      (∀ k p, room.Members.get? k = some p → s.Connections.get? k = some p) ∧
      room.Name = roomName ∧
      (CreateRoom rnd now s roomName creatorID memberIDs).server.Rooms.get? room.ID =
        some room := by
  obtain ⟨c, hc⟩ := (s.Connections.mem_keys_iff creatorID).1 hcreator
  refine ⟨{ ID := generateRoomID rnd, Name := roomName,
            Members := createRoomMembers s creatorID memberIDs,
            CreatedBy := creatorID, CreatedAt := now }, ?_, ?_, ?_, rfl, ?_⟩
  · simp [CreateRoom, hfree]
  · intro k
    simp only [createRoomMembers, hc, mem_keys_foldl_addListed, mem_keys_set]
    simp [GoMap.keys, GoMap.empty]
  · intro k p h
    simp only [createRoomMembers, hc] at h
    rcases get?_foldl_addListed s memberIDs _ k p h with h' | h'
    · rw [GoMap.get?_set] at h'
      split at h'
      · rename_i e
        cases h'
        exact e ▸ hc
      · simp [GoMap.get?, GoMap.empty, assocGet] at h'
    · exact h'
  · simp [CreateRoom, hfree, GoMap.get?_set]

theorem createRoom_members_witness :
    ∃ room, (CreateRoom ⟨7, by decide⟩ "2024-01-01 00:00:00" demoServer "team" "C"
        ["A", "ghost", "B"]).ending = .returned room ∧ room.Name = "team" := by
  obtain ⟨room, h1, _, _, h4, _⟩ :=
    createRoom_members ⟨7, by decide⟩ "2024-01-01 00:00:00" demoServer "team" "C"
      ["A", "ghost", "B"] (by decide) (by decide)
  exact ⟨room, h1, h4⟩

/-- C6 (evaluation at the failing input): with `room_7` in the directory, a `CreateRoom`
whose generator yields 7 again stores the new room under the same id: the room that was
there is gone and the directory has not grown. -/
theorem createRoom_id_collision :
    ((CreateRoom ⟨7, by decide⟩ "2024-01-01 00:00:00" demoServer "old" "A" []).server.Rooms.get?
        "room_7").map (fun r => (r.Name, r.Members.keys)) = some ("old", ["A"]) ∧
    ((CreateRoom ⟨7, by decide⟩ "2024-01-01 00:00:01"
        (CreateRoom ⟨7, by decide⟩ "2024-01-01 00:00:00" demoServer "old" "A" []).server
        "new" "B" []).server.Rooms.get? "room_7").map (fun r => (r.Name, r.Members.keys)) =
      some ("new", ["B"]) ∧
    (CreateRoom ⟨7, by decide⟩ "2024-01-01 00:00:00" demoServer "old" "A" []).server.Rooms.size
      = 1 ∧
    (CreateRoom ⟨7, by decide⟩ "2024-01-01 00:00:01"
        (CreateRoom ⟨7, by decide⟩ "2024-01-01 00:00:00" demoServer "old" "A" []).server
        "new" "B" []).server.Rooms.size = 1 := by
  decide

/-! ## C7: `/LIST_ROOMS` -/

theorem dispatch_listRooms (env : Env) (conn : NetConn) (user : Ptr) (s : Server) (m : String)
    (hm : HasPrefix m "/LIST_ROOMS" = true) :
    handleUserMessages env conn user s (some m) = onListRooms conn user s := by
  have h0 : m ≠ "/exit" := by intro e; rw [e] at hm; revert hm; decide
  have h1 : m ≠ "PONG\n" := by intro e; rw [e] at hm; revert hm; decide
  have h2 := hasPrefix_excludes m _ "/FILE_REQUEST" hm (by decide)
  have h3 := hasPrefix_excludes m _ "/FOLDER_REQUEST" hm (by decide)
  have h4 := hasPrefix_excludes m _ "/status" hm (by decide)
  have h5 := hasPrefix_excludes m _ "/GET_ONLINE_USERS" hm (by decide)
  have h6 := hasPrefix_excludes m _ "/CREATE_ROOM" hm (by decide)
  have h7 := hasPrefix_excludes m _ "/JOIN_ROOM" hm (by decide)
  have h8 := hasPrefix_excludes m _ "/LEAVE_ROOM" hm (by decide)
  simp only [handleUserMessages, h0, h1, h2, h3, h4, h5, h6, h7, h8, hm, if_false, if_true,
    Bool.false_eq_true]

theorem foldl_append_eq_foldr (g : String × String × Nat → String)
    (l : List (String × String × Nat)) (init tail : String) :
    l.foldl (fun response e => response ++ g e) init ++ tail =
      init ++ (l.map g).foldr (fun a b => a ++ b) tail := by
  induction l generalizing init with
  | nil => simp
  | cons e l ih =>
    simp only [List.foldl_cons, List.map_cons, List.foldr_cons]
    rw [ih, String.append_assoc]

theorem mem_roomsListEntries (s : Server) (userId id name : String) (count : Nat) :
    (id, name, count) ∈ roomsListEntries s userId ↔
      ∃ room, s.Rooms.get? id = some room ∧ userId ∈ room.Members.keys ∧
        name = room.Name ∧ count = room.Members.size := by
  unfold roomsListEntries
  rw [List.mem_filterMap]
  constructor
  · rintro ⟨⟨rid, room⟩, hmem, he⟩
    simp only at he
    split at he
    · rename_i q hq
      simp only [Option.some.injEq, Prod.mk.injEq] at he
      obtain ⟨e1, e2, e3⟩ := he
      subst e1
      exact ⟨room, (s.Rooms.get?_eq_some _ _).2 hmem, (room.Members.mem_keys_iff _).2 ⟨q, hq⟩,
        e2.symm, e3.symm⟩
    · cases he
  · rintro ⟨room, hroom, hk, hn, hc⟩
    refine ⟨(id, room), (s.Rooms.get?_eq_some _ _).1 hroom, ?_⟩
    obtain ⟨q, hq⟩ := (room.Members.mem_keys_iff _).1 hk
    simp only [hq, hn, hc]

theorem filterMap_keys_nodup {β γ : Type} (f : String × β → Option (String × γ))
    (hf : ∀ e r, f e = some r → r.1 = e.1) (l : List (String × β))
    (h : (l.map Prod.fst).Nodup) :
    ((l.filterMap f).map Prod.fst).Nodup ∧
      ∀ k ∈ (l.filterMap f).map Prod.fst, k ∈ l.map Prod.fst := by
  induction l with
  | nil => simp
  | cons e l ih =>
    simp only [List.map_cons, List.nodup_cons] at h
    obtain ⟨ih1, ih2⟩ := ih h.2
    cases hfe : f e with
    | none =>
      simp only [List.filterMap_cons, hfe]
      exact ⟨ih1, fun k hk => List.mem_cons_of_mem _ (ih2 k hk)⟩
    | some r =>
      simp only [List.filterMap_cons, hfe, List.map_cons, List.nodup_cons, List.mem_cons]
      have hr := hf e r hfe
      refine ⟨⟨?_, ih1⟩, ?_⟩
      · intro hin
        rw [hr] at hin
        exact h.1 (ih2 _ hin)
      · rintro k (hk | hk)
        · exact Or.inl (hk.trans hr)
        · exact Or.inr (ih2 k hk)

theorem roomsListEntries_nodup (s : Server) (userId : String) :
    ((roomsListEntries s userId).map Prod.fst).Nodup := by
  unfold roomsListEntries
  refine (filterMap_keys_nodup _ ?_ s.Rooms.entries s.Rooms.nodup).1
  intro e r h
  simp only at h
  split at h
  · cases h; rfl
  · cases h

theorem createRoomMembers_three (s : Server) (C A B : String) (c a b : Ptr)
    (hC : s.Connections.get? C = some c)
    (hA : s.Connections.get? A = some a) (honA : (s.heap a).IsOnline = true)
    (hB : s.Connections.get? B = some b) (honB : (s.heap b).IsOnline = true)
    (hAB : A ≠ B) (hAC : A ≠ C) (hBC : B ≠ C) :
    (createRoomMembers s C [A, B]).entries = [(C, c), (A, a), (B, b)] := by
  have hCA : ¬ C = A := fun e => hAC e.symm
  have hCB : ¬ C = B := fun e => hBC e.symm
  simp [createRoomMembers, addListed, hC, hA, hB, honA, honB, GoMap.set, GoMap.empty, assocSet,
    hCA, hCB, hAB]

theorem createRoom_stored (rnd : Fin 100000) (now : String) (s : Server)
    (roomName creatorID : String) (memberIDs : List String) (hfree : s.Mutex = false) :
    (CreateRoom rnd now s roomName creatorID memberIDs).server.Rooms.get? (generateRoomID rnd) =
        some { ID := generateRoomID rnd, Name := roomName,
               Members := createRoomMembers s creatorID memberIDs,
               CreatedBy := creatorID, CreatedAt := now } ∧
      (CreateRoom rnd now s roomName creatorID memberIDs).server.heap = s.heap ∧
      (CreateRoom rnd now s roomName creatorID memberIDs).server.Mutex = false := by
  simp [CreateRoom, hfree, GoMap.get?_set]

theorem roomsListEntries_eq_map (s : Server) (userId : String) :
    roomsListEntries s userId =
      (s.Rooms.entries.filter fun e => (e.2.Members.get? userId).isSome).map
        fun e => (e.1, e.2.Name, e.2.Members.size) := by
  unfold roomsListEntries
  induction s.Rooms.entries with
  | nil => rfl
  | cons e l ih =>
    cases h : e.2.Members.get? userId with
    | none => simp [List.filterMap_cons, List.filter_cons, h, ih]
    | some q => simp [List.filterMap_cons, List.filter_cons, h, ih]

theorem listRooms_reply_listed (env : Env) (conn : NetConn) (user : Ptr) (s : Server)
    (m : String) (hm : HasPrefix m "/LIST_ROOMS" = true) (hfree : s.Mutex = false) :
    ∃ listed : List (String × Room), (listed.map Prod.fst).Nodup ∧
      (∀ id room, (id, room) ∈ listed ↔
        s.Rooms.get? id = some room ∧ (s.heap user).UserId ∈ room.Members.keys) ∧
      (handleUserMessages env conn user s (some m)).out =
        [⟨user, conn, "ROOMS_LIST" ++
          (listed.map fun e =>
            " " ++ e.1 ++ "|" ++ e.2.Name ++ "|" ++ toString e.2.Members.size).foldr
            (fun a b => a ++ b) "\n"⟩] := by
  refine ⟨s.Rooms.entries.filter fun e => (e.2.Members.get? (s.heap user).UserId).isSome,
    ?_, ?_, ?_⟩
  · exact (List.Nodup.sublist (List.Sublist.map _ (List.filter_sublist _)) s.Rooms.nodup)
  · intro id room
    simp only [List.mem_filter]
    rw [← s.Rooms.get?_eq_some, room.Members.mem_keys_iff, Option.isSome_iff_exists]
  · rw [dispatch_listRooms env conn user s m hm]
    simp only [onListRooms, hfree, Bool.false_eq_true, if_false, foldl_append_eq_foldr,
      roomsListEntries_eq_map, List.map_map]
    rfl

/-- C7: (1) for every server with the mutex free, every requester and every message that
starts with `/LIST_ROOMS`, the dispatcher writes to the requester the text `ROOMS_LIST`,
then one entry ` id|name|count` (a blank, the room id, a bar, the room name, a bar, the
number of members in decimal) per room of a list without repeated ids, in some order, then
a line end; a room is in that list under `id` if and only if the directory stores it under
`id` and its member set has the requester's id.  (2) After `CreateRoom` of "team" by a
registered `C` naming two distinct online users `A` and `B` (both other than `C`), the
reply to a session of `C`, `A` or `B` lists the new room, with the name "team" and three
members, so it has the entry ` id|team|3`; the reply to a session of any other identity
`D` lists no room under that id, and a `/JOIN_ROOM` of that room by a session of `D` is
answered `NOT_ROOM_MEMBER`. -/
theorem list_rooms_reply :
    (∀ (env : Env) (conn : NetConn) (user : Ptr) (s : Server) (m : String),
      HasPrefix m "/LIST_ROOMS" = true → s.Mutex = false →
      ∃ listed : List (String × Room), (listed.map Prod.fst).Nodup ∧
        (∀ id room, (id, room) ∈ listed ↔
          s.Rooms.get? id = some room ∧ (s.heap user).UserId ∈ room.Members.keys) ∧
        (handleUserMessages env conn user s (some m)).out =
          [⟨user, conn, "ROOMS_LIST" ++
            (listed.map fun e =>
              " " ++ e.1 ++ "|" ++ e.2.Name ++ "|" ++ toString e.2.Members.size).foldr
              (fun a b => a ++ b) "\n"⟩]) ∧
    (∀ (rnd : Fin 100000) (now : String) (s : Server) (C A B D : String) (a b : Ptr),
      s.Mutex = false → C ∈ s.Connections.keys →
      s.Connections.get? A = some a → (s.heap a).IsOnline = true →
      s.Connections.get? B = some b → (s.heap b).IsOnline = true →
      A ≠ B → A ≠ C → B ≠ C → D ≠ C → D ≠ A → D ≠ B →
      (∀ (env : Env) (conn : NetConn) (u : Ptr) (m : String),
        ((CreateRoom rnd now s "team" C [A, B]).server.heap u).UserId ∈ [C, A, B] →
        HasPrefix m "/LIST_ROOMS" = true →
        ∃ (listed : List (String × Room)) (room : Room), (listed.map Prod.fst).Nodup ∧
          (generateRoomID rnd, room) ∈ listed ∧ room.Name = "team" ∧ room.Members.size = 3 ∧
          (handleUserMessages env conn u (CreateRoom rnd now s "team" C [A, B]).server
            (some m)).out =
            [⟨u, conn, "ROOMS_LIST" ++
              (listed.map fun e =>
                " " ++ e.1 ++ "|" ++ e.2.Name ++ "|" ++ toString e.2.Members.size).foldr
                (fun a b => a ++ b) "\n"⟩]) ∧
      (∀ (env : Env) (conn : NetConn) (d : Ptr) (m : String),
        ((CreateRoom rnd now s "team" C [A, B]).server.heap d).UserId = D →
        HasPrefix m "/LIST_ROOMS" = true →
        ∃ listed : List (String × Room), generateRoomID rnd ∉ listed.map Prod.fst ∧
          (handleUserMessages env conn d (CreateRoom rnd now s "team" C [A, B]).server
            (some m)).out =
            [⟨d, conn, "ROOMS_LIST" ++
              (listed.map fun e =>
                " " ++ e.1 ++ "|" ++ e.2.Name ++ "|" ++ toString e.2.Members.size).foldr
                (fun a b => a ++ b) "\n"⟩]) ∧
      ∀ (env : Env) (conn : NetConn) (d : Ptr) (m cmd arg : String),
        ((CreateRoom rnd now s "team" C [A, B]).server.heap d).UserId = D →
        HasPrefix m "/JOIN_ROOM" = true → SplitN m ' ' 2 = [cmd, arg] →
        TrimSpace arg = generateRoomID rnd →
        (handleUserMessages env conn d (CreateRoom rnd now s "team" C [A, B]).server
          (some m)).out = [⟨d, conn, "NOT_ROOM_MEMBER\n"⟩]) := by
  constructor
  · intro env conn user s m hm hfree
    exact listRooms_reply_listed env conn user s m hm hfree
  · intro rnd now s C A B D a b hfree hC hA honA hB honB hAB hAC hBC hDC hDA hDB
    obtain ⟨c, hc⟩ := (s.Connections.mem_keys_iff C).1 hC
    have hentries := createRoomMembers_three s C A B c a b hc hA honA hB honB hAB hAC hBC
    obtain ⟨hstored, hheap, hfree'⟩ := createRoom_stored rnd now s "team" C [A, B] hfree
    have hkeys : (createRoomMembers s C [A, B]).keys = [C, A, B] := by
      simp [GoMap.keys, hentries]
    have hsize : (createRoomMembers s C [A, B]).size = 3 := by
      simp [GoMap.size, hentries]
    have hD : D ∉ (createRoomMembers s C [A, B]).keys := by
      rw [hkeys]
      simp [hDC, hDA, hDB]
    refine ⟨?_, ?_, ?_⟩
    · intro env conn u m hu hm
      obtain ⟨listed, hnodup, hiff, hout⟩ := listRooms_reply_listed env conn u _ m hm hfree'
      exact ⟨listed, _, hnodup, (hiff _ _).2 ⟨hstored, by rw [hkeys]; exact hu⟩, rfl, hsize, hout⟩
    · intro env conn d m hd hm
      obtain ⟨listed, _, hiff, hout⟩ := listRooms_reply_listed env conn d _ m hm hfree'
      refine ⟨listed, ?_, hout⟩
      intro hin
      obtain ⟨⟨id, room⟩, hmem, hid⟩ := List.mem_map.1 hin
      simp only at hid
      subst hid
      obtain ⟨hroom, hk⟩ := (hiff _ _).1 hmem
      rw [hstored] at hroom
      cases hroom
      rw [hd] at hk
      exact hD hk
    · intro env conn d m cmd arg hd hm hargs harg
      rw [dispatch_joinRoom env conn d _ m hm]
      rw [onJoinRoom_notMember conn d _ m cmd arg _ hargs hfree' (by rw [harg]; exact hstored)
        (by rw [hd]; exact (GoMap.get?_eq_none _ _).2 hD)]

theorem list_rooms_reply_witness :
    (∃ (listed : List (String × Room)) (room : Room), (listed.map Prod.fst).Nodup ∧
      (generateRoomID ⟨7, by decide⟩, room) ∈ listed ∧ room.Name = "team" ∧
      room.Members.size = 3 ∧
      (handleUserMessages demoEnv 2 1
        (CreateRoom ⟨7, by decide⟩ "2024-01-01 00:00:00" demoServer "team" "C" ["A", "B"]).server
        (some "/LIST_ROOMS")).out =
        [⟨1, 2, "ROOMS_LIST" ++
          (listed.map fun e =>
            " " ++ e.1 ++ "|" ++ e.2.Name ++ "|" ++ toString e.2.Members.size).foldr
            (fun a b => a ++ b) "\n"⟩]) ∧
    (handleUserMessages demoEnv 2 1
      (CreateRoom ⟨7, by decide⟩ "2024-01-01 00:00:00" demoServer "team" "C" ["A", "B"]).server
      (some "/LIST_ROOMS")).out = [⟨1, 2, "ROOMS_LIST room_7|team|3\n"⟩] ∧
    (handleUserMessages demoEnv 4 3
      (CreateRoom ⟨7, by decide⟩ "2024-01-01 00:00:00" demoServer "team" "C" ["A", "B"]).server
      (some "/LIST_ROOMS")).out = [⟨3, 4, "ROOMS_LIST\n"⟩] :=
  ⟨(list_rooms_reply.2 ⟨7, by decide⟩ "2024-01-01 00:00:00" demoServer "C" "A" "B" "D" 1 2
      (by decide) (by decide) (by decide) (by decide) (by decide) (by decide)
      (by decide) (by decide) (by decide) (by decide) (by decide) (by decide)).1
      demoEnv 2 1 "/LIST_ROOMS" (by decide) (by decide),
    by decide, by decide⟩

/-! ## C8: room broadcast, and the consistency of references it relies on -/

theorem roomWrites_sessions (room : Room) (senderUsername content : String) (s : Server)
    (sender : Ptr) :
    (roomWrites room senderUsername content s sender).map Write.session =
      room.Members.values.filter fun p => (s.heap p).IsOnline && p != sender := by
  unfold roomWrites GoMap.values
  induction room.Members.entries with
  | nil => rfl
  | cons e es ih =>
    cases hc : ((s.heap e.2).IsOnline && e.2 != sender) with
    | true =>
      simp only [List.filterMap_cons, hc, if_true, List.map_cons, List.filter_cons]
      exact congrArg _ ih
    | false =>
      simp only [List.filterMap_cons, hc, Bool.false_eq_true, if_false, List.map_cons,
        List.filter_cons]
      exact ih

theorem values_nodup_of_filed (m : GoMap Ptr) (heap : Ptr → User)
    (hfiled : ∀ k p, m.get? k = some p → (heap p).UserId = k) : m.values.Nodup := by
  unfold GoMap.values
  have hn : m.entries.Nodup := List.Nodup.of_map _ m.nodup
  refine List.Nodup.map_on ?_ hn
  rintro ⟨k, p⟩ h1 ⟨k', p'⟩ h2 e
  simp only at e
  subst e
  have e1 := hfiled k p ((m.get?_eq_some k p).2 h1)
  have e2 := hfiled k' p ((m.get?_eq_some k' p).2 h2)
  rw [← e1, ← e2]

theorem get?_empty {α : Type} (k : String) : (GoMap.empty : GoMap α).get? k = none := rfl

theorem filed_init (address : String) : (Server.init address).Filed := by
  refine ⟨registered_init address, ?_, ?_⟩
  · intro k p h
    simp [Server.init, get?_empty] at h
  · intro rid room h
    simp [Server.init, get?_empty] at h

theorem handleConnection_effect (g : String) (c : Inbound) (s : Server) (h : s.Registered) :
    ((HandleConnection g c s).server.Connections = s.Connections ∧
      (HandleConnection g c s).server.Rooms = s.Rooms ∧
      (HandleConnection g c s).server.next = s.next ∧
      ∀ q, ((HandleConnection g c s).server.heap q).UserId = (s.heap q).UserId) ∨
    ((HandleConnection g c s).server.Connections = s.Connections.set g s.next ∧
      (HandleConnection g c s).server.Rooms = s.Rooms ∧
      (HandleConnection g c s).server.next = s.next + 1 ∧
      ((HandleConnection g c s).server.heap s.next).UserId = g ∧
      ∀ q, q ≠ s.next → (HandleConnection g c s).server.heap q = s.heap q) := by
  unfold HandleConnection
  split
  · exact Or.inl ⟨rfl, rfl, rfl, fun _ => rfl⟩
  · split
    · split
      · exact Or.inl ⟨rfl, rfl, rfl, fun _ => rfl⟩
      · simp only [h.free, Bool.false_eq_true, if_false, broadcastMessage_server]
        refine Or.inl ⟨rfl, rfl, rfl, ?_⟩
        intro q
        simp only [Server.setUser]
        split
        · rename_i e; rw [e]
        · rfl
    · split
      · simp only [h.free, Bool.false_eq_true, if_false, broadcastMessage_server]
        refine Or.inr ⟨?_, ?_, ?_, ?_, ?_⟩ <;> try simp
        intro q hq
        simp [hq]
      · exact Or.inl ⟨rfl, rfl, rfl, fun _ => rfl⟩

theorem handleConnection_filed (g : String) (c : Inbound) (s : Server) (h : s.Filed) :
    (HandleConnection g c s).server.Filed := by
  have hreg := handleConnection_registered g c s h.registered
  have hlt : ∀ k p, s.Connections.get? k = some p → p < s.next := fun k p hk =>
    (h.registered.ips _ p (h.registered.conns k p hk)).1
  rcases handleConnection_effect g c s h.registered with ⟨hc, hr, hn, hu⟩ | ⟨hc, hr, hn, hnew, hold⟩
  · refine ⟨hreg, ?_, ?_⟩
    · intro k p hk
      rw [hc] at hk
      rw [hu]
      exact h.conns k p hk
    · intro rid room hroom k p hk
      rw [hr] at hroom
      rw [hn, hu]
      exact h.rooms rid room hroom k p hk
  · refine ⟨hreg, ?_, ?_⟩
    · intro k p hk
      rw [hc, GoMap.get?_set] at hk
      split at hk
      · rename_i e
        cases hk
        rw [hnew, e]
      · rw [hold p (Nat.ne_of_lt (hlt k p hk))]
        exact h.conns k p hk
    · intro rid room hroom k p hk
      rw [hr] at hroom
      have := h.rooms rid room hroom k p hk
      rw [hn, hold p (Nat.ne_of_lt this.1)]
      exact ⟨Nat.lt_succ_of_lt this.1, this.2⟩

theorem handleConnections_filed (cs : List (String × Inbound)) (s : Server) (h : s.Filed) :
    (handleConnections cs s).Filed := by
  induction cs generalizing s with
  | nil => exact h
  | cons e cs ih =>
    obtain ⟨g, c⟩ := e
    exact ih _ (handleConnection_filed g c s h)

theorem createRoomMembers_filed (s : Server) (h : s.Filed) (creatorID : String)
    (memberIDs : List String) (k : String) (p : Ptr)
    (hk : (createRoomMembers s creatorID memberIDs).get? k = some p) :
    p < s.next ∧ (s.heap p).UserId = k := by
  have hconn : s.Connections.get? k = some p := by
    unfold createRoomMembers at hk
    rcases get?_foldl_addListed s memberIDs _ k p hk with h' | h'
    · split at h'
      · rename_i creator hc
        rw [GoMap.get?_set] at h'
        split at h'
        · rename_i e
          cases h'
          exact e ▸ hc
        · rw [get?_empty] at h'
          cases h'
      · rw [get?_empty] at h'
        cases h'
    · exact h'
  exact ⟨(h.registered.ips _ p (h.registered.conns k p hconn)).1, h.conns k p hconn⟩

theorem createRoom_filed (rnd : Fin 100000) (now : String) (s : Server)
    (roomName creatorID : String) (memberIDs : List String) (h : s.Filed) :
    (CreateRoom rnd now s roomName creatorID memberIDs).server.Filed := by
  unfold CreateRoom
  simp only [h.registered.free, Bool.false_eq_true, if_false]
  refine ⟨⟨by simp, h.registered.ips, h.registered.conns⟩, h.conns, ?_⟩
  intro rid room hroom k p hk
  simp only [GoMap.get?_set] at hroom
  split at hroom
  · cases hroom
    exact createRoomMembers_filed s h creatorID memberIDs k p hk
  · exact h.rooms rid room hroom k p hk

theorem filed_setUser (s : Server) (h : s.Filed) (p : Ptr) (u : User)
    (hid : u.UserId = (s.heap p).UserId) (hip : u.IpAddress = (s.heap p).IpAddress) :
    (s.setUser p u).Filed := by
  have hheap : ∀ q, ((s.setUser p u).heap q).UserId = (s.heap q).UserId := by
    intro q
    simp only [Server.setUser]
    split
    · rename_i e; rw [e, hid]
    · rfl
  refine ⟨registered_setUser s h.registered p u hip, ?_, ?_⟩
  · intro k q hq
    rw [hheap]
    exact h.conns k q hq
  · intro rid room hroom k q hq
    rw [hheap]
    exact h.rooms rid room hroom k q hq

theorem onDisconnect_filed (user : Ptr) (s : Server) (h : s.Filed) :
    (onDisconnect user s).server.Filed := by
  unfold onDisconnect
  simp only [h.registered.free, Bool.false_eq_true, if_false, broadcastMessage_server]
  exact filed_setUser s h user _ rfl rfl

theorem onTransferRequest_filed
    (handler : Server → NetConn → String → String → Int → Outcome Unit)
    (hh : ∀ s conn a b n, s.Filed → (handler s conn a b n).server.Filed)
    (conn : NetConn) (s : Server) (m : String) (h : s.Filed) :
    (onTransferRequest handler conn s m).server.Filed := by
  unfold onTransferRequest
  split
  · split
    · exact h
    · exact hh _ _ _ _ _ h
  · split
    · exact h
    · exact hh _ _ _ _ _ h
  · exact h

theorem onStatus_filed (env : Env) (conn : NetConn) (user : Ptr) (s : Server) (h : s.Filed) :
    (onStatus env conn user s).server.Filed := by
  unfold onStatus
  split <;> exact h

theorem onGetOnlineUsers_filed (conn : NetConn) (user : Ptr) (s : Server) (h : s.Filed) :
    (onGetOnlineUsers conn user s).server.Filed := by
  simp only [onGetOnlineUsers, GetOnlineUsersList, h.registered.free, Bool.false_eq_true,
    if_false]
  exact h

theorem onCreateRoom_filed (env : Env) (user : Ptr) (s : Server) (m : String) (h : s.Filed) :
    (onCreateRoom env user s m).server.Filed := by
  unfold onCreateRoom
  split
  · rename_i roomName memberIDsStr _
    have hc := createRoom_filed env.rnd env.now s roomName (s.heap user).UserId
      (Split memberIDsStr ',') h
    simp only [CreateRoom, h.registered.free, Bool.false_eq_true, if_false] at hc ⊢
    exact hc
  · exact h

theorem onJoinRoom_filed (conn : NetConn) (user : Ptr) (s : Server) (m : String)
    (h : s.Filed) : (onJoinRoom conn user s m).server.Filed := by
  unfold onJoinRoom
  split
  · simp only [h.registered.free, Bool.false_eq_true, if_false]
    split
    · exact h
    · split
      · exact h
      · exact filed_setUser s h user _ rfl rfl
  · exact h

theorem onLeaveRoom_filed (conn : NetConn) (user : Ptr) (s : Server) (h : s.Filed) :
    (onLeaveRoom conn user s).server.Filed := by
  unfold onLeaveRoom
  split
  · exact filed_setUser s h user _ rfl rfl
  · exact h

theorem onListRooms_filed (conn : NetConn) (user : Ptr) (s : Server) (h : s.Filed) :
    (onListRooms conn user s).server.Filed := by
  unfold onListRooms
  split <;> exact h

theorem onRoomMessage_filed (user : Ptr) (s : Server) (m : String) (h : s.Filed) :
    (onRoomMessage user s m).server.Filed := by
  unfold onRoomMessage
  split
  · split
    · exact h
    · split
      · exact h
      · split
        · exact h
        · simp only [afterHandler, broadcastRoomMessage_server]
          exact h
  · exact h

theorem onChat_filed (user : Ptr) (s : Server) (m : String) (h : s.Filed) :
    (onChat user s m).server.Filed := by
  unfold onChat
  split
  · simp only [afterHandler, broadcastRoomMessage_server]
    exact h
  · simp only [afterHandler, broadcastMessage_server]
    exact h

theorem ite_filed {c : Prop} [Decidable c] {a b : Outcome LoopCtl}
    (ha : a.server.Filed) (hb : b.server.Filed) : (if c then a else b).server.Filed := by
  split
  · exact ha
  · exact hb

theorem handleUserMessages_filed (env : Env) (henv : env.KeepsRegistry) (conn : NetConn)
    (user : Ptr) (s : Server) (read : Option String) (h : s.Filed) :
    (handleUserMessages env conn user s read).server.Filed := by
  cases read with
  | none => exact onDisconnect_filed user s h
  | some m =>
    simp only [handleUserMessages]
    refine ite_filed (onDisconnect_filed user s h) ?_
    refine ite_filed (onTransferRequest_filed _ henv.fileRefs conn s _ h) ?_
    refine ite_filed (onTransferRequest_filed _ henv.folderRefs conn s _ h) ?_
    refine ite_filed h ?_
    refine ite_filed (onStatus_filed env conn user s h) ?_
    refine ite_filed (onGetOnlineUsers_filed conn user s h) ?_
    refine ite_filed (onCreateRoom_filed env user s _ h) ?_
    refine ite_filed (onJoinRoom_filed conn user s _ h) ?_
    refine ite_filed (onLeaveRoom_filed conn user s h) ?_
    refine ite_filed (onListRooms_filed conn user s h) ?_
    refine ite_filed (onRoomMessage_filed user s _ h) ?_
    refine ite_filed ?_ (ite_filed ?_ (ite_filed ?_ (onChat_filed user s _ h)))
    · unfold onLook
      split
      · exact henv.lookupRefs _ _ _ h
      · exact h
    · unfold onDirListing
      split
      · exact henv.listingRefs _ _ _ _ h
      · exact h
    · unfold onDownloadRequest
      split
      · exact henv.downloadRefs _ _ _ _ _ h
      · exact h

theorem run_filed (es : List Event) (s : Server) (hes : ∀ e ∈ es, e.Tame) (h : s.Filed) :
    (Server.run es s).Filed := by
  induction es generalizing s with
  | nil => exact h
  | cons e es ih =>
    refine ih _ (fun e' he' => hes e' (List.mem_cons_of_mem _ he')) ?_
    have he := hes e (List.mem_cons_self _ _)
    cases e with
    | connect g c => exact handleConnection_filed g c s h
    | message env conn user read => exact handleUserMessages_filed env he conn user s read h

/-- C8: with the mutex free, for a room id of the directory whose members are each filed
under their own user id (as they are in every state reached from the empty registry),
`BroadcastRoomMessage` returns with the server unchanged, every
write it makes goes to the connection of the session it addresses and carries the room
line, and a session is addressed exactly once when it is a member of that room, online and
not the sender, and not at all otherwise.  For a room id that is not in the directory it
writes nothing. -/
theorem room_broadcast_recipients (roomID senderUsername content : String) (s : Server)
    (sender : Ptr) (hfree : s.Mutex = false) :
    (∀ room, s.Rooms.get? roomID = some room →
      (∀ k p, room.Members.get? k = some p → (s.heap p).UserId = k) →
      (∀ p, ((BroadcastRoomMessage roomID senderUsername content s sender).out.map
          Write.session).count p =
        if p ∈ room.Members.values ∧ (s.heap p).IsOnline = true ∧ p ≠ sender then 1 else 0) ∧
      (∀ w ∈ (BroadcastRoomMessage roomID senderUsername content s sender).out,
        w.conn = (s.heap w.session).Conn ∧
        w.data = "[Room " ++ room.Name ++ "] " ++ senderUsername ++ ": " ++ content ++ "\n") ∧
      (BroadcastRoomMessage roomID senderUsername content s sender).server = s ∧
      (BroadcastRoomMessage roomID senderUsername content s sender).ending = .returned ()) ∧
    (s.Rooms.get? roomID = none →
      (BroadcastRoomMessage roomID senderUsername content s sender).out = []) := by
  constructor
  · intro room hroom hfiled
    have hout : (BroadcastRoomMessage roomID senderUsername content s sender) =
        ⟨s, roomWrites room senderUsername content s sender, .returned ()⟩ := by
      simp [BroadcastRoomMessage, hfree, hroom]
    rw [hout]
    refine ⟨?_, ?_, rfl, rfl⟩
    · intro p
      have hnd := values_nodup_of_filed room.Members s.heap hfiled
      simp only [roomWrites_sessions]
      by_cases hc : ((s.heap p).IsOnline && p != sender) = true
      · have hc' : (s.heap p).IsOnline = true ∧ p ≠ sender := by
          simpa [Bool.and_eq_true, bne_iff_ne] using hc
        rw [List.count_filter (p := fun p => (s.heap p).IsOnline && p != sender) hc]
        by_cases hin : p ∈ room.Members.values
        · rw [List.count_eq_one_of_mem hnd hin, if_pos ⟨hin, hc'⟩]
        · rw [List.count_eq_zero_of_not_mem hin, if_neg (fun h => hin h.1)]
      · have hc' : ¬ ((s.heap p).IsOnline = true ∧ p ≠ sender) := by
          simpa [Bool.and_eq_true, bne_iff_ne] using hc
        rw [if_neg (fun h => hc' h.2)]
        apply List.count_eq_zero_of_not_mem
        intro hin
        exact hc (List.mem_filter.1 hin).2
    · intro w hw
      simp only [roomWrites, List.mem_filterMap] at hw
      obtain ⟨e, _, he⟩ := hw
      split at he
      · cases he
        exact ⟨rfl, rfl⟩
      · cases he
  · intro hroom
    simp [BroadcastRoomMessage, hfree, hroom]


theorem room_broadcast_recipients_witness :
    ((BroadcastRoomMessage "room_7" "carol" "hi"
        (Server.run
          [.connect "C" ⟨1, "10.0.0.1:5000", false, [some "carol", some "/home/carol"]⟩,
           .connect "A" ⟨2, "10.0.0.2:5000", false, [some "ann", some "/home/ann"]⟩,
           .connect "B" ⟨3, "10.0.0.3:5000", false, [some "bob", some "/home/bob"]⟩,
           .message demoEnv 1 0 (some "/CREATE_ROOM team A,B"),
           .message demoEnv 3 2 none]
          (Server.init ":8080"))
        0).out.map Write.session).count 1 = 1 := by
  have hfiled := run_filed
    [.connect "C" ⟨1, "10.0.0.1:5000", false, [some "carol", some "/home/carol"]⟩,
     .connect "A" ⟨2, "10.0.0.2:5000", false, [some "ann", some "/home/ann"]⟩,
     .connect "B" ⟨3, "10.0.0.3:5000", false, [some "bob", some "/home/bob"]⟩,
     .message demoEnv 1 0 (some "/CREATE_ROOM team A,B"),
     .message demoEnv 3 2 none]
    (Server.init ":8080")
    (by
      intro e he
      simp only [List.mem_cons, List.mem_singleton, List.not_mem_nil, or_false] at he
      rcases he with rfl | rfl | rfl | rfl | rfl
      · trivial
      · trivial
      · trivial
      · exact demoEnv_keepsRegistry
      · exact demoEnv_keepsRegistry)
    (filed_init ":8080")
  have hstored : (Server.run
      [.connect "C" ⟨1, "10.0.0.1:5000", false, [some "carol", some "/home/carol"]⟩,
       .connect "A" ⟨2, "10.0.0.2:5000", false, [some "ann", some "/home/ann"]⟩,
       .connect "B" ⟨3, "10.0.0.3:5000", false, [some "bob", some "/home/bob"]⟩,
       .message demoEnv 1 0 (some "/CREATE_ROOM team A,B"),
       .message demoEnv 3 2 none]
      (Server.init ":8080")).Rooms.get? "room_7" =
      some ⟨"room_7", "team", ⟨[("C", 0), ("A", 1), ("B", 2)], by decide⟩, "C",
        "2024-01-01 00:00:00"⟩ := by decide
  have hcount := ((room_broadcast_recipients "room_7" "carol" "hi" _ 0 (by decide)).1 _ hstored
    (fun k p h => (hfiled.rooms _ _ hstored k p h).2)).1 1
  rw [hcount]
  decide

/-! ## C9: heartbeat -/

theorem heartBeatLoop_blocks (writeFails : NetConn → Bool) (l : List (String × Ptr))
    (s : Server) (out : List Write) (hheld : s.Mutex = true)
    (hout : ∀ w ∈ out, w.data = "PING\n")
    (hfail : ∃ e ∈ l, (s.heap e.2).IsOnline = true ∧ writeFails (s.heap e.2).Conn = true) :
    (heartBeatLoop writeFails l s out).ending = .blocked ∧
      (heartBeatLoop writeFails l s out).server.Mutex = true ∧
      ∀ w ∈ (heartBeatLoop writeFails l s out).out, w.data = "PING\n" := by
  induction l generalizing out with
  | nil =>
    obtain ⟨e, he, _⟩ := hfail
    cases he
  | cons e l ih =>
    unfold heartBeatLoop
    by_cases hon : (s.heap e.2).IsOnline = true
    · by_cases hf : writeFails (s.heap e.2).Conn = true
      · simp only [hon, hf, if_true, BroadcastMessage, Server.setUser, hheld]
        refine ⟨trivial, trivial, ?_⟩
        intro w hw
        simp only [List.append_nil, List.mem_append, List.mem_singleton] at hw
        rcases hw with hw | hw
        · exact hout w hw
        · rw [hw]
      · simp only [hon, hf, if_true, if_false]
        apply ih
        · intro w hw
          simp only [List.mem_append, List.mem_singleton] at hw
          rcases hw with hw | hw
          · exact hout w hw
          · rw [hw]
        · obtain ⟨e', he', h1, h2⟩ := hfail
          rcases List.mem_cons.1 he' with rfl | hm
          · exact absurd h2 hf
          · exact ⟨e', hm, h1, h2⟩
    · simp only [hon, if_false]
      apply ih _ hout
      obtain ⟨e', he', h1, h2⟩ := hfail
      rcases List.mem_cons.1 he' with rfl | hm
      · exact absurd h1 hon
      · exact ⟨e', hm, h1, h2⟩

/-- A tick of the heartbeat in which the probe of some registered online session fails
never completes: the goroutine parks in the `Lock` of `BroadcastMessage` with the mutex
still held, and every write it has made is a probe; no notification is written. -/
theorem heartBeatTick_failure_blocks (writeFails : NetConn → Bool) (s : Server)
    (hfree : s.Mutex = false) (k : String) (p : Ptr) (hreg : s.Connections.get? k = some p)
    (hon : (s.heap p).IsOnline = true) (hfail : writeFails (s.heap p).Conn = true) :
    (heartBeatTick writeFails s).ending = .blocked ∧
      (heartBeatTick writeFails s).server.Mutex = true ∧
      ∀ w ∈ (heartBeatTick writeFails s).out, w.data = "PING\n" := by
  unfold heartBeatTick
  simp only [hfree, Bool.false_eq_true, if_false]
  apply heartBeatLoop_blocks
  · rfl
  · intro w hw
    cases hw
  · exact ⟨(k, p), (s.Connections.get?_eq_some k p).1 hreg, hon, hfail⟩

/-- C9 (evaluation at the failing input): four sessions are online and the probe of the
second (connection 2) fails.  The tick probes the first two sessions, sets the second one
offline and then parks in `BroadcastMessage` with the mutex held: it never returns, and no
"is now offline" line is written to any of the other three online sessions. -/
theorem heartbeat_failure_deadlock :
    (heartBeatTick (fun c => c == 2) demoServer).ending = .blocked ∧
    (heartBeatTick (fun c => c == 2) demoServer).out = [⟨0, 1, "PING\n"⟩, ⟨1, 2, "PING\n"⟩] ∧
    ((heartBeatTick (fun c => c == 2) demoServer).server.heap 1).IsOnline = false ∧
    (heartBeatTick (fun c => c == 2) demoServer).server.Mutex = true ∧
    (demoServer.Connections.values.filter fun p => (demoServer.heap p).IsOnline) = [0, 1, 2, 3] := by
  decide

/-! ## C10: discovery -/

theorem cutChars_append (sep : Char) (a b : List Char) (h : sep ∉ a) :
    cutChars sep (a ++ sep :: b) = some (a, b) := by
  induction a with
  | nil => simp [cutChars]
  | cons c a ih =>
    simp only [List.mem_cons, not_or] at h
    have hc : ¬ c = sep := fun e => h.1 e.symm
    simp [cutChars, hc, ih h.2]

theorem splitChars_of_not_mem (sep : Char) (a : List Char) (h : sep ∉ a) :
    splitChars sep a = [a] := by
  induction a with
  | nil => rfl
  | cons c a ih =>
    simp only [List.mem_cons, not_or] at h
    have hc : ¬ c = sep := fun e => h.1 e.symm
    simp [splitChars, hc, ih h.2]

theorem splitChars_append (sep : Char) (a b : List Char) (h : sep ∉ a) :
    splitChars sep (a ++ sep :: b) = a :: splitChars sep b := by
  induction a with
  | nil => simp [splitChars]
  | cons c a ih =>
    simp only [List.mem_cons, not_or] at h
    have hc : ¬ c = sep := fun e => h.1 e.symm
    simp [splitChars, hc, ih h.2]

theorem splitChars_cons_inv (sep : Char) (l p : List Char) (ps : List (List Char))
    (h : splitChars sep l = p :: ps) :
    sep ∉ p ∧ ((ps = [] ∧ l = p) ∨ ∃ l', l = p ++ sep :: l' ∧ splitChars sep l' = ps) := by
  induction l generalizing p ps with
  | nil =>
    simp only [splitChars, List.cons.injEq] at h
    obtain ⟨rfl, rfl⟩ := h
    exact ⟨by simp, Or.inl ⟨rfl, rfl⟩⟩
  | cons c l ih =>
    simp only [splitChars] at h
    split at h
    · rename_i hc
      simp only [List.cons.injEq] at h
      obtain ⟨rfl, rfl⟩ := h
      exact ⟨by simp, Or.inr ⟨l, by simp [hc], rfl⟩⟩
    · rename_i hc
      split at h
      · rename_i hnil
        exact absurd hnil (splitChars_ne_nil sep l)
      · rename_i q qs hq
        simp only [List.cons.injEq] at h
        obtain ⟨rfl, rfl⟩ := h
        obtain ⟨hq1, hq2⟩ := ih q qs hq
        refine ⟨?_, ?_⟩
        · simp only [List.mem_cons, not_or]
          exact ⟨fun e => hc e.symm, hq1⟩
        · rcases hq2 with ⟨rfl, rfl⟩ | ⟨l', rfl, hl'⟩
          · exact Or.inl ⟨rfl, rfl⟩
          · exact Or.inr ⟨l', rfl, hl'⟩

theorem splitChars_three_inv (sep : Char) (l a b c : List Char)
    (h : splitChars sep l = [a, b, c]) :
    sep ∉ a ∧ sep ∉ b ∧ sep ∉ c ∧ l = a ++ sep :: (b ++ sep :: c) := by
  obtain ⟨ha, h1⟩ := splitChars_cons_inv sep l a [b, c] h
  rcases h1 with ⟨hn, _⟩ | ⟨l₁, rfl, h1⟩
  · cases hn
  obtain ⟨hb, h2⟩ := splitChars_cons_inv sep l₁ b [c] h1
  rcases h2 with ⟨hn, _⟩ | ⟨l₂, rfl, h2⟩
  · cases hn
  obtain ⟨hc, h3⟩ := splitChars_cons_inv sep l₂ c [] h2
  rcases h3 with ⟨_, rfl⟩ | ⟨l₃, _, h3⟩
  · exact ⟨ha, hb, hc, rfl⟩
  · exact absurd h3 (splitChars_ne_nil sep l₃)

theorem beacon_data (ip port : String) :
    (beacon ip port).data = "DRIZLINK_SERVER".data ++ ':' :: (ip.data ++ ':' :: port.data) := by
  simp [beacon, String.data_append]

theorem split_beacon (ip port : String) (hip : colonFree ip) (hport : colonFree port) :
    HasPrefix (beacon ip port) "DRIZLINK_SERVER:" = true ∧
      Split (beacon ip port) ':' = ["DRIZLINK_SERVER", ip, port] := by
  constructor
  · exact hasPrefix_append _ _ _ (hasPrefix_append _ _ _ (hasPrefix_append _ _ _ (by decide)))
  · unfold Split
    rw [beacon_data, splitChars_append _ _ _ (by decide), splitChars_append _ _ _ hip,
      splitChars_of_not_mem _ _ hport]
    rfl

theorem beacon_of_split (m a ip port : String) (hpre : HasPrefix m "DRIZLINK_SERVER:" = true)
    (hsplit : Split m ':' = [a, ip, port]) :
    colonFree ip ∧ colonFree port ∧ m = beacon ip port := by
  unfold Split at hsplit
  have hchars : splitChars ':' m.data = [a.data, ip.data, port.data] := by
    have hinj : Function.Injective String.mk := fun x y e => by cases e; rfl
    apply List.map_injective_iff.2 hinj
    simpa using hsplit
  obtain ⟨ha, hi, hp, hm⟩ := splitChars_three_inv ':' m.data _ _ _ hchars
  refine ⟨hi, hp, ?_⟩
  obtain ⟨t, ht⟩ := (hasPrefix_iff m _).1 hpre
  have h1 : cutChars ':' m.data = some ("DRIZLINK_SERVER".data, t) := by
    rw [← ht]
    exact cutChars_append ':' "DRIZLINK_SERVER".data t (by decide)
  have h2 : cutChars ':' m.data = some (a.data, ip.data ++ ':' :: port.data) := by
    rw [hm]
    exact cutChars_append ':' _ _ ha
  rw [h1] at h2
  simp only [Option.some.injEq, Prod.mk.injEq] at h2
  apply String.ext
  rw [beacon_data, hm, ← h2.1]

theorem address_inj (ip port ip' port' : String) (hip : colonFree ip) (hip' : colonFree ip')
    (h : ip ++ ":" ++ port = ip' ++ ":" ++ port') : ip = ip' ∧ port = port' := by
  have hd : ip.data ++ ':' :: port.data = ip'.data ++ ':' :: port'.data := by
    have := congrArg String.data h
    simpa [String.data_append] using this
  have h1 := cutChars_append ':' ip.data port.data hip
  have h2 := cutChars_append ':' ip'.data port'.data hip'
  rw [hd, h2] at h1
  simp only [Option.some.injEq, Prod.mk.injEq] at h1
  exact ⟨String.ext h1.1.symm, String.ext h1.2.symm⟩


theorem firstIndex_append_of_mem (x : Option String) (l₁ l₂ : List (Option String))
    (h : x ∈ l₁) : firstIndex x (l₁ ++ l₂) = firstIndex x l₁ := by
  induction l₁ with
  | nil => cases h
  | cons y ys ih =>
    by_cases hy : y = x
    · simp [firstIndex, hy]
    · have hx : x ∈ ys := by
        rcases List.mem_cons.1 h with e | e
        · exact absurd e.symm hy
        · exact e
      simp [firstIndex, hy, ih hx]

theorem firstIndex_append_of_not_mem (x : Option String) (l₁ l₂ : List (Option String))
    (h : x ∉ l₁) : firstIndex x (l₁ ++ l₂) = l₁.length + firstIndex x l₂ := by
  induction l₁ with
  | nil => simp
  | cons y ys ih =>
    simp only [List.mem_cons, not_or] at h
    have hy : ¬ y = x := fun e => h.1 e.symm
    simp [firstIndex, hy, ih h.2]
    omega

theorem firstIndex_lt_length (x : Option String) (l : List (Option String)) (h : x ∈ l) :
    firstIndex x l < l.length := by
  induction l with
  | nil => cases h
  | cons y ys ih =>
    by_cases hy : y = x
    · simp [firstIndex, hy]
    · have hx : x ∈ ys := by
        rcases List.mem_cons.1 h with e | e
        · exact absurd e.symm hy
        · exact e
      simp [firstIndex, hy, ih hx]

theorem scanInv_skip (pre : List (Option String)) (servers : List DiscoveredServer)
    (x : Option String) (h : ScanInv pre servers)
    (hx : ∀ ip port, colonFree ip → colonFree port → x = some (beacon ip port) →
      (⟨ip ++ ":" ++ port, ip, port⟩ : DiscoveredServer) ∈ servers) :
    ScanInv (pre ++ [x]) servers := by
  refine ⟨?_, ?_, h.nodup, ?_⟩
  · intro e he
    obtain ⟨h1, h2, h3, h4⟩ := h.shape e he
    exact ⟨h1, h2, h3, List.mem_append_left _ h4⟩
  · intro ip port hip hport hmem
    rcases List.mem_append.1 hmem with hm | hm
    · exact h.complete ip port hip hport hm
    · exact hx ip port hip hport (List.mem_singleton.1 hm).symm
  · refine List.Pairwise.imp_of_mem ?_ h.order
    intro e₁ e₂ h1 h2 hlt
    rw [firstIndex_append_of_mem _ _ _ (h.shape e₁ h1).2.2.2,
      firstIndex_append_of_mem _ _ _ (h.shape e₂ h2).2.2.2]
    exact hlt

theorem beacon_inj (ip port ip' port' : String) (hip : colonFree ip) (hport : colonFree port)
    (hip' : colonFree ip') (hport' : colonFree port')
    (h : beacon ip port = beacon ip' port') : ip = ip' ∧ port = port' := by
  have h1 := (split_beacon ip port hip hport).2
  have h2 := (split_beacon ip' port' hip' hport').2
  rw [h, h2] at h1
  simp only [List.cons.injEq, and_true, true_and] at h1
  exact ⟨h1.1.symm, h1.2.symm⟩

theorem scanInv_add (pre : List (Option String)) (servers : List DiscoveredServer)
    (ip port : String) (h : ScanInv pre servers) (hip : colonFree ip) (hport : colonFree port)
    (hnew : ip ++ ":" ++ port ∉ servers.map DiscoveredServer.Address) :
    ScanInv (pre ++ [some (beacon ip port)]) (servers ++ [⟨ip ++ ":" ++ port, ip, port⟩]) := by
  have hfresh : some (beacon ip port) ∉ pre := by
    intro hm
    exact hnew (List.mem_map_of_mem DiscoveredServer.Address (h.complete ip port hip hport hm))
  refine ⟨?_, ?_, ?_, ?_⟩
  · intro e he
    rcases List.mem_append.1 he with he | he
    · obtain ⟨h1, h2, h3, h4⟩ := h.shape e he
      exact ⟨h1, h2, h3, List.mem_append_left _ h4⟩
    · rw [List.mem_singleton.1 he]
      exact ⟨rfl, hip, hport, List.mem_append_right _ (List.mem_singleton.2 rfl)⟩
  · intro ip' port' hip' hport' hmem
    rcases List.mem_append.1 hmem with hm | hm
    · exact List.mem_append_left _ (h.complete ip' port' hip' hport' hm)
    · have he := Option.some.inj (List.mem_singleton.1 hm)
      obtain ⟨e1, e2⟩ := beacon_inj ip' port' ip port hip' hport' hip hport he
      subst e1 e2
      exact List.mem_append_right _ (List.mem_singleton.2 rfl)
  · rw [List.map_append, List.nodup_append]
    refine ⟨h.nodup, List.nodup_singleton _, ?_⟩
    intro a ha hb
    simp only [List.map_cons, List.map_nil, List.mem_singleton] at hb
    exact hnew (hb ▸ ha)
  · rw [List.pairwise_append]
    refine ⟨?_, List.pairwise_singleton _ _, ?_⟩
    · refine List.Pairwise.imp_of_mem ?_ h.order
      intro e₁ e₂ h1 h2 hlt
      rw [firstIndex_append_of_mem _ _ _ (h.shape e₁ h1).2.2.2,
        firstIndex_append_of_mem _ _ _ (h.shape e₂ h2).2.2.2]
      exact hlt
    · intro e₁ h1 e₂ h2
      rw [List.mem_singleton.1 h2]
      show firstIndex (some (beacon e₁.IP e₁.Port)) (pre ++ [some (beacon ip port)]) <
        firstIndex (some (beacon ip port)) (pre ++ [some (beacon ip port)])
      rw [firstIndex_append_of_mem _ _ _ (h.shape e₁ h1).2.2.2,
        firstIndex_append_of_not_mem _ _ _ hfresh]
      have := firstIndex_lt_length _ _ (h.shape e₁ h1).2.2.2
      omega

theorem scanInv_loop (rest pre : List (Option String)) (servers : List DiscoveredServer)
    (serverMap : GoMap Bool) (h : ScanInv pre servers)
    (hmap : ∀ a, (serverMap.get? a).getD false = true ↔
      a ∈ servers.map DiscoveredServer.Address) :
    ScanInv (pre ++ rest) (discoverLoop rest servers serverMap) := by
  induction rest generalizing pre servers serverMap with
  | nil => simpa [discoverLoop] using h
  | cons x rest ih =>
    have hcons : pre ++ x :: rest = (pre ++ [x]) ++ rest := by simp
    rw [hcons]
    cases x with
    | none =>
      simp only [discoverLoop]
      exact ih _ _ _ (scanInv_skip pre servers none h (fun _ _ _ _ e => by cases e)) hmap
    | some message =>
      simp only [discoverLoop]
      split
      · rename_i hpre
        split
        · rename_i a serverIP serverPort hsplit
          obtain ⟨hip, hport, hm⟩ := beacon_of_split message a serverIP serverPort hpre hsplit
          split
          · rename_i hseen
            apply ih _ _ _ _ hmap
            apply scanInv_skip pre servers _ h
            intro ip port hip' hport' e
            have e' : beacon serverIP serverPort = beacon ip port := by
              rw [← hm]; exact Option.some.inj e
            obtain ⟨e1, e2⟩ := beacon_inj _ _ _ _ hip hport hip' hport' e'
            subst e1 e2
            obtain ⟨d, hd, hda⟩ := List.mem_map.1 ((hmap _).1 hseen)
            obtain ⟨s1, s2, _, _⟩ := h.shape d hd
            rw [s1] at hda
            obtain ⟨e1, e2⟩ := address_inj _ _ _ _ s2 hip hda
            have : d = ⟨serverIP ++ ":" ++ serverPort, serverIP, serverPort⟩ := by
              cases d
              simp only [DiscoveredServer.mk.injEq]
              simp only at s1 e1 e2
              exact ⟨by rw [s1, e1, e2], e1, e2⟩
            rw [← this]
            exact hd
          · rename_i hseen
            rw [hm]
            apply ih _ _ _ (scanInv_add pre servers serverIP serverPort h hip hport
              (fun hin => hseen ((hmap _).2 hin)))
            intro a'
            rw [GoMap.get?_set]
            split
            · rename_i e
              simp [← e]
            · rename_i e
              rw [hmap a']
              simp only [List.map_append, List.map_cons, List.map_nil, List.mem_append,
                List.mem_singleton]
              constructor
              · exact Or.inl
              · rintro (h' | h')
                · exact h'
                · exact absurd h'.symm e
        · rename_i hshape
          apply ih _ _ _ _ hmap
          apply scanInv_skip pre servers _ h
          intro ip port hip hport e
          cases e
          exact absurd (split_beacon ip port hip hport).2 (hshape _ _ _)
      · rename_i hpre
        apply ih _ _ _ _ hmap
        apply scanInv_skip pre servers _ h
        intro ip port hip hport e
        cases e
        exact absurd (split_beacon ip port hip hport).1 hpre

theorem scanInv_nil : ScanInv [] [] :=
  ⟨fun _ h => (by cases h), fun _ _ _ _ h => (by cases h), List.nodup_nil, List.Pairwise.nil⟩

theorem discoverLoop_repeat (n : Nat) (servers : List DiscoveredServer) (serverMap : GoMap Bool)
    (hseen : (serverMap.get? "192.168.1.5:8080").getD false = true) :
    discoverLoop (List.replicate n (some "DRIZLINK_SERVER:192.168.1.5:8080")) servers serverMap =
      servers := by
  have hpre : HasPrefix "DRIZLINK_SERVER:192.168.1.5:8080" "DRIZLINK_SERVER:" = true := by decide
  have hsplit : Split "DRIZLINK_SERVER:192.168.1.5:8080" ':' =
      ["DRIZLINK_SERVER", "192.168.1.5", "8080"] := by decide
  have haddr : "192.168.1.5" ++ ":" ++ "8080" = "192.168.1.5:8080" := by decide
  induction n with
  | zero => rfl
  | succ n ih =>
    simp only [List.replicate_succ, discoverLoop, hpre, hsplit, haddr, hseen, if_true]
    exact ih

/-- C10: when the listener opens, `DiscoverServers` returns, for every sequence of reads of
the scan window, a list in which no address occurs twice; an entry is in the list if and
only if it is the pair (IP, Port), with address `IP:Port`, of a received datagram of the
form `DRIZLINK_SERVER:<ip>:<port>` whose two fields have no colon (so every other datagram
and every failed read leaves no entry); the entries stand in the order in which their
beacons were first received.  The beacon `DRIZLINK_SERVER:192.168.1.5:8080` received any
positive number of times yields exactly the one entry for 192.168.1.5 and 8080. -/
theorem discoverServers_unique_ordered (reads : List (Option String)) :
    (∃ servers, DiscoverServers none none reads = .ok servers ∧
      (servers.map DiscoveredServer.Address).Nodup ∧
      (∀ e, e ∈ servers ↔ ∃ ip port, colonFree ip ∧ colonFree port ∧
        some (beacon ip port) ∈ reads ∧ e = ⟨ip ++ ":" ++ port, ip, port⟩) ∧
      servers.Pairwise fun e₁ e₂ =>
        firstIndex (some (beacon e₁.IP e₁.Port)) reads <
          firstIndex (some (beacon e₂.IP e₂.Port)) reads) ∧
    ∀ n : Nat,
      DiscoverServers none none
          (List.replicate (n + 1) (some "DRIZLINK_SERVER:192.168.1.5:8080")) =
        .ok [⟨"192.168.1.5:8080", "192.168.1.5", "8080"⟩] := by
  constructor
  · have h := scanInv_loop reads [] [] GoMap.empty scanInv_nil (by
      intro a
      simp [get?_empty])
    rw [List.nil_append] at h
    refine ⟨discoverLoop reads [] GoMap.empty, rfl, h.nodup, ?_, h.order⟩
    intro e
    constructor
    · intro he
      obtain ⟨h1, h2, h3, h4⟩ := h.shape e he
      refine ⟨e.IP, e.Port, h2, h3, h4, ?_⟩
      cases e
      simp only [DiscoveredServer.mk.injEq, and_true]
      exact h1
    · rintro ⟨ip, port, hip, hport, hm, rfl⟩
      exact h.complete ip port hip hport hm
  · intro n
    have hpre : HasPrefix "DRIZLINK_SERVER:192.168.1.5:8080" "DRIZLINK_SERVER:" = true := by decide
    have hsplit : Split "DRIZLINK_SERVER:192.168.1.5:8080" ':' =
        ["DRIZLINK_SERVER", "192.168.1.5", "8080"] := by decide
    have haddr : "192.168.1.5" ++ ":" ++ "8080" = "192.168.1.5:8080" := by decide
    have hfirst : ((GoMap.empty : GoMap Bool).get? "192.168.1.5:8080").getD false = false := rfl
    simp only [DiscoverServers, List.replicate_succ, discoverLoop, hpre, hsplit, haddr, hfirst,
      if_true, Bool.false_eq_true, if_false, List.nil_append]
    rw [discoverLoop_repeat n _ _ (by simp [GoMap.get?_set])]

/-! ## C11: the beacon of the server and the scan of the client -/

theorem trimPrefix_colon (port : String) : TrimPrefix (":" ++ port) ":" = port := by
  unfold TrimPrefix
  rw [if_pos (hasPrefix_append ":" port ":" (by decide))]
  apply String.ext
  simp [String.data_append]

theorem discoverLoop_seen (n : Nat) (ip port : String) (hip : colonFree ip)
    (hport : colonFree port) (servers : List DiscoveredServer) (serverMap : GoMap Bool)
    (hseen : (serverMap.get? (ip ++ ":" ++ port)).getD false = true) :
    discoverLoop (List.replicate n (some (beacon ip port))) servers serverMap = servers := by
  induction n with
  | zero => rfl
  | succ n ih =>
    simp only [List.replicate_succ, discoverLoop, (split_beacon ip port hip hport).1,
      (split_beacon ip port hip hport).2, hseen, if_true]
    exact ih

set_option maxRecDepth 100000 in
theorem octet_colonFree : ∀ a : Fin 256, ':' ∉ (toString a.val).data := by decide

theorem ipv4Text_colonFree (a b c d : Fin 256) : colonFree (ipv4Text a b c d) := by
  unfold colonFree ipv4Text
  simp only [String.data_append, List.mem_append, not_or]
  exact ⟨⟨⟨⟨⟨⟨octet_colonFree a, by decide⟩, octet_colonFree b⟩, by decide⟩, octet_colonFree c⟩,
    by decide⟩, octet_colonFree d⟩

/-- C11 (the claim fails as stated): for the listening address `localhost:8080` and the
detected address 192.168.1.5 the text that `StartDiscoveryBroadcast` sends is
`DRIZLINK_SERVER:192.168.1.5:localhost:8080`; it has four parts at the colons, and the scan
of `DiscoverServers` over any number of such datagrams (here three) returns no entry. -/
theorem broadcast_with_host_rejected :
    StartDiscoveryBroadcast "localhost:8080" (.ok "192.168.1.5") none 3 =
      List.replicate 3 "DRIZLINK_SERVER:192.168.1.5:localhost:8080" ∧
    DiscoverServers none none
      ((StartDiscoveryBroadcast "localhost:8080" (.ok "192.168.1.5") none 3).map some) =
      .ok [] := by
  constructor
  · decide
  · rfl

/-- C11 (amended): for every listening address of the form `:<port>` (no host part, the port
without a colon) and every detected local address whose text has no colon (as the text of
every IPv4 address has), the datagrams that `StartDiscoveryBroadcast` writes are the text
`DRIZLINK_SERVER:<ip>:<port>`; it passes the test of the scan (the tag, and three parts at
the colons: the tag, the address, the port), and a scan that receives these datagrams, at
least one, returns exactly the entry whose IP is that address and whose Port is that
port. -/
theorem broadcast_accepted_by_scan (port serverIP : String) (ticks : Nat)
    (hport : colonFree port) (hip : colonFree serverIP) :
    StartDiscoveryBroadcast (":" ++ port) (.ok serverIP) none (ticks + 1) =
      List.replicate (ticks + 1) ("DRIZLINK_SERVER:" ++ serverIP ++ ":" ++ port) ∧
    HasPrefix (broadcastMsg (":" ++ port) serverIP) "DRIZLINK_SERVER:" = true ∧
    Split (broadcastMsg (":" ++ port) serverIP) ':' = ["DRIZLINK_SERVER", serverIP, port] ∧
    DiscoverServers none none
      ((StartDiscoveryBroadcast (":" ++ port) (.ok serverIP) none (ticks + 1)).map some) =
      .ok [⟨serverIP ++ ":" ++ port, serverIP, port⟩] := by
  have hmsg : broadcastMsg (":" ++ port) serverIP = beacon serverIP port := by
    simp only [broadcastMsg, trimPrefix_colon]
  refine ⟨?_, ?_, ?_, ?_⟩
  · simp only [StartDiscoveryBroadcast, hmsg, beacon]
  · rw [hmsg]; exact (split_beacon serverIP port hip hport).1
  · rw [hmsg]; exact (split_beacon serverIP port hip hport).2
  · have hfirst : ((GoMap.empty : GoMap Bool).get? (serverIP ++ ":" ++ port)).getD false =
        false := rfl
    simp only [StartDiscoveryBroadcast, hmsg, List.map_replicate, DiscoverServers,
      List.replicate_succ, discoverLoop, (split_beacon serverIP port hip hport).1,
      (split_beacon serverIP port hip hport).2, hfirst, if_true, Bool.false_eq_true, if_false,
      List.nil_append]
    rw [discoverLoop_seen ticks serverIP port hip hport _ _ (by simp [GoMap.get?_set])]

theorem broadcast_accepted_by_scan_witness :
    DiscoverServers none none
      ((StartDiscoveryBroadcast (":" ++ "8080") (.ok (ipv4Text 192 168 1 5)) none (2 + 1)).map
        some) =
      .ok [⟨ipv4Text 192 168 1 5 ++ ":" ++ "8080", ipv4Text 192 168 1 5, "8080"⟩] :=
  (broadcast_accepted_by_scan "8080" (ipv4Text 192 168 1 5) 2 (by unfold colonFree; decide)
    (ipv4Text_colonFree 192 168 1 5)).2.2.2

/-! ## C12: the reconnection notice and `UserInput` -/

theorem cutChars_of_not_mem (sep : Char) (a : List Char) (h : sep ∉ a) :
    cutChars sep a = none := by
  induction a with
  | nil => rfl
  | cons c a ih =>
    simp only [List.mem_cons, not_or] at h
    have hc : ¬ c = sep := fun e => h.1 e.symm
    simp [cutChars, hc, ih h.2]

theorem splitNChars_append (sep : Char) (n : Nat) (a b : List Char) (h : sep ∉ a) :
    splitNChars sep (n + 2) (a ++ sep :: b) = a :: splitNChars sep (n + 1) b := by
  simp only [splitNChars, cutChars_append sep a b h]

theorem splitNChars_of_not_mem (sep : Char) (n : Nat) (a : List Char) (h : sep ∉ a) :
    splitNChars sep (n + 1) a = [a] := by
  cases n with
  | zero => rfl
  | succ n => simp only [splitNChars, cutChars_of_not_mem sep a h]

theorem splitN_three_fields (tag x y : String) (htag : ' ' ∉ tag.data) (hx : ' ' ∉ x.data)
    (hy : ' ' ∉ y.data) : SplitN (tag ++ " " ++ x ++ " " ++ y) ' ' 4 = [tag, x, y] := by
  unfold SplitN
  have hd : (tag ++ " " ++ x ++ " " ++ y).data = tag.data ++ ' ' :: (x.data ++ ' ' :: y.data) := by
    simp [String.data_append]
  rw [hd, splitNChars_append _ _ _ _ htag, splitNChars_append _ _ _ _ hx,
    splitNChars_of_not_mem _ _ _ hy]
  rfl

theorem isReconnect_notice (username path : String) (hname : ' ' ∉ username.data)
    (hpath : ' ' ∉ path.data) :
    Client.isReconnect (some ("/RECONNECT " ++ username ++ " " ++ path)) = true := by
  have hsplit : SplitN ("/RECONNECT " ++ username ++ " " ++ path) ' ' 4 =
      ["/RECONNECT", username, path] :=
    splitN_three_fields "/RECONNECT" username path (by decide) hname hpath
  have hpre : HasPrefix ("/RECONNECT " ++ username ++ " " ++ path) "/RECONNECT" = true :=
    hasPrefix_append _ _ _ (hasPrefix_append _ _ _ (hasPrefix_append _ _ _ (by decide)))
  have hlen : ("/RECONNECT " ++ username ++ " " ++ path).data.length > 0 := by
    simp [String.data_append]
  simp only [Client.isReconnect, hsplit, hpre, decide_eq_true hlen]
  rfl

theorem handleConnection_notice (g : String) (c : Inbound) (s : Server) (ip : String) (p : Ptr)
    (hip : (Split c.remoteAddr ':').head? = some ip) (hknown : s.IpAddresses.get? ip = some p) :
    (HandleConnection g c s).out.head? =
      some ⟨p, c.conn, "/RECONNECT " ++ (s.heap p).Username ++ " " ++ (s.heap p).StoreFilePath⟩ := by
  unfold HandleConnection
  simp only [hip, hknown]
  split
  · rfl
  · split <;> rfl

theorem byteLen_append (a b : List Char) : byteLen (a ++ b) = byteLen a + byteLen b := by
  induction a with
  | nil => simp [byteLen]
  | cons c a ih => simp [byteLen, ih, Nat.add_assoc]

theorem byteLen_replicate (c : Char) (n : Nat) (hc : c.utf8Size = 1) :
    byteLen (List.replicate n c) = n := by
  induction n with
  | zero => rfl
  | succ n ih => rw [List.replicate_succ, byteLen, ih, hc, Nat.add_comm]

theorem takeBytes_append (n : Nat) (a b : List Char) (h : byteLen a ≤ n) :
    takeBytes n (a ++ b) = a ++ takeBytes (n - byteLen a) b := by
  induction a generalizing n with
  | nil => simp [byteLen]
  | cons c a ih =>
    simp only [byteLen] at h
    have hc : c.utf8Size ≤ n := Nat.le_trans (Nat.le_add_right _ _) h
    have ha : byteLen a ≤ n - c.utf8Size := Nat.le_sub_of_add_le (by omega)
    have e : n - (c.utf8Size + byteLen a) = n - c.utf8Size - byteLen a := Nat.sub_add_eq _ _ _
    rw [List.cons_append, takeBytes, if_pos hc, ih _ ha, byteLen, e]
    rfl

theorem takeBytes_of_le (n : Nat) (l : List Char) (h : byteLen l ≤ n) : takeBytes n l = l := by
  have := takeBytes_append n l [] h
  simpa [takeBytes] using this

theorem takeBytes_zero_ascii (c : Char) (l : List Char) (hc : c.utf8Size = 1) :
    takeBytes 0 (c :: l) = [] := by
  simp [takeBytes, hc]

theorem readBuffer_of_le (s : String) (h : byteLen s.data ≤ 1024) : readBuffer s = s := by
  unfold readBuffer
  rw [takeBytes_of_le _ _ h]

theorem afterRead_of_le (s : String) (h : byteLen s.data ≤ 1024) : afterRead s = "" := by
  unfold afterRead
  rw [takeBytes_of_le _ _ h, List.drop_length]

theorem not_mem_replicate_of_ne (c d : Char) (n : Nat) (h : c ≠ d) : c ∉ List.replicate n d := by
  intro hin
  exact h (List.eq_of_mem_replicate hin)

theorem readBuffer_long_notice :
    readBuffer ("/RECONNECT " ++ repeatChar 'a' 1013 ++ " " ++ "/home/ann") =
      "/RECONNECT " ++ repeatChar 'a' 1013 := by
  have hd : ("/RECONNECT " ++ repeatChar 'a' 1013 ++ " " ++ "/home/ann").data =
      ("/RECONNECT ".data ++ List.replicate 1013 'a') ++ " /home/ann".data := by
    simp only [String.data_append, repeatChar, List.append_assoc]
    rfl
  have hb : byteLen ("/RECONNECT ".data ++ List.replicate 1013 'a') = 1024 := by
    rw [byteLen_append, byteLen_replicate _ _ (by decide)]
    rfl
  have ht : takeBytes (1024 - 1024) " /home/ann".data = [] := by decide
  unfold readBuffer
  rw [hd, takeBytes_append _ _ _ (Nat.le_of_eq hb), hb, ht, List.append_nil]
  apply String.ext
  simp only [String.data_append, repeatChar]

theorem isReconnect_long_notice :
    Client.isReconnect (some (readBuffer ("/RECONNECT " ++ repeatChar 'a' 1013 ++ " " ++ "/home/ann")))
      = false := by
  have hsplit : SplitN ("/RECONNECT " ++ repeatChar 'a' 1013) ' ' 4 =
      ["/RECONNECT", repeatChar 'a' 1013] := by
    unfold SplitN
    have hd : ("/RECONNECT " ++ repeatChar 'a' 1013).data =
        "/RECONNECT".data ++ ' ' :: List.replicate 1013 'a' := by
      simp only [String.data_append, repeatChar]
      rfl
    rw [hd, splitNChars_append _ _ _ _ (by decide),
      splitNChars_of_not_mem _ _ _ (not_mem_replicate_of_ne _ _ _ (by decide))]
    rfl
  rw [readBuffer_long_notice]
  simp only [Client.isReconnect, hsplit]
  simp

/-- C12 (the claim fails as stated): (1) a session registered with the display name
`ann lee` reconnects.  The notice `HandleConnection` writes is
`/RECONNECT ann lee /home/ann`; it has four fields, `UserInput` does not return "reconnect"
on it but goes on to ask for the name, and the login of `main` does not jump to `startChat`
as reconnected.  (2) A session registered with a display name of 1013 letters `a` (one read
of the server holds up to 1024 bytes) reconnects.  The notice is `/RECONNECT `, the name, a
blank and the path; the read of `UserInput` into its 1024 bytes yields `/RECONNECT ` and
the name, cut before the second blank: two fields, and `UserInput` goes on to ask for the
name. -/
theorem reconnect_notice_with_blank_not_recognised :
    ((HandleConnection "u9" ⟨7, "10.0.0.1:6000", false, []⟩
        (handleConnections
          [("u1", ⟨1, "10.0.0.1:5000", false, [some "ann lee", some "/home/ann"]⟩)]
          (Server.init ":8080"))).out.map Write.data).head? =
      some "/RECONNECT ann lee /home/ann" ∧
    Client.UserInput "Username" (some "/RECONNECT ann lee /home/ann") ["ann lee\n"]
      (fun path => path = "/home/ann") false = .sent "ann lee" ∧
    Client.login (some "/RECONNECT ann lee /home/ann") none ["ann lee\n"] ["/home/ann\n"]
      (fun path => path = "/home/ann") false = .registered "ann lee" "/home/ann" ∧
    ((HandleConnection "u9" ⟨7, "10.0.0.1:6000", false, []⟩
        (handleConnections
          [("u1", ⟨1, "10.0.0.1:5000", false, [some (repeatChar 'a' 1013), some "/home/ann"]⟩)]
          (Server.init ":8080"))).out.map Write.data).head? =
      some ("/RECONNECT " ++ repeatChar 'a' 1013 ++ " " ++ "/home/ann") ∧
    readBuffer ("/RECONNECT " ++ repeatChar 'a' 1013 ++ " " ++ "/home/ann") =
      "/RECONNECT " ++ repeatChar 'a' 1013 ∧
    (SplitN (readBuffer ("/RECONNECT " ++ repeatChar 'a' 1013 ++ " " ++ "/home/ann")) ' ' 4).length
      = 2 ∧
    Client.UserInput "Username" (some ("/RECONNECT " ++ repeatChar 'a' 1013 ++ " " ++ "/home/ann"))
      ["ann\n"] (fun path => path = "/home/ann") false = .sent "ann" := by
  refine ⟨by decide, by decide, by decide, ?_, readBuffer_long_notice, ?_, ?_⟩
  · have h := handleConnection_notice "u9" ⟨7, "10.0.0.1:6000", false, []⟩
      (handleConnections
        [("u1", ⟨1, "10.0.0.1:5000", false, [some (repeatChar 'a' 1013), some "/home/ann"]⟩)]
        (Server.init ":8080")) "10.0.0.1" 0 (by decide) (by decide)
    rw [List.head?_map, h]
    rfl
  · rw [readBuffer_long_notice]
    unfold SplitN
    have hd : ("/RECONNECT " ++ repeatChar 'a' 1013).data =
        "/RECONNECT".data ++ ' ' :: List.replicate 1013 'a' := by
      simp only [String.data_append, repeatChar]
      rfl
    rw [hd, splitNChars_append _ _ _ _ (by decide),
      splitNChars_of_not_mem _ _ _ (not_mem_replicate_of_ne _ _ _ (by decide))]
    rfl
  · simp only [Client.UserInput, Option.map_some', isReconnect_long_notice]
    decide


theorem mem_of_mem_takeBytes (c : Char) (n : Nat) (l : List Char) (h : c ∈ takeBytes n l) :
    c ∈ l := by
  induction l generalizing n with
  | nil => simp [takeBytes] at h
  | cons d l ih =>
    simp only [takeBytes] at h
    split at h
    · rcases List.mem_cons.1 h with e | hin
      · exact e ▸ List.mem_cons_self _ _
      · exact List.mem_cons_of_mem _ (ih _ hin)
    · cases h

theorem readBuffer_notice (username path : String) (hfit : byteLen username.data ≤ 1012) :
    readBuffer ("/RECONNECT " ++ username ++ " " ++ path) =
      "/RECONNECT " ++ username ++ " " ++
        ⟨takeBytes (1024 - byteLen ("/RECONNECT " ++ username ++ " ").data) path.data⟩ := by
  have hb : byteLen ("/RECONNECT " ++ username ++ " ").data ≤ 1024 := by
    have e : byteLen ("/RECONNECT " ++ username ++ " ").data = 11 + byteLen username.data + 1 := by
      simp only [String.data_append, byteLen_append]
      rfl
    omega
  unfold readBuffer
  apply String.ext
  have hd : ("/RECONNECT " ++ username ++ " " ++ path).data =
      ("/RECONNECT " ++ username ++ " ").data ++ path.data := by
    simp only [String.data_append]
  rw [hd, takeBytes_append _ _ _ hb]
  simp only [String.data_append]

/-- C12 (amended): for every existing session whose display name and storage path contain
no blank and whose display name has at most 1012 bytes (so that `/RECONNECT `, the name and
the blank after it fit the 1024 bytes that `UserInput` reads), the first write of
`HandleConnection` for a connection from its IP is the notice `/RECONNECT <name> <path>` on
the new connection; the read of `UserInput` into its buffer of 1024 bytes yields the
whole notice when it has at most 1024 bytes, and `UserInput`, whatever attribute it asks
for and whatever would be typed, returns "reconnect"; the login of `main` then jumps to
`startChat` without asking for name or path. -/
theorem reconnect_notice_recognised (g : String) (c : Inbound) (s : Server) (ip : String)
    (p : Ptr) (hip : (Split c.remoteAddr ':').head? = some ip)
    (hknown : s.IpAddresses.get? ip = some p) (hname : ' ' ∉ (s.heap p).Username.data)
    (hpath : ' ' ∉ (s.heap p).StoreFilePath.data)
    (hfit : byteLen (s.heap p).Username.data ≤ 1012) :
    ∃ w, (HandleConnection g c s).out.head? = some w ∧ w.conn = c.conn ∧
      w.data = "/RECONNECT " ++ (s.heap p).Username ++ " " ++ (s.heap p).StoreFilePath ∧
      (byteLen w.data.data ≤ 1024 → readBuffer w.data = w.data) ∧
      (∀ attributeName lines isDir writeFails,
        Client.UserInput attributeName (some w.data) lines isDir writeFails = .reconnect) ∧
      ∀ arrived₂ lines₁ lines₂ isDir writeFails,
        Client.login (some w.data) arrived₂ lines₁ lines₂ isDir writeFails = .reconnected := by
  have hrec : Client.isReconnect (some (readBuffer
      ("/RECONNECT " ++ (s.heap p).Username ++ " " ++ (s.heap p).StoreFilePath))) = true := by
    rw [readBuffer_notice _ _ hfit]
    exact isReconnect_notice _ _ hname (fun hin => hpath (mem_of_mem_takeBytes _ _ _ hin))
  refine ⟨_, handleConnection_notice g c s ip p hip hknown, rfl, rfl,
    fun h => readBuffer_of_le _ h, ?_, ?_⟩
  · intro attributeName lines isDir writeFails
    simp only [Client.UserInput, Option.map_some', hrec, if_true]
  · intro arrived₂ lines₁ lines₂ isDir writeFails
    simp only [Client.login, Client.UserInput, Option.map_some', hrec, if_true]

theorem reconnect_notice_recognised_witness :
    ∃ w, (HandleConnection "u9" ⟨7, "10.0.0.1:6000", false, []⟩ demoServer).out.head? = some w ∧
      w.data = "/RECONNECT carol /home/carol" ∧ readBuffer w.data = w.data ∧
      Client.login (some w.data) none [] [] (fun _ => false) false = .reconnected := by
  obtain ⟨w, h1, _, h3, h4, _, h6⟩ := reconnect_notice_recognised "u9"
    ⟨7, "10.0.0.1:6000", false, []⟩ demoServer "10.0.0.1" 0 (by decide) (by decide) (by decide)
    (by decide) (by decide)
  exact ⟨w, h1, by rw [h3]; decide, h4 (by rw [h3]; decide), h6 none [] [] (fun _ => false) false⟩

/-! ## C13, C14: the frame of `/JOIN_ROOM` and `/LEAVE_ROOM` -/

theorem joined_text_ne_notFound (a b c : String) :
    "ROOM_JOINED " ++ a ++ b ++ c ≠ "ROOM_NOT_FOUND\n" := by
  intro e
  rw [String.append_assoc, String.append_assoc] at e
  exact joined_ne_notFound _ e.symm

theorem joined_text_ne_notMember (a b c : String) :
    "ROOM_JOINED " ++ a ++ b ++ c ≠ "NOT_ROOM_MEMBER\n" := by
  intro e
  rw [String.append_assoc, String.append_assoc] at e
  exact joined_ne_notMember _ e.symm

theorem notFound_ne_notMember : "ROOM_NOT_FOUND\n" ≠ "NOT_ROOM_MEMBER\n" := by decide

theorem onJoinRoom_malformed (conn : NetConn) (user : Ptr) (s : Server) (m : String)
    (h : ¬ ∃ cmd arg, SplitN m ' ' 2 = [cmd, arg]) :
    onJoinRoom conn user s m = ⟨s, [], .returned .again⟩ := by
  unfold onJoinRoom
  split
  · rename_i cmd arg hsplit
    exact absurd ⟨cmd, arg, hsplit⟩ h
  · rfl

theorem onJoinRoom_blocked (conn : NetConn) (user : Ptr) (s : Server) (m cmd arg : String)
    (hargs : SplitN m ' ' 2 = [cmd, arg]) (hheld : s.Mutex = true) :
    onJoinRoom conn user s m = ⟨s, [], .blocked⟩ := by
  unfold onJoinRoom
  simp only [hargs, hheld, if_true]

/-- C13: for every message that starts with `/JOIN_ROOM`, whatever the server state: when
the dispatcher answers `ROOM_NOT_FOUND` or `NOT_ROOM_MEMBER` it leaves the server exactly
as it was (registry, every room, every session, the requester's current room included);
when it answers `ROOM_JOINED`, the message has a room-id field, the registry, the
directory with every member set and every other session are as they were, and the
requester's session differs only in its current room, which is the trimmed id. -/
theorem join_room_frame (env : Env) (conn : NetConn) (user : Ptr) (s : Server) (m : String)
    (hm : HasPrefix m "/JOIN_ROOM" = true) :
    (((handleUserMessages env conn user s (some m)).out = [⟨user, conn, "ROOM_NOT_FOUND\n"⟩] ∨
        (handleUserMessages env conn user s (some m)).out =
          [⟨user, conn, "NOT_ROOM_MEMBER\n"⟩]) →
      (handleUserMessages env conn user s (some m)).server = s) ∧
    (∀ text, (handleUserMessages env conn user s (some m)).out =
        [⟨user, conn, "ROOM_JOINED " ++ text⟩] →
      ∃ cmd arg, SplitN m ' ' 2 = [cmd, arg] ∧
        (handleUserMessages env conn user s (some m)).server.Connections = s.Connections ∧
        (handleUserMessages env conn user s (some m)).server.IpAddresses = s.IpAddresses ∧
        (handleUserMessages env conn user s (some m)).server.Rooms = s.Rooms ∧
        (handleUserMessages env conn user s (some m)).server.next = s.next ∧
        (∀ q, q ≠ user →
          (handleUserMessages env conn user s (some m)).server.heap q = s.heap q) ∧
        (handleUserMessages env conn user s (some m)).server.heap user =
          { s.heap user with CurrentRoomID := TrimSpace arg }) := by
  rw [dispatch_joinRoom env conn user s m hm]
  have hnil : ∀ (e : Ending LoopCtl),
      (((⟨s, [], e⟩ : Outcome LoopCtl).out = [⟨user, conn, "ROOM_NOT_FOUND\n"⟩] ∨
          (⟨s, [], e⟩ : Outcome LoopCtl).out = [⟨user, conn, "NOT_ROOM_MEMBER\n"⟩]) →
        (⟨s, [], e⟩ : Outcome LoopCtl).server = s) := fun _ _ => rfl
  by_cases hshape : ∃ cmd arg, SplitN m ' ' 2 = [cmd, arg]
  · obtain ⟨cmd, arg, hargs⟩ := hshape
    cases hmx : s.Mutex with
    | true =>
      rw [onJoinRoom_blocked conn user s m cmd arg hargs hmx]
      exact ⟨hnil _, fun text h => by cases h⟩
    | false =>
      cases hroom : s.Rooms.get? (TrimSpace arg) with
      | none =>
        rw [onJoinRoom_notFound conn user s m cmd arg hargs hmx hroom]
        refine ⟨fun _ => rfl, ?_⟩
        intro text h
        simp only [List.cons.injEq, Write.mk.injEq, and_true, true_and] at h
        exact absurd h (joined_ne_notFound text)
      | some room =>
        cases hmem : room.Members.get? (s.heap user).UserId with
        | none =>
          rw [onJoinRoom_notMember conn user s m cmd arg room hargs hmx hroom hmem]
          refine ⟨fun _ => rfl, ?_⟩
          intro text h
          simp only [List.cons.injEq, Write.mk.injEq, and_true, true_and] at h
          exact absurd h (joined_ne_notMember text)
        | some q =>
          rw [onJoinRoom_joined conn user s m cmd arg room q hargs hmx hroom hmem]
          constructor
          · intro h
            rcases h with h | h
            · simp only [List.cons.injEq, Write.mk.injEq, and_true, true_and] at h
              exact absurd h (joined_text_ne_notFound _ _ _)
            · simp only [List.cons.injEq, Write.mk.injEq, and_true, true_and] at h
              exact absurd h (joined_text_ne_notMember _ _ _)
          · intro text _
            refine ⟨cmd, arg, hargs, rfl, rfl, rfl, rfl, ?_, ?_⟩
            · intro q' hq
              simp [Server.setUser, hq]
            · simp [Server.setUser]
  · rw [onJoinRoom_malformed conn user s m hshape]
    exact ⟨hnil _, fun text h => by cases h⟩

theorem join_room_frame_witness :
    (handleUserMessages demoEnv 4 3 demoServer (some "/JOIN_ROOM room_7")).server = demoServer :=
  (join_room_frame demoEnv 4 3 demoServer "/JOIN_ROOM room_7" (by decide)).1 (Or.inl (by decide))

theorem dispatch_leaveRoom (env : Env) (conn : NetConn) (user : Ptr) (s : Server) (m : String)
    (hm : HasPrefix m "/LEAVE_ROOM" = true) :
    handleUserMessages env conn user s (some m) = onLeaveRoom conn user s := by
  have h0 : m ≠ "/exit" := by intro e; rw [e] at hm; revert hm; decide
  have h1 : m ≠ "PONG\n" := by intro e; rw [e] at hm; revert hm; decide
  have h2 := hasPrefix_excludes m _ "/FILE_REQUEST" hm (by decide)
  have h3 := hasPrefix_excludes m _ "/FOLDER_REQUEST" hm (by decide)
  have h4 := hasPrefix_excludes m _ "/status" hm (by decide)
  have h5 := hasPrefix_excludes m _ "/GET_ONLINE_USERS" hm (by decide)
  have h6 := hasPrefix_excludes m _ "/CREATE_ROOM" hm (by decide)
  have h7 := hasPrefix_excludes m _ "/JOIN_ROOM" hm (by decide)
  simp only [handleUserMessages, h0, h1, h2, h3, h4, h5, h6, h7, hm, if_false, if_true,
    Bool.false_eq_true]

/-- C14: for every message that starts with `/LEAVE_ROOM`, every session and every server
state: when the session's current room is not empty, the dispatcher sets it to the empty
text and writes `ROOM_LEFT` with the id that was current; when it is empty, it writes
nothing and leaves the server exactly as it was.  In both cases the registry, the
directory with every member set and every other session are as they were, the session
keeps its other fields, and the loop goes on. -/
theorem leave_room_effect (env : Env) (conn : NetConn) (user : Ptr) (s : Server) (m : String)
    (hm : HasPrefix m "/LEAVE_ROOM" = true) :
    ((s.heap user).CurrentRoomID ≠ "" →
      (handleUserMessages env conn user s (some m)).out =
        [⟨user, conn, "ROOM_LEFT " ++ (s.heap user).CurrentRoomID ++ "\n"⟩] ∧
      (handleUserMessages env conn user s (some m)).server.heap user =
        { s.heap user with CurrentRoomID := "" }) ∧
    ((s.heap user).CurrentRoomID = "" →
      (handleUserMessages env conn user s (some m)).out = [] ∧
      (handleUserMessages env conn user s (some m)).server = s) ∧
    (handleUserMessages env conn user s (some m)).server.Connections = s.Connections ∧
    (handleUserMessages env conn user s (some m)).server.IpAddresses = s.IpAddresses ∧
    (handleUserMessages env conn user s (some m)).server.Rooms = s.Rooms ∧
    (∀ q, q ≠ user → (handleUserMessages env conn user s (some m)).server.heap q = s.heap q) ∧
    (handleUserMessages env conn user s (some m)).ending = .returned .again := by
  rw [dispatch_leaveRoom env conn user s m hm]
  by_cases hcur : (s.heap user).CurrentRoomID = ""
  · have hout : onLeaveRoom conn user s = ⟨s, [], .returned .again⟩ := by
      unfold onLeaveRoom
      rw [if_neg (fun h => h hcur)]
      rfl
    rw [hout]
    exact ⟨fun h => absurd hcur h, fun _ => ⟨rfl, rfl⟩, rfl, rfl, rfl, fun _ _ => rfl, rfl⟩
  · have hout : onLeaveRoom conn user s =
        ⟨s.setUser user { s.heap user with CurrentRoomID := "" },
          [⟨user, conn, "ROOM_LEFT " ++ (s.heap user).CurrentRoomID ++ "\n"⟩],
          .returned .again⟩ := by
      unfold onLeaveRoom
      rw [if_pos hcur]
    rw [hout]
    refine ⟨fun _ => ⟨rfl, ?_⟩, fun h => absurd h hcur, rfl, rfl, rfl, ?_, rfl⟩
    · simp [Server.setUser]
    · intro q hq
      simp [Server.setUser, hq]

theorem leave_room_effect_witness :
    (handleUserMessages demoEnv 1 0 demoServer (some "/LEAVE_ROOM")).server.Rooms =
      demoServer.Rooms :=
  (leave_room_effect demoEnv 1 0 demoServer "/LEAVE_ROOM" (by decide)).2.2.2.2.1

/-! ## C15: malformed transfer requests -/

theorem dispatch_fileRequest (env : Env) (conn : NetConn) (user : Ptr) (s : Server) (m : String)
    (hm : HasPrefix m "/FILE_REQUEST" = true) :
    handleUserMessages env conn user s (some m) =
      onTransferRequest env.HandleFileTransfer conn s m := by
  have h0 : m ≠ "/exit" := by intro e; rw [e] at hm; revert hm; decide
  simp only [handleUserMessages, h0, hm, if_false, if_true]

theorem dispatch_folderRequest (env : Env) (conn : NetConn) (user : Ptr) (s : Server)
    (m : String) (hm : HasPrefix m "/FOLDER_REQUEST" = true) :
    handleUserMessages env conn user s (some m) =
      onTransferRequest env.HandleFolderTransfer conn s m := by
  have h0 : m ≠ "/exit" := by intro e; rw [e] at hm; revert hm; decide
  have h2 := hasPrefix_excludes m _ "/FILE_REQUEST" hm (by decide)
  simp only [handleUserMessages, h0, h2, hm, if_false, if_true, Bool.false_eq_true]

theorem onTransferRequest_malformed
    (handler : Server → NetConn → String → String → Int → Outcome Unit) (conn : NetConn)
    (s : Server) (m : String)
    (hbad : (SplitN m ' ' 5).length < 4 ∨
      ∃ size, (SplitN m ' ' 5)[3]? = some size ∧ ParseInt (TrimSpace size) = none) :
    onTransferRequest handler conn s m = ⟨s, [], .returned .again⟩ := by
  unfold onTransferRequest
  generalize SplitN m ' ' 5 = l at hbad
  rcases l with _ | ⟨a, _ | ⟨b, _ | ⟨c, _ | ⟨d, _ | ⟨e, _ | ⟨f, t⟩⟩⟩⟩⟩⟩
  · rfl
  · rfl
  · rfl
  · rfl
  · rcases hbad with h | ⟨size, h1, h2⟩
    · simp at h
    · simp only [List.getElem?_cons_succ, List.getElem?_cons_zero, Option.some.injEq] at h1
      subst h1
      simp only [h2]
      rfl
  · rcases hbad with h | ⟨size, h1, h2⟩
    · simp at h
    · simp only [List.getElem?_cons_succ, List.getElem?_cons_zero, Option.some.injEq] at h1
      subst h1
      simp only [h2]
      rfl
  · rfl

/-- C15: for every message that starts with `/FILE_REQUEST` or `/FOLDER_REQUEST` and that
splits at blanks (into at most five fields) into fewer than four, or whose fourth field,
trimmed, `strconv.ParseInt` rejects as a decimal 64-bit integer: whatever the transfer
handlers are, the dispatcher calls none of them, writes nothing, leaves the server exactly
as it was (so the session stays online) and goes on to the next read. -/
theorem transfer_request_malformed_dropped (env : Env) (conn : NetConn) (user : Ptr)
    (s : Server) (m : String)
    (hm : HasPrefix m "/FILE_REQUEST" = true ∨ HasPrefix m "/FOLDER_REQUEST" = true)
    (hbad : (SplitN m ' ' 5).length < 4 ∨
      ∃ size, (SplitN m ' ' 5)[3]? = some size ∧ ParseInt (TrimSpace size) = none) :
    handleUserMessages env conn user s (some m) = ⟨s, [], .returned .again⟩ := by
  rcases hm with hm | hm
  · rw [dispatch_fileRequest env conn user s m hm]
    exact onTransferRequest_malformed _ conn s m hbad
  · rw [dispatch_folderRequest env conn user s m hm]
    exact onTransferRequest_malformed _ conn s m hbad

theorem transfer_request_malformed_dropped_witness :
    handleUserMessages demoEnv 1 0 demoServer (some "/FILE_REQUEST A notes.txt 12kb abc") =
      ⟨demoServer, [], .returned .again⟩ :=
  transfer_request_malformed_dropped demoEnv 1 0 demoServer "/FILE_REQUEST A notes.txt 12kb abc"
    (Or.inl (by decide)) (Or.inr ⟨"12kb", by decide, by decide⟩)

/-! ## C16: disconnection -/

theorem broadcastWrites_sessions (content : String) (s : Server) (sender : Ptr) :
    (broadcastWrites content s sender).map Write.session =
      s.Connections.values.filter fun p => (s.heap p).IsOnline && p != sender := by
  unfold broadcastWrites GoMap.values
  induction s.Connections.entries with
  | nil => rfl
  | cons e es ih =>
    cases hc : ((s.heap e.2).IsOnline && e.2 != sender) with
    | true =>
      simp only [List.filterMap_cons, hc, if_true, List.map_cons, List.filter_cons]
      exact congrArg _ ih
    | false =>
      simp only [List.filterMap_cons, hc, Bool.false_eq_true, if_false, List.map_cons,
        List.filter_cons]
      exact ih

theorem onDisconnect_eq (user : Ptr) (s : Server) (hfree : s.Mutex = false) :
    onDisconnect user s =
      ⟨s.setUser user { s.heap user with IsOnline := false },
        broadcastWrites ("User " ++ (s.heap user).Username ++ " is now offline")
          (s.setUser user { s.heap user with IsOnline := false }) user,
        .returned .exit⟩ := by
  have hname : ((s.setUser user { s.heap user with IsOnline := false }).heap user).Username =
      (s.heap user).Username := by simp [Server.setUser]
  simp only [onDisconnect, hfree, Bool.false_eq_true, if_false, BroadcastMessage, Server.setUser,
    Ending.map, if_true]

/-- C16: when the read of a session's loop fails, or yields `/exit`, and the mutex is free,
`handleUserMessages` returns; the session's online flag is false and its other fields are as
they were; every other session, `Connections`, the IP table and the directory with every
member set are as they were; each write it makes is the line `User <name> is now offline`
(sent, as every broadcast, after the sender's name) on the connection of the session it
addresses; and the sessions addressed are exactly those of `Connections` that were online
and are not the session itself. -/
theorem disconnect_effect (env : Env) (conn : NetConn) (user : Ptr) (s : Server)
    (read : Option String) (hread : read = none ∨ read = some "/exit")
    (hfree : s.Mutex = false) :
    (handleUserMessages env conn user s read).ending = .returned .exit ∧
    (handleUserMessages env conn user s read).server.heap user =
      { s.heap user with IsOnline := false } ∧
    (∀ q, q ≠ user → (handleUserMessages env conn user s read).server.heap q = s.heap q) ∧
    (handleUserMessages env conn user s read).server.Connections = s.Connections ∧
    (handleUserMessages env conn user s read).server.IpAddresses = s.IpAddresses ∧
    (handleUserMessages env conn user s read).server.Rooms = s.Rooms ∧
    (∀ w ∈ (handleUserMessages env conn user s read).out,
      w.conn = (s.heap w.session).Conn ∧
      w.data = (s.heap user).Username ++ ": " ++
        ("User " ++ (s.heap user).Username ++ " is now offline") ++ "\n") ∧
    (∀ p, p ∈ (handleUserMessages env conn user s read).out.map Write.session ↔
      p ∈ s.Connections.values ∧ (s.heap p).IsOnline = true ∧ p ≠ user) := by
  have hdispatch : handleUserMessages env conn user s read = onDisconnect user s := by
    rcases hread with rfl | rfl
    · rfl
    · simp only [handleUserMessages, if_true]
  rw [hdispatch, onDisconnect_eq user s hfree]
  refine ⟨rfl, ?_, ?_, rfl, rfl, rfl, ?_, ?_⟩
  · simp [Server.setUser]
  · intro q hq
    simp [Server.setUser, hq]
  · intro w hw
    simp only [broadcastWrites, List.mem_filterMap] at hw
    obtain ⟨e, _, he⟩ := hw
    split at he
    · rename_i hc
      simp only [Bool.and_eq_true, bne_iff_ne] at hc
      cases he
      simp [Server.setUser, hc.2]
    · cases he
  · intro p
    simp only [broadcastWrites_sessions, List.mem_filter, Bool.and_eq_true, bne_iff_ne]
    constructor
    · rintro ⟨h1, h2, h3⟩
      refine ⟨h1, ?_, h3⟩
      simpa [Server.setUser, h3] using h2
    · rintro ⟨h1, h2, h3⟩
      refine ⟨h1, ?_, h3⟩
      simpa [Server.setUser, h3] using h2

theorem disconnect_effect_witness :
    (handleUserMessages demoEnv 2 1 demoServer none).ending = .returned .exit ∧
    ((handleUserMessages demoEnv 2 1 demoServer none).server.heap 1).IsOnline = false :=
  ⟨(disconnect_effect demoEnv 2 1 demoServer none (Or.inl rfl) (by decide)).1,
    congrArg User.IsOnline
      (disconnect_effect demoEnv 2 1 demoServer none (Or.inl rfl) (by decide)).2.1⟩

/-! ## C17: `/GET_ONLINE_USERS` -/

theorem dispatch_getOnlineUsers (env : Env) (conn : NetConn) (user : Ptr) (s : Server)
    (m : String) (hm : HasPrefix m "/GET_ONLINE_USERS" = true) :
    handleUserMessages env conn user s (some m) = onGetOnlineUsers conn user s := by
  have h0 : m ≠ "/exit" := by intro e; rw [e] at hm; revert hm; decide
  have h1 : m ≠ "PONG\n" := by intro e; rw [e] at hm; revert hm; decide
  have h2 := hasPrefix_excludes m _ "/FILE_REQUEST" hm (by decide)
  have h3 := hasPrefix_excludes m _ "/FOLDER_REQUEST" hm (by decide)
  have h4 := hasPrefix_excludes m _ "/status" hm (by decide)
  simp only [handleUserMessages, h0, h1, h2, h3, h4, hm, if_false, if_true, Bool.false_eq_true]

theorem foldl_cond_append_eq_foldr (c : User → Prop) [DecidablePred c] (g : User → String)
    (l : List User) (init tail : String) :
    l.foldl (fun response u => if c u then response ++ g u else response) init ++ tail =
      init ++ ((l.filter fun u => decide (c u)).map g).foldr (fun a b => a ++ b) tail := by
  induction l generalizing init with
  | nil => simp
  | cons u l ih =>
    by_cases hc : c u
    · simp only [List.foldl_cons, hc, if_true, List.filter_cons, decide_True, List.map_cons,
        List.foldr_cons]
      rw [ih, String.append_assoc]
    · simp only [List.foldl_cons, hc, if_false, List.filter_cons, decide_False,
        Bool.false_eq_true]
      exact ih init

/-- C17: with the mutex free and every user of `Connections` filed under its own id, for
every message that starts with `/GET_ONLINE_USERS` the dispatcher writes to the requester
the text `ONLINE_USERS_LIST`, then one item ` id|name` per session of a list without
repetition, then a line end; a session is in that list if and only if it is in
`Connections`, is online and has an id other than the requester's.  The server is left as
it was. -/
theorem online_users_reply (env : Env) (conn : NetConn) (user : Ptr) (s : Server) (m : String)
    (hm : HasPrefix m "/GET_ONLINE_USERS" = true) (hfree : s.Mutex = false)
    (hfiled : ∀ k p, s.Connections.get? k = some p → (s.heap p).UserId = k) :
    ∃ listed : List Ptr, listed.Nodup ∧
      (∀ p, p ∈ listed ↔ p ∈ s.Connections.values ∧ (s.heap p).IsOnline = true ∧
        (s.heap p).UserId ≠ (s.heap user).UserId) ∧
      (handleUserMessages env conn user s (some m)).out =
        [⟨user, conn, "ONLINE_USERS_LIST" ++
          (listed.map fun p => " " ++ (s.heap p).UserId ++ "|" ++ (s.heap p).Username).foldr
            (fun a b => a ++ b) "\n"⟩] ∧
      (handleUserMessages env conn user s (some m)).server = s := by
  refine ⟨s.Connections.values.filter fun p =>
    decide ((s.heap p).UserId ≠ (s.heap user).UserId) && (s.heap p).IsOnline, ?_, ?_, ?_, ?_⟩
  · exact (values_nodup_of_filed s.Connections s.heap hfiled).filter _
  · intro p
    simp only [List.mem_filter, Bool.and_eq_true, decide_eq_true_eq]
    constructor
    · rintro ⟨h1, h2, h3⟩
      exact ⟨h1, h3, h2⟩
    · rintro ⟨h1, h2, h3⟩
      exact ⟨h1, h3, h2⟩
  · rw [dispatch_getOnlineUsers env conn user s m hm]
    simp only [onGetOnlineUsers, GetOnlineUsersList, hfree, Bool.false_eq_true, if_false]
    rw [foldl_cond_append_eq_foldr (fun u => u.UserId ≠ (s.heap user).UserId)
      (fun u => " " ++ u.UserId ++ "|" ++ u.Username)]
    simp only [List.filter_filter, List.filter_map, List.map_map]
    rfl
  · rw [dispatch_getOnlineUsers env conn user s m hm]
    simp only [onGetOnlineUsers, GetOnlineUsersList, hfree, Bool.false_eq_true, if_false]

theorem online_users_reply_witness :
    (handleUserMessages demoEnv 1 0 demoServer (some "/GET_ONLINE_USERS")).server = demoServer := by
  obtain ⟨_, _, _, _, h⟩ := online_users_reply demoEnv 1 0 demoServer "/GET_ONLINE_USERS"
    (by decide) (by decide)
    (handleConnections_filed _ _ (filed_init ":8080")).conns
  exact h

/-! ## C18: pause and resume of a transfer -/

theorem copy_start (id : String) (source : List Nat) (n : Nat) :
    (Client.Transfer.start id source).copy n =
      ⟨id, source, source.take n, (source.take n).length, .inProgress⟩ := by
  simp [Client.Transfer.copy, Client.Transfer.start, Client.Transfer.chunk]

/-- C18: a transfer of the bytes `source` has copied `k` of them (`k` at most their number)
when the line typed in `WriteLoop` is a `/pause` of its id, and a later line is a `/resume`
of it.  After the pause the transfer is paused at offset `k` with the first `k` bytes
written, and copies nothing while paused; after the resume it is in progress at offset `k`,
the bytes its copy then moves are exactly those from position `k` to the end, and what is
written at the end is the source, byte for byte what an uninterrupted copy writes. -/
theorem resume_copies_rest (id : String) (source : List Nat) (k : Nat)
    (pauseLine resumeLine : String) (hk : k ≤ source.length)
    (hpause : Client.writeLoopCommand pauseLine = .pause id)
    (hresume : Client.writeLoopCommand resumeLine = .resume id) :
    ∃ p r : Client.Transfer,
      Client.writeLoopTransfers (Client.writeLoopCommand pauseLine)
        [(Client.Transfer.start id source).copy k] = [p] ∧
      p.state = .paused ∧ p.offset = k ∧ p.written = source.take k ∧
      (∀ n, p.copy n = p) ∧
      Client.writeLoopTransfers (Client.writeLoopCommand resumeLine) [p] = [r] ∧
      r.state = .inProgress ∧ r.offset = k ∧ r.written = source.take k ∧
      r.chunk (source.length - k) = source.drop k ∧
      (r.copy (source.length - k)).written = source ∧
      (r.copy (source.length - k)).offset = source.length ∧
      (r.copy (source.length - k)).written =
        ((Client.Transfer.start id source).copy source.length).written := by
  have hlen : (source.take k).length = k := by simp [hk]
  have hrest : (source.drop k).take (source.length - k) = source.drop k :=
    List.take_of_length_le (by simp)
  refine ⟨⟨id, source, source.take k, k, .paused⟩, ⟨id, source, source.take k, k, .inProgress⟩,
    ?_, rfl, rfl, rfl, ?_, ?_, rfl, rfl, rfl, ?_, ?_, ?_, ?_⟩
  · rw [hpause, copy_start]
    simp [Client.writeLoopTransfers, Client.HandlePauseTransfer, hlen]
  · intro n
    simp [Client.Transfer.copy]
  · rw [hresume]
    simp [Client.writeLoopTransfers, Client.HandleResumeTransfer]
  · simp [Client.Transfer.chunk]
  · simp [Client.Transfer.copy, Client.Transfer.chunk, hrest]
  · simp [Client.Transfer.copy, Client.Transfer.chunk]
    omega
  · rw [copy_start]
    simp [Client.Transfer.copy, Client.Transfer.chunk, hrest]

theorem resume_copies_rest_witness :
    ∃ p r : Client.Transfer,
      Client.writeLoopTransfers (Client.writeLoopCommand "/pause t1\n")
        [(Client.Transfer.start "t1" [10, 20, 30, 40, 50]).copy 2] = [p] ∧
      Client.writeLoopTransfers (Client.writeLoopCommand "/resume t1\n") [p] = [r] ∧
      r.chunk 3 = [30, 40, 50] ∧ (r.copy 3).written = [10, 20, 30, 40, 50] := by
  obtain ⟨p, r, h1, _, _, _, _, h6, _, _, _, h10, h11, _, _⟩ :=
    resume_copies_rest "t1" [10, 20, 30, 40, 50] 2 "/pause t1\n" "/resume t1\n" (by decide)
      (by decide) (by decide)
  exact ⟨p, r, h1, h6, h10, h11⟩

/-! ## C19: the negative acknowledgments at the client -/

theorem rejected_join_reaches_default (env : Env) (conn : NetConn) (user : Ptr) (s : Server)
    (m cmd arg : String) (hm : HasPrefix m "/JOIN_ROOM" = true)
    (hargs : SplitN m ' ' 2 = [cmd, arg]) (hfree : s.Mutex = false)
    (hrejected : ∀ room, s.Rooms.get? (TrimSpace arg) = some room →
      room.Members.get? (s.heap user).UserId = none) :
    ∃ text, (handleUserMessages env conn user s (some m)).out = [⟨user, conn, text⟩] ∧
      Client.readLoopCase text = .chat := by
  rw [dispatch_joinRoom env conn user s m hm]
  cases hroom : s.Rooms.get? (TrimSpace arg) with
  | none =>
    rw [onJoinRoom_notFound conn user s m cmd arg hargs hfree hroom]
    exact ⟨_, rfl, by decide⟩
  | some room =>
    rw [onJoinRoom_notMember conn user s m cmd arg room hargs hfree hroom (hrejected room hroom)]
    exact ⟨_, rfl, by decide⟩

/-- C19 (evaluation at the failing input): `D` asks to join a room that does not exist, and
then the room `room_7` of which it is not a member.  The dispatcher answers with the texts
`ROOM_NOT_FOUND` and `NOT_ROOM_MEMBER`, each followed by a line end.  `ReadLoop` compares
the whole message with the text without line end, so both answers fall through to the
`default` case and are printed as chat lines; only the texts without the line end reach the
two dedicated cases. -/
theorem negative_ack_printed_as_chat :
    (handleUserMessages demoEnv 4 3 demoServer (some "/JOIN_ROOM room_1")).out.map Write.data =
      ["ROOM_NOT_FOUND\n"] ∧
    Client.readLoopCase "ROOM_NOT_FOUND\n" = .chat ∧
    (handleUserMessages demoEnv 4 3
        (CreateRoom ⟨7, by decide⟩ "2024-01-01 00:00:00" demoServer "team" "C" ["A", "B"]).server
        (some "/JOIN_ROOM room_7")).out.map Write.data = ["NOT_ROOM_MEMBER\n"] ∧
    Client.readLoopCase "NOT_ROOM_MEMBER\n" = .chat ∧
    Client.readLoopCase "ROOM_NOT_FOUND" = .roomNotFound ∧
    Client.readLoopCase "NOT_ROOM_MEMBER" = .notRoomMember := by
  decide

/-! ## C20: `/CREATE_ROOM` from the client to the server -/

theorem join_data (a b : String) (rest : List String) :
    (Join (a :: b :: rest) ",").data = a.data ++ ',' :: (Join (b :: rest) ",").data := by
  simp [Join, String.data_append]

theorem split_join (ids : List String) (hne : ids ≠ []) (hids : ∀ id ∈ ids, ',' ∉ id.data) :
    Split (Join ids ",") ',' = ids := by
  unfold Split
  induction ids with
  | nil => exact absurd rfl hne
  | cons a rest ih =>
    have ha : ',' ∉ a.data := hids a (List.mem_cons_self _ _)
    cases rest with
    | nil =>
      simp only [Join, splitChars_of_not_mem _ _ ha, List.map_cons, List.map_nil]
    | cons b rest =>
      rw [join_data, splitChars_append _ _ _ ha, List.map_cons,
        ih (by simp) (fun id hid => hids id (List.mem_cons_of_mem _ hid))]

theorem splitN_createRoom (roomName members : String) (hname : ' ' ∉ roomName.data) :
    SplitN ("/CREATE_ROOM " ++ roomName ++ " " ++ members) ' ' 3 =
      ["/CREATE_ROOM", roomName, members] := by
  unfold SplitN
  have hd : ("/CREATE_ROOM " ++ roomName ++ " " ++ members).data =
      "/CREATE_ROOM".data ++ ' ' :: (roomName.data ++ ' ' :: members.data) := by
    simp [String.data_append]
  rw [hd, splitNChars_append _ _ _ _ (by decide), splitNChars_append _ _ _ _ hname]
  rfl

theorem dispatch_createRoom (env : Env) (conn : NetConn) (user : Ptr) (s : Server) (m : String)
    (hm : HasPrefix m "/CREATE_ROOM" = true) :
    handleUserMessages env conn user s (some m) = onCreateRoom env user s m := by
  have h0 : m ≠ "/exit" := by intro e; rw [e] at hm; revert hm; decide
  have h1 : m ≠ "PONG\n" := by intro e; rw [e] at hm; revert hm; decide
  have h2 := hasPrefix_excludes m _ "/FILE_REQUEST" hm (by decide)
  have h3 := hasPrefix_excludes m _ "/FOLDER_REQUEST" hm (by decide)
  have h4 := hasPrefix_excludes m _ "/status" hm (by decide)
  have h5 := hasPrefix_excludes m _ "/GET_ONLINE_USERS" hm (by decide)
  simp only [handleUserMessages, h0, h1, h2, h3, h4, h5, hm, if_false, if_true,
    Bool.false_eq_true]

theorem onCreateRoom_parse (env : Env) (user : Ptr) (s : Server) (m roomName : String)
    (memberIDs : List String) (h : parseCreateRoom m = some (roomName, memberIDs)) :
    (onCreateRoom env user s m).server =
      (CreateRoom env.rnd env.now s roomName (s.heap user).UserId memberIDs).server := by
  unfold parseCreateRoom at h
  unfold onCreateRoom
  split at h
  · rename_i cmd name ids hsplit
    simp only [Option.some.injEq, Prod.mk.injEq] at h
    obtain ⟨rfl, rfl⟩ := h
    simp only [hsplit]
    split <;> rfl
  · cases h

theorem onCreateRoom_unparsed (env : Env) (user : Ptr) (s : Server) (m : String)
    (h : parseCreateRoom m = none) : onCreateRoom env user s m = skip s := by
  unfold parseCreateRoom at h
  unfold onCreateRoom
  split
  · rename_i cmd name ids hsplit
    rw [hsplit] at h
    cases h
  · rfl

theorem createRoomMsg_long_data :
    (Client.createRoomMsg (repeatChar 'a' 1020) ["A"]).data =
      ("/CREATE_ROOM ".data ++ List.replicate 1011 'a') ++
        (List.replicate 9 'a' ++ " A".data) := by
  have hr : List.replicate 1020 'a' = List.replicate 1011 'a' ++ List.replicate 9 'a' :=
    List.replicate_add 1011 9 'a'
  simp only [Client.createRoomMsg, Join, String.data_append, repeatChar, hr, List.append_assoc]
  rfl

theorem byteLen_createRoom_head :
    byteLen ("/CREATE_ROOM ".data ++ List.replicate 1011 'a') = 1024 := by
  rw [byteLen_append, byteLen_replicate _ _ (by decide)]
  rfl

theorem readBuffer_long_createRoom :
    readBuffer (Client.createRoomMsg (repeatChar 'a' 1020) ["A"]) =
      "/CREATE_ROOM " ++ repeatChar 'a' 1011 := by
  have ht : takeBytes (1024 - 1024) (List.replicate 9 'a' ++ " A".data) = [] := by decide
  unfold readBuffer
  rw [createRoomMsg_long_data, takeBytes_append _ _ _ (Nat.le_of_eq byteLen_createRoom_head),
    byteLen_createRoom_head, ht, List.append_nil]
  apply String.ext
  simp only [String.data_append, repeatChar]

theorem afterRead_long_createRoom :
    afterRead (Client.createRoomMsg (repeatChar 'a' 1020) ["A"]) = "aaaaaaaaa A" := by
  have ht : takeBytes (1024 - 1024) (List.replicate 9 'a' ++ " A".data) = [] := by decide
  unfold afterRead
  rw [createRoomMsg_long_data, takeBytes_append _ _ _ (Nat.le_of_eq byteLen_createRoom_head),
    byteLen_createRoom_head, ht, List.append_nil, List.drop_left]
  apply String.ext
  decide

theorem parse_long_createRoom :
    parseCreateRoom (readBuffer (Client.createRoomMsg (repeatChar 'a' 1020) ["A"])) = none := by
  have hsplit : SplitN ("/CREATE_ROOM " ++ repeatChar 'a' 1011) ' ' 3 =
      ["/CREATE_ROOM", repeatChar 'a' 1011] := by
    unfold SplitN
    have hd : ("/CREATE_ROOM " ++ repeatChar 'a' 1011).data =
        "/CREATE_ROOM".data ++ ' ' :: List.replicate 1011 'a' := by
      simp only [String.data_append, repeatChar]
      rfl
    rw [hd, splitNChars_append _ _ _ _ (by decide),
      splitNChars_of_not_mem _ _ _ (not_mem_replicate_of_ne _ _ _ (by decide))]
    rfl
  rw [readBuffer_long_createRoom]
  simp only [parseCreateRoom, hsplit]

/-- C20 (the claim fails as stated): (1) the user offered `A` and `B` types the room name
`my team` and selects both.  `handleOnlineUsersList` builds `/CREATE_ROOM my team A,B`, and
the parse of the dispatcher yields the room name `my` and the member ids `team A` and
`B`.  (2) The user is offered an identity with the id `a,b` and selects it for the room
`team`: the message is `/CREATE_ROOM team a,b` and the parse yields the two ids `a` and
`b`.  (3) For a room name of 1020 letters `a` and the id `A` the message has more than 1024
bytes; the read of the dispatcher yields `/CREATE_ROOM ` and 1011 letters, the parse finds
two fields and fails, the dispatcher creates no room and writes nothing, and the rest of the
message, `aaaaaaaaa A`, is what its next read yields: it goes to the others as a chat line
of the sender. -/
theorem create_room_name_with_blank_misparsed :
    Client.handleOnlineUsersList "ONLINE_USERS_LIST A|ann B|bob\n" "my team\n" "1,2\n" =
      some "/CREATE_ROOM my team A,B" ∧
    Client.createRoomMsg "my team" ["A", "B"] = "/CREATE_ROOM my team A,B" ∧
    parseCreateRoom (readBuffer "/CREATE_ROOM my team A,B") = some ("my", ["team A", "B"]) ∧
    Client.handleOnlineUsersList "ONLINE_USERS_LIST a,b|ann B|bob\n" "team\n" "1\n" =
      some "/CREATE_ROOM team a,b" ∧
    Client.createRoomMsg "team" ["a,b"] = "/CREATE_ROOM team a,b" ∧
    parseCreateRoom (readBuffer "/CREATE_ROOM team a,b") = some ("team", ["a", "b"]) ∧
    readBuffer (Client.createRoomMsg (repeatChar 'a' 1020) ["A"]) =
      "/CREATE_ROOM " ++ repeatChar 'a' 1011 ∧
    parseCreateRoom (readBuffer (Client.createRoomMsg (repeatChar 'a' 1020) ["A"])) = none ∧
    (handleUserMessages demoEnv 1 0 demoServer
      (some (readBuffer (Client.createRoomMsg (repeatChar 'a' 1020) ["A"])))).out = [] ∧
    (handleUserMessages demoEnv 1 0 demoServer
      (some (readBuffer (Client.createRoomMsg (repeatChar 'a' 1020) ["A"])))).server.Rooms.size
      = 0 ∧
    afterRead (Client.createRoomMsg (repeatChar 'a' 1020) ["A"]) = "aaaaaaaaa A" ∧
    (handleUserMessages demoEnv 1 0 demoServer (some "aaaaaaaaa A")).out =
      [⟨1, 2, "carol: aaaaaaaaa A\n"⟩, ⟨2, 3, "carol: aaaaaaaaa A\n"⟩,
        ⟨3, 4, "carol: aaaaaaaaa A\n"⟩] := by
  have hpre : HasPrefix (readBuffer (Client.createRoomMsg (repeatChar 'a' 1020) ["A"]))
      "/CREATE_ROOM" = true := by
    rw [readBuffer_long_createRoom]
    exact hasPrefix_append _ _ _ (by decide)
  have hskip : handleUserMessages demoEnv 1 0 demoServer
      (some (readBuffer (Client.createRoomMsg (repeatChar 'a' 1020) ["A"]))) =
        skip demoServer := by
    rw [dispatch_createRoom demoEnv 1 0 demoServer _ hpre,
      onCreateRoom_unparsed demoEnv 0 demoServer _ parse_long_createRoom]
  refine ⟨by decide, by decide, by decide, by decide, by decide, by decide,
    readBuffer_long_createRoom, parse_long_createRoom, ?_, ?_, afterRead_long_createRoom,
    by decide⟩
  · rw [hskip]
    rfl
  · rw [hskip]
    decide

/-- C20 (amended): for every room name without a blank and every non-empty list of user ids
none of which contains a comma, when the message `/CREATE_ROOM <name> <id,id,...>` that
`handleOnlineUsersList` builds has at most 1024 bytes: the read of the dispatcher into its
buffer of 1024 bytes yields the whole message and leaves nothing behind, the parse of the
dispatcher on it yields that room name and that list of ids, and the dispatcher leaves the
server that `CreateRoom` leaves when called with that name, the sender's id and those
ids. -/
theorem create_room_roundtrip (roomName : String) (ids : List String)
    (hname : ' ' ∉ roomName.data) (hne : ids ≠ []) (hids : ∀ id ∈ ids, ',' ∉ id.data)
    (hfit : byteLen (Client.createRoomMsg roomName ids).data ≤ 1024) :
    readBuffer (Client.createRoomMsg roomName ids) = Client.createRoomMsg roomName ids ∧
    afterRead (Client.createRoomMsg roomName ids) = "" ∧
    parseCreateRoom (readBuffer (Client.createRoomMsg roomName ids)) = some (roomName, ids) ∧
    ∀ (env : Env) (conn : NetConn) (user : Ptr) (s : Server),
      (handleUserMessages env conn user s
        (some (readBuffer (Client.createRoomMsg roomName ids)))).server =
        (CreateRoom env.rnd env.now s roomName (s.heap user).UserId ids).server := by
  have hread := readBuffer_of_le _ hfit
  have hparse : parseCreateRoom (Client.createRoomMsg roomName ids) = some (roomName, ids) := by
    simp only [parseCreateRoom, Client.createRoomMsg, splitN_createRoom _ _ hname,
      split_join ids hne hids]
  rw [hread]
  refine ⟨rfl, afterRead_of_le _ hfit, hparse, ?_⟩
  intro env conn user s
  have hpre : HasPrefix (Client.createRoomMsg roomName ids) "/CREATE_ROOM" = true :=
    hasPrefix_append _ _ _ (hasPrefix_append _ _ _ (hasPrefix_append _ _ _ (by decide)))
  rw [dispatch_createRoom env conn user s _ hpre]
  exact onCreateRoom_parse env user s _ roomName ids hparse

theorem create_room_roundtrip_witness :
    parseCreateRoom (readBuffer (Client.createRoomMsg "team" ["A", "B"])) =
      some ("team", ["A", "B"]) :=
  (create_room_roundtrip "team" ["A", "B"] (by decide) (by decide) (by decide)
    (by decide)).2.2.1

/-! ## C21: current-room references -/

theorem roomed_init (address : String) : (Server.init address).Roomed := by
  intro p hp
  exact absurd rfl hp

theorem roomed_setUser (s : Server) (h : s.Roomed) (p : Ptr) (u : User)
    (hid : u.UserId = (s.heap p).UserId) (hroom : u.CurrentRoomID = (s.heap p).CurrentRoomID) :
    (s.setUser p u).Roomed := by
  intro q hq
  have hheap : ((s.setUser p u).heap q).UserId = (s.heap q).UserId ∧
      ((s.setUser p u).heap q).CurrentRoomID = (s.heap q).CurrentRoomID := by
    simp only [Server.setUser]
    split
    · rename_i e; rw [e, hid, hroom]; exact ⟨rfl, rfl⟩
    · exact ⟨rfl, rfl⟩
  rw [hheap.2] at hq ⊢
  rw [hheap.1]
  exact h q hq

theorem handleConnection_roomed (g : String) (c : Inbound) (s : Server) (h : s.Roomed) :
    (HandleConnection g c s).server.Roomed := by
  unfold HandleConnection
  split
  · exact h
  · split
    · split
      · exact h
      · split
        · exact h
        · simp only [broadcastMessage_server]
          exact roomed_setUser s h _ _ rfl rfl
    · split
      · split
        · exact h
        · simp only [broadcastMessage_server]
          intro q hq
          by_cases e : q = s.next
          · simp [e] at hq
          · simp only [e, if_false] at hq ⊢
            exact h q hq
      · exact h

theorem onDisconnect_roomed (user : Ptr) (s : Server) (h : s.Roomed) :
    (onDisconnect user s).server.Roomed := by
  unfold onDisconnect
  split
  · exact h
  · simp only [broadcastMessage_server]
    exact roomed_setUser s h user _ rfl rfl

theorem onTransferRequest_roomed
    (handler : Server → NetConn → String → String → Int → Outcome Unit)
    (hh : ∀ s conn a b n, s.Roomed → (handler s conn a b n).server.Roomed)
    (conn : NetConn) (s : Server) (m : String) (h : s.Roomed) :
    (onTransferRequest handler conn s m).server.Roomed := by
  unfold onTransferRequest
  split
  · split
    · exact h
    · exact hh _ _ _ _ _ h
  · split
    · exact h
    · exact hh _ _ _ _ _ h
  · exact h

theorem onStatus_server (env : Env) (conn : NetConn) (user : Ptr) (s : Server) :
    (onStatus env conn user s).server = s := by
  unfold onStatus
  split <;> rfl

theorem onGetOnlineUsers_server (conn : NetConn) (user : Ptr) (s : Server) :
    (onGetOnlineUsers conn user s).server = s := by
  unfold onGetOnlineUsers GetOnlineUsersList
  split <;> rfl

theorem onListRooms_server (conn : NetConn) (user : Ptr) (s : Server) :
    (onListRooms conn user s).server = s := by
  unfold onListRooms
  split <;> rfl

theorem onRoomMessage_server (user : Ptr) (s : Server) (m : String) :
    (onRoomMessage user s m).server = s := by
  unfold onRoomMessage
  split
  · split
    · rfl
    · split
      · rfl
      · split
        · rfl
        · simp only [afterHandler, broadcastRoomMessage_server]
  · rfl

theorem onChat_server (user : Ptr) (s : Server) (m : String) :
    (onChat user s m).server = s := by
  unfold onChat
  split
  · simp only [afterHandler, broadcastRoomMessage_server]
  · simp only [afterHandler, broadcastMessage_server]

theorem onCreateRoom_roomed (env : Env) (user : Ptr) (s : Server) (m : String) (h : s.Roomed)
    (hfresh : s.Rooms.get? (generateRoomID env.rnd) = none) :
    (onCreateRoom env user s m).server.Roomed := by
  unfold onCreateRoom
  split
  · cases hmx : s.Mutex with
    | true =>
      simp only [CreateRoom, hmx, if_true]
      exact h
    | false =>
      simp only [CreateRoom, hmx, Bool.false_eq_true, if_false]
      intro p hp
      obtain ⟨room, hroom, hmem⟩ := h p hp
      refine ⟨room, ?_, hmem⟩
      simp only [GoMap.get?_set]
      split
      · rename_i e
        rw [← e, hfresh] at hroom
        cases hroom
      · exact hroom
  · exact h

theorem onJoinRoom_roomed (conn : NetConn) (user : Ptr) (s : Server) (m : String)
    (h : s.Roomed) : (onJoinRoom conn user s m).server.Roomed := by
  by_cases hshape : ∃ cmd arg, SplitN m ' ' 2 = [cmd, arg]
  · obtain ⟨cmd, arg, hargs⟩ := hshape
    cases hmx : s.Mutex with
    | true =>
      rw [onJoinRoom_blocked conn user s m cmd arg hargs hmx]
      exact h
    | false =>
      cases hroom : s.Rooms.get? (TrimSpace arg) with
      | none =>
        rw [onJoinRoom_notFound conn user s m cmd arg hargs hmx hroom]
        exact h
      | some room =>
        cases hmem : room.Members.get? (s.heap user).UserId with
        | none =>
          rw [onJoinRoom_notMember conn user s m cmd arg room hargs hmx hroom hmem]
          exact h
        | some q =>
          rw [onJoinRoom_joined conn user s m cmd arg room q hargs hmx hroom hmem]
          intro p hp
          simp only [Server.setUser] at hp ⊢
          by_cases e : p = user
          · simp only [e, if_true]
            exact ⟨room, hroom, by rw [hmem]; rfl⟩
          · simp only [e, if_false] at hp ⊢
            exact h p hp
  · rw [onJoinRoom_malformed conn user s m hshape]
    exact h

theorem onLeaveRoom_roomed (conn : NetConn) (user : Ptr) (s : Server) (h : s.Roomed) :
    (onLeaveRoom conn user s).server.Roomed := by
  unfold onLeaveRoom
  split
  · intro q hq
    simp only [Server.setUser] at hq ⊢
    by_cases e : q = user
    · simp [e] at hq
    · simp only [e, if_false] at hq ⊢
      exact h q hq
  · exact h

theorem ite_roomed {c : Prop} [Decidable c] {a b : Outcome LoopCtl}
    (ha : c → a.server.Roomed) (hb : b.server.Roomed) : (if c then a else b).server.Roomed := by
  split
  · rename_i hc; exact ha hc
  · exact hb

theorem handleUserMessages_roomed (env : Env) (henv : env.KeepsRooms) (conn : NetConn)
    (user : Ptr) (s : Server) (read : Option String) (h : s.Roomed)
    (hfresh : ∀ m, read = some m → HasPrefix m "/CREATE_ROOM" = true →
      s.Rooms.get? (generateRoomID env.rnd) = none) :
    (handleUserMessages env conn user s read).server.Roomed := by
  cases read with
  | none => exact onDisconnect_roomed user s h
  | some m =>
    simp only [handleUserMessages]
    refine ite_roomed (fun _ => onDisconnect_roomed user s h) ?_
    refine ite_roomed (fun _ => onTransferRequest_roomed _ henv.file conn s _ h) ?_
    refine ite_roomed (fun _ => onTransferRequest_roomed _ henv.folder conn s _ h) ?_
    refine ite_roomed (fun _ => h) ?_
    refine ite_roomed (fun _ => by rw [onStatus_server]; exact h) ?_
    refine ite_roomed (fun _ => by rw [onGetOnlineUsers_server]; exact h) ?_
    refine ite_roomed (fun hc => onCreateRoom_roomed env user s _ h (hfresh m rfl hc)) ?_
    refine ite_roomed (fun _ => onJoinRoom_roomed conn user s _ h) ?_
    refine ite_roomed (fun _ => onLeaveRoom_roomed conn user s h) ?_
    refine ite_roomed (fun _ => by rw [onListRooms_server]; exact h) ?_
    refine ite_roomed (fun _ => by rw [onRoomMessage_server]; exact h) ?_
    refine ite_roomed (fun _ => ?_) (ite_roomed (fun _ => ?_) (ite_roomed (fun _ => ?_)
      (by rw [onChat_server]; exact h)))
    · unfold onLook
      split
      · exact henv.lookup _ _ _ h
      · exact h
    · unfold onDirListing
      split
      · exact henv.listing _ _ _ _ h
      · exact h
    · unfold onDownloadRequest
      split
      · exact henv.download _ _ _ _ _ h
      · exact h

theorem run_roomed (es : List Event) (s : Server) (h : s.Roomed) (hes : Server.FreshRun es s) :
    (Server.run es s).Roomed := by
  induction es generalizing s with
  | nil => exact h
  | cons e es ih =>
    obtain ⟨he, hrest⟩ := hes
    refine ih _ ?_ hrest
    cases e with
    | connect g c => exact handleConnection_roomed g c s h
    | message env conn user read =>
      exact handleUserMessages_roomed env he.1 conn user s read h he.2

theorem onChat_roomed (user : Ptr) (s : Server) (m : String) (h : s.Roomed)
    (hfree : s.Mutex = false) (hcur : (s.heap user).CurrentRoomID ≠ "") :
    ∃ room, s.Rooms.get? (s.heap user).CurrentRoomID = some room ∧
      (room.Members.get? (s.heap user).UserId).isSome = true ∧
      (onChat user s m).out = roomWrites room (s.heap user).Username m s user := by
  obtain ⟨room, hroom, hmem⟩ := h user hcur
  refine ⟨room, hroom, hmem, ?_⟩
  unfold onChat
  rw [if_pos hcur]
  simp only [afterHandler, BroadcastRoomMessage, hfree, Bool.false_eq_true, if_false, hroom]

/-- C21 (evaluation at the failing input): from the empty registry, four hosts connect,
`C` creates the room `team` with `D` (id `room_7`), `D` joins it, and `A` creates the room
`board` with `B` in a call where the generator yields 7 again.  Before the last step the
current room of `D` is `room_7`, a room with the members `C` and `D`.  After it the
current room of `D` is still `room_7`, which now is `board` with the members `A` and `B`:
the member map has no entry for `D`, a `/JOIN_ROOM room_7` of `D` is answered
`NOT_ROOM_MEMBER`, and yet a chat line of `D` is routed by the default branch into that
room, to `A` and `B`. -/
theorem current_room_stale_after_id_collision :
    ((Server.run (collisionTrace.take 6) (Server.init ":8080")).heap 3).CurrentRoomID
      = "room_7" ∧
    (((Server.run (collisionTrace.take 6) (Server.init ":8080")).Rooms.get? "room_7").map
      fun r => (r.Name, r.Members.keys)) = some ("team", ["C", "D"]) ∧
    ((Server.run collisionTrace (Server.init ":8080")).heap 3).UserId = "D" ∧
    ((Server.run collisionTrace (Server.init ":8080")).heap 3).CurrentRoomID = "room_7" ∧
    (((Server.run collisionTrace (Server.init ":8080")).Rooms.get? "room_7").map
      fun r => (r.Name, r.Members.keys, r.Members.get? "D")) =
        some ("board", ["A", "B"], none) ∧
    (handleUserMessages demoEnv 4 3 (Server.run collisionTrace (Server.init ":8080"))
      (some "/JOIN_ROOM room_7")).out = [⟨3, 4, "NOT_ROOM_MEMBER\n"⟩] ∧
    (handleUserMessages demoEnv 4 3 (Server.run collisionTrace (Server.init ":8080"))
      (some "hello")).out =
      [⟨1, 2, "[Room board] dan: hello\n"⟩, ⟨2, 3, "[Room board] dan: hello\n"⟩] := by
  decide

theorem demoEnv_keepsRooms : demoEnv.KeepsRooms :=
  ⟨fun _ _ _ _ _ h => h, fun _ _ _ _ _ h => h, fun _ _ _ h => h, fun _ _ _ _ h => h,
    fun _ _ _ _ _ h => h⟩

theorem collisionTrace_fresh_until_collision :
    Server.FreshRun (collisionTrace.take 6) (Server.init ":8080") ∧
    ¬ Server.FreshRun collisionTrace (Server.init ":8080") := by
  constructor
  · refine ⟨trivial, trivial, trivial, trivial, ⟨demoEnv_keepsRooms, ?_⟩,
      ⟨demoEnv_keepsRooms, ?_⟩, trivial⟩
    · intro m hm _
      cases hm
      decide
    · intro m hm hp
      cases hm
      revert hp
      decide
  · intro h
    have h7 := h.2.2.2.2.2.2.1.2 "/CREATE_ROOM board B" rfl (by decide)
    revert h7
    decide

theorem roomed_before_collision :
    (Server.run (collisionTrace.take 6) (Server.init ":8080")).Roomed :=
  run_roomed _ _ (roomed_init ":8080") collisionTrace_fresh_until_collision.1

/-! ## C22: `/ROOM_MESSAGE` to a room the sender is not in -/

theorem dispatch_roomMessage (env : Env) (conn : NetConn) (user : Ptr) (s : Server) (m : String)
    (hm : HasPrefix m "/ROOM_MESSAGE" = true) :
    handleUserMessages env conn user s (some m) = onRoomMessage user s m := by
  have h0 : m ≠ "/exit" := by intro e; rw [e] at hm; revert hm; decide
  have h1 : m ≠ "PONG\n" := by intro e; rw [e] at hm; revert hm; decide
  have h2 := hasPrefix_excludes m _ "/FILE_REQUEST" hm (by decide)
  have h3 := hasPrefix_excludes m _ "/FOLDER_REQUEST" hm (by decide)
  have h4 := hasPrefix_excludes m _ "/status" hm (by decide)
  have h5 := hasPrefix_excludes m _ "/GET_ONLINE_USERS" hm (by decide)
  have h6 := hasPrefix_excludes m _ "/CREATE_ROOM" hm (by decide)
  have h7 := hasPrefix_excludes m _ "/JOIN_ROOM" hm (by decide)
  have h8 := hasPrefix_excludes m _ "/LEAVE_ROOM" hm (by decide)
  have h9 := hasPrefix_excludes m _ "/LIST_ROOMS" hm (by decide)
  simp only [handleUserMessages, h0, h1, h2, h3, h4, h5, h6, h7, h8, h9, hm, if_false, if_true,
    Bool.false_eq_true]

theorem onRoomMessage_rejected (user : Ptr) (s : Server) (m cmd roomID content : String)
    (hparts : SplitN m ' ' 3 = [cmd, roomID, content])
    (hroom : s.Rooms.get? roomID = none ∨
      ∃ room, s.Rooms.get? roomID = some room ∧ room.Members.get? (s.heap user).UserId = none) :
    (onRoomMessage user s m).out = [] ∧ (onRoomMessage user s m).server = s ∧
      (s.Mutex = false → (onRoomMessage user s m).ending = .returned .again) := by
  unfold onRoomMessage
  rw [hparts]
  cases hmx : s.Mutex with
  | true => simp
  | false =>
    rcases hroom with h | ⟨room, h, hk⟩
    · simp [h, skip]
    · simp [h, hk, skip]

/-- C22: a `/ROOM_MESSAGE` line whose three fields name a room id that the directory does
not hold, or a room whose member map has no entry for the sender's id, makes the dispatcher
write to no connection and leaves the server as it was; with the mutex free the iteration
goes on to the next read. -/
theorem room_message_rejected (env : Env) (conn : NetConn) (user : Ptr) (s : Server)
    (m cmd roomID content : String)
    (hm : HasPrefix m "/ROOM_MESSAGE" = true)
    (hparts : SplitN m ' ' 3 = [cmd, roomID, content])
    (hroom : s.Rooms.get? roomID = none ∨
      ∃ room, s.Rooms.get? roomID = some room ∧ room.Members.get? (s.heap user).UserId = none) :
    (handleUserMessages env conn user s (some m)).out = [] ∧
    (handleUserMessages env conn user s (some m)).server = s ∧
    (s.Mutex = false →
      (handleUserMessages env conn user s (some m)).ending = .returned .again) := by
  rw [dispatch_roomMessage env conn user s m hm]
  exact onRoomMessage_rejected user s m cmd roomID content hparts hroom

theorem room_message_rejected_witness :
    ((handleUserMessages demoEnv 4 3 demoServer (some "/ROOM_MESSAGE room_9 hi all")).out = [] ∧
      (handleUserMessages demoEnv 4 3 demoServer (some "/ROOM_MESSAGE room_9 hi all")).server
        = demoServer ∧
      (demoServer.Mutex = false →
        (handleUserMessages demoEnv 4 3 demoServer (some "/ROOM_MESSAGE room_9 hi all")).ending
          = .returned .again)) ∧
    ((handleUserMessages demoEnv 4 3
        (handleUserMessages demoEnv 1 0 demoServer (some "/CREATE_ROOM team A,B")).server
        (some "/ROOM_MESSAGE room_7 hi all")).out = [] ∧
      (handleUserMessages demoEnv 4 3
        (handleUserMessages demoEnv 1 0 demoServer (some "/CREATE_ROOM team A,B")).server
        (some "/ROOM_MESSAGE room_7 hi all")).server =
        (handleUserMessages demoEnv 1 0 demoServer (some "/CREATE_ROOM team A,B")).server ∧
      ((handleUserMessages demoEnv 1 0 demoServer (some "/CREATE_ROOM team A,B")).server.Mutex
          = false →
        (handleUserMessages demoEnv 4 3
          (handleUserMessages demoEnv 1 0 demoServer (some "/CREATE_ROOM team A,B")).server
          (some "/ROOM_MESSAGE room_7 hi all")).ending = .returned .again)) :=
  ⟨room_message_rejected demoEnv 4 3 demoServer "/ROOM_MESSAGE room_9 hi all" "/ROOM_MESSAGE"
      "room_9" "hi all" (by decide) (by decide) (Or.inl (by decide)),
   room_message_rejected demoEnv 4 3
      (handleUserMessages demoEnv 1 0 demoServer (some "/CREATE_ROOM team A,B")).server
      "/ROOM_MESSAGE room_7 hi all" "/ROOM_MESSAGE" "room_7" "hi all" (by decide) (by decide)
      (Or.inr ⟨_, rfl, by decide⟩)⟩

/-! ## C23: the registry key of a remote address -/

theorem registryKey_exists (ipAddr : String) : ∃ k, registryKey ipAddr = some k :=
  split_head_exists ipAddr ':'

theorem registryKey_host (host port : String) (hhost : colonFree host) :
    registryKey (host ++ ":" ++ port) = some host := by
  unfold registryKey Split
  have h : (host ++ ":" ++ port).data = host.data ++ ':' :: port.data := by
    simp [String.data_append]
  rw [h, splitChars_append ':' host.data port.data hhost]
  rfl

theorem joinHostPort_colonFree (host port : String) (hhost : colonFree host) :
    JoinHostPort host port = host ++ ":" ++ port := by
  unfold JoinHostPort
  rw [if_neg hhost]

theorem handleConnection_never_panics (g : String) (c : Inbound) (s : Server) :
    (HandleConnection g c s).ending ≠ .panicked := by
  obtain ⟨k, hk⟩ := split_head_exists c.remoteAddr ':'
  unfold HandleConnection
  simp only [hk]
  split
  · split
    · simp
    · split
      · simp
      · simp only [BroadcastMessage]
        split <;> simp [Ending.map]
  · split
    · split
      · simp
      · simp only [BroadcastMessage]
        split <;> simp [Ending.map]
    · simp

theorem handleConnection_files_under (g : String) (c : Inbound) (s : Server)
    (ip username path : String) (rest : List (Option String))
    (hip : (Split c.remoteAddr ':').head? = some ip) (hfree : s.Mutex = false)
    (hnone : s.IpAddresses.get? ip = none)
    (hreads : c.reads = some username :: some path :: rest) :
    (HandleConnection g c s).server.IpAddresses.get? ip = some s.next ∧
    ((HandleConnection g c s).server.heap s.next).IpAddress = ip := by
  unfold HandleConnection
  simp only [hip, hnone, hreads, hfree, Bool.false_eq_true, if_false, broadcastMessage_server]
  simp [GoMap.get?_set]

/-- C23 (the claim fails as stated): the remote address of a TCP peer with the literal IPv6
host `2001:db8::1` and port 5000 is `[2001:db8::1]:5000`, that of host `2001:db8::2` and
port 6000 is `[2001:db8::2]:6000`; the key `HandleConnection` derives is `[2001` for both
(and `2001` for the unbracketed `2001:db8::1:5000`), not the host.  So a first connection
from `2001:db8::1` is filed under `[2001`, and the connection from the other host
`2001:db8::2` is taken for a reconnection of that session: it is sent the `/RECONNECT`
notice of `ann` and no second session is filed. -/
theorem bracketed_hosts_share_registry_key :
    JoinHostPort "2001:db8::1" "5000" = "[2001:db8::1]:5000" ∧
    JoinHostPort "2001:db8::2" "6000" = "[2001:db8::2]:6000" ∧
    registryKey "[2001:db8::1]:5000" = some "[2001" ∧
    registryKey "[2001:db8::2]:6000" = some "[2001" ∧
    registryKey ("2001:db8::1" ++ ":" ++ "5000") = some "2001" ∧
    (HandleConnection "u1" ⟨1, "[2001:db8::1]:5000", false, [some "ann", some "/home/ann"]⟩
      (Server.init ":8080")).server.IpAddresses.entries = [("[2001", 0)] ∧
    (HandleConnection "u2" ⟨2, "[2001:db8::2]:6000", false, [some "bob", some "/home/bob"]⟩
      (HandleConnection "u1" ⟨1, "[2001:db8::1]:5000", false, [some "ann", some "/home/ann"]⟩
        (Server.init ":8080")).server).out.head? = some ⟨0, 2, "/RECONNECT ann /home/ann"⟩ ∧
    (HandleConnection "u2" ⟨2, "[2001:db8::2]:6000", false, [some "bob", some "/home/bob"]⟩
      (HandleConnection "u1" ⟨1, "[2001:db8::1]:5000", false, [some "ann", some "/home/ann"]⟩
        (Server.init ":8080")).server).server.IpAddresses.entries = [("[2001", 0)] := by
  decide

/-- C23 (amended): for every remote address `host:port` whose host has no colon (every
dotted IPv4 address is one), the key `HandleConnection` derives is the host: the indexing
of the split result does not fail and the call does not panic, whatever the registry; a
session filed under the host is the one that is sent the `/RECONNECT` notice; when no
session is filed under the host, the mutex is free and name and path are read, the new
session is filed under the host and carries it as its address; and a remote address with
another colon-free host gets another key. -/
theorem remote_host_is_registry_key (g : String) (c : Inbound) (s : Server)
    (host port : String) (hhost : colonFree host) (haddr : c.remoteAddr = host ++ ":" ++ port) :
    registryKey c.remoteAddr = some host ∧
    (HandleConnection g c s).ending ≠ .panicked ∧
    (∀ p, s.IpAddresses.get? host = some p →
      (HandleConnection g c s).out.head? =
        some ⟨p, c.conn,
          "/RECONNECT " ++ (s.heap p).Username ++ " " ++ (s.heap p).StoreFilePath⟩) ∧
    (∀ username path rest, s.Mutex = false → s.IpAddresses.get? host = none →
      c.reads = some username :: some path :: rest →
      (HandleConnection g c s).server.IpAddresses.get? host = some s.next ∧
      ((HandleConnection g c s).server.heap s.next).IpAddress = host) ∧
    (∀ host2 port2, colonFree host2 → host2 ≠ host →
      registryKey (host2 ++ ":" ++ port2) ≠ registryKey c.remoteAddr) := by
  have hkey : registryKey c.remoteAddr = some host := by
    rw [haddr]
    exact registryKey_host host port hhost
  refine ⟨hkey, handleConnection_never_panics g c s, ?_, ?_, ?_⟩
  · intro p hp
    exact handleConnection_notice g c s host p hkey hp
  · intro username path rest hfree hnone hreads
    exact handleConnection_files_under g c s host username path rest hkey hfree hnone hreads
  · intro host2 port2 hhost2 hne e
    rw [hkey, registryKey_host host2 port2 hhost2] at e
    exact hne (Option.some.inj e)

theorem remote_host_is_registry_key_witness :
    colonFree "10.0.0.9" ∧
    registryKey "10.0.0.9:5000" = some "10.0.0.9" ∧
    (HandleConnection "E" ⟨5, "10.0.0.9:5000", false, [some "eve", some "/home/eve"]⟩
      demoServer).ending ≠ .panicked ∧
    (HandleConnection "E" ⟨5, "10.0.0.9:5000", false, [some "eve", some "/home/eve"]⟩
      demoServer).server.IpAddresses.get? "10.0.0.9" = some 4 ∧
    registryKey "10.0.0.4:6000" ≠ registryKey "10.0.0.9:5000" :=
  have h := remote_host_is_registry_key "E"
    ⟨5, "10.0.0.9:5000", false, [some "eve", some "/home/eve"]⟩ demoServer "10.0.0.9" "5000"
    (by unfold colonFree; decide) (by decide)
  ⟨by unfold colonFree; decide, h.1, h.2.1,
    (h.2.2.2.1 "eve" "/home/eve" [] (by decide) (by decide) rfl).1,
    h.2.2.2.2 "10.0.0.4" "6000" (by unfold colonFree; decide) (by decide)⟩

/-! ## C1: one session per source address -/

theorem handleConnection_known_served (g : String) (c : Inbound) (s : Server) (ip : String)
    (p q : Ptr) (rest : List (Option String))
    (hip : (Split c.remoteAddr ':').head? = some ip) (hp : s.IpAddresses.get? ip = some p)
    (hend : (HandleConnection g c s).ending = .returned (some (q, rest))) : q = p := by
  unfold HandleConnection at hend
  simp only [hip, hp] at hend
  split at hend
  · cases hend
  · split at hend
    · cases hend
    · simp only [BroadcastMessage] at hend
      split at hend
      · cases hend
      · simp only [Ending.map, Ending.returned.injEq, Option.some.injEq, Prod.mk.injEq] at hend
        exact hend.1.symm

theorem handleConnection_unknown_served (g : String) (c : Inbound) (s : Server)
    (ip username path : String) (rest : List (Option String))
    (hip : (Split c.remoteAddr ':').head? = some ip) (hfree : s.Mutex = false)
    (hnone : s.IpAddresses.get? ip = none)
    (hreads : c.reads = some username :: some path :: rest) :
    (HandleConnection g c s).ending = .returned (some (s.next, rest)) := by
  unfold HandleConnection
  simp only [hip, hnone, hreads, hfree, Bool.false_eq_true, if_false, BroadcastMessage,
    Ending.map]

theorem handleConnection_unknown_unread (g : String) (c : Inbound) (s : Server) (ip : String)
    (hip : (Split c.remoteAddr ':').head? = some ip) (hnone : s.IpAddresses.get? ip = none)
    (hreads : ∀ username path rest, c.reads ≠ some username :: some path :: rest) :
    (HandleConnection g c s).server = s ∧ (HandleConnection g c s).out = [] ∧
      (HandleConnection g c s).ending = .returned none := by
  unfold HandleConnection
  cases hr : c.reads with
  | nil => simp only [hip, hnone, hr, and_self]
  | cons r₁ rs =>
    cases r₁ with
    | none => simp only [hip, hnone, hr, and_self]
    | some username =>
      cases rs with
      | nil => simp only [hip, hnone, hr, and_self]
      | cons r₂ rest =>
        cases r₂ with
        | none => simp only [hip, hnone, hr, and_self]
        | some path => exact absurd hr (hreads username path rest)

/-- C1 (the claim fails as stated): a first connection comes from the IPv6 host
`2001:db8::1` and registers `ann`; the session is filed under `[2001`, the text before the
first colon of the remote address.  A connection from the host `2001:db8::2`, which has no
session, is then handled as a known one: no session is added for it (both tables and the
allocation mark stay as they are) and it is served as the session of `ann`.  And a
connection from the unknown IPv4 host 10.0.0.9 whose second handshake read fails adds no
session either. -/
theorem unknown_host_gets_no_session :
    (HandleConnection "u1" ⟨1, "[2001:db8::1]:5000", false, [some "ann", some "/home/ann"]⟩
      (Server.init ":8080")).server.IpAddresses.entries = [("[2001", 0)] ∧
    (HandleConnection "u2" ⟨2, "[2001:db8::2]:6000", false, [some "bob", some "/home/bob"]⟩
      (HandleConnection "u1" ⟨1, "[2001:db8::1]:5000", false, [some "ann", some "/home/ann"]⟩
        (Server.init ":8080")).server).server.Connections.entries = [("u1", 0)] ∧
    (HandleConnection "u2" ⟨2, "[2001:db8::2]:6000", false, [some "bob", some "/home/bob"]⟩
      (HandleConnection "u1" ⟨1, "[2001:db8::1]:5000", false, [some "ann", some "/home/ann"]⟩
        (Server.init ":8080")).server).server.IpAddresses.entries = [("[2001", 0)] ∧
    (HandleConnection "u2" ⟨2, "[2001:db8::2]:6000", false, [some "bob", some "/home/bob"]⟩
      (HandleConnection "u1" ⟨1, "[2001:db8::1]:5000", false, [some "ann", some "/home/ann"]⟩
        (Server.init ":8080")).server).server.next = 1 ∧
    (HandleConnection "u2" ⟨2, "[2001:db8::2]:6000", false, [some "bob", some "/home/bob"]⟩
      (HandleConnection "u1" ⟨1, "[2001:db8::1]:5000", false, [some "ann", some "/home/ann"]⟩
        (Server.init ":8080")).server).ending =
      .returned (some (0, [some "bob", some "/home/bob"])) ∧
    ((HandleConnection "u2" ⟨2, "[2001:db8::2]:6000", false, [some "bob", some "/home/bob"]⟩
      (HandleConnection "u1" ⟨1, "[2001:db8::1]:5000", false, [some "ann", some "/home/ann"]⟩
        (Server.init ":8080")).server).server.heap 0).Username = "ann" ∧
    (HandleConnection "u3" ⟨3, "10.0.0.9:5000", false, [some "eve", none]⟩
      (Server.init ":8080")).server.IpAddresses.entries = [] ∧
    (HandleConnection "u3" ⟨3, "10.0.0.9:5000", false, [some "eve", none]⟩
      (Server.init ":8080")).server.Connections.entries = [] := by
  decide

/-- C1 (amended): let `s` be the registry reached from a consistent registry `s₀` (the
empty one of a fresh server is one) by any sequence of events, each being a connection
handled by `HandleConnection` or an iteration of a dispatcher loop such a call has started
(the handlers defined outside the modelled file being assumed to keep the tables
consistent).  Then no two distinct sessions of `s` are recorded with the same source
address.  Moreover, for the next connection, when its remote address is `host:port` with a
host that has no colon (as every IPv4 address): when the host is in the IP table, the
session filed there is recorded with that host, `Connections` and `IpAddresses` are left as
they are, no session is allocated, and the connection is served as that session and no
other; when it is not, no session was recorded with that host before, and then, if the two
handshake reads succeed, the IP table gains the single entry for the host, the newly
allocated session is registered, is the only session recorded with that host and is the one
the connection is served as, while if a handshake read fails the server is left as it was
and the call returns. -/
theorem registry_one_session_per_ip (s₀ : Server) (h₀ : s₀.Registered) (es : List Event)
    (hes : ∀ e ∈ es, e.Tame) (s : Server) (hs : s = Server.run es s₀) :
    s.OnePerIP ∧
    ∀ (g : String) (c : Inbound) (host port : String), colonFree host →
      c.remoteAddr = host ++ ":" ++ port →
      (∀ p, s.IpAddresses.get? host = some p →
        (s.heap p).IpAddress = host ∧
        (HandleConnection g c s).server.Connections = s.Connections ∧
        (HandleConnection g c s).server.IpAddresses = s.IpAddresses ∧
        (HandleConnection g c s).server.next = s.next ∧
        ∀ q rest, (HandleConnection g c s).ending = .returned (some (q, rest)) → q = p) ∧
      (s.IpAddresses.get? host = none →
        (∀ q ∈ s.sessions, (s.heap q).IpAddress ≠ host) ∧
        (∀ username path rest, c.reads = some username :: some path :: rest →
          (HandleConnection g c s).server.IpAddresses.entries =
            s.IpAddresses.entries ++ [(host, s.next)] ∧
          (HandleConnection g c s).server.Connections = s.Connections.set g s.next ∧
          (HandleConnection g c s).server.next = s.next + 1 ∧
          s.next ∈ (HandleConnection g c s).server.sessions ∧
          (∀ q ∈ (HandleConnection g c s).server.sessions,
            ((HandleConnection g c s).server.heap q).IpAddress = host ↔ q = s.next) ∧
          (HandleConnection g c s).ending = .returned (some (s.next, rest))) ∧
        ((∀ username path rest, c.reads ≠ some username :: some path :: rest) →
          (HandleConnection g c s).server = s ∧
          (HandleConnection g c s).ending = .returned none)) := by
  have hreg : s.Registered := hs ▸ run_registered es s₀ hes h₀
  refine ⟨registered_onePerIP s hreg, ?_⟩
  intro g c host port hhost haddr
  have hip : (Split c.remoteAddr ':').head? = some host := by
    rw [haddr]
    exact registryKey_host host port hhost
  refine ⟨?_, ?_⟩
  · intro p hp
    obtain ⟨h1, h2, h3⟩ := handleConnection_known g c s host p hip hp
    exact ⟨(hreg.ips host p hp).2, h1, h2, h3,
      fun q rest hend => handleConnection_known_served g c s host p q rest hip hp hend⟩
  · intro hnone
    refine ⟨?_, ?_, ?_⟩
    · intro q hq e
      have := registered_session_filed s hreg q hq
      rw [e, hnone] at this
      cases this
    · intro username path rest hreads
      obtain ⟨h1, h2, h3, _, h5, h6⟩ :=
        handleConnection_unknown g c s hreg host username path rest hip hnone hreads
      exact ⟨h1, h2, h3, h5, h6,
        handleConnection_unknown_served g c s host username path rest hip hreg.free hnone hreads⟩
    · intro hreads
      obtain ⟨h1, _, h3⟩ := handleConnection_unknown_unread g c s host hip hnone hreads
      exact ⟨h1, h3⟩

theorem registry_one_session_per_ip_witness :
    (Server.run collisionTrace (Server.init ":8080")).OnePerIP ∧
    (HandleConnection "E" ⟨5, "10.0.0.9:5000", false, [some "eve", some "/home/eve"]⟩
      (Server.run collisionTrace (Server.init ":8080"))).ending =
      .returned (some ((Server.run collisionTrace (Server.init ":8080")).next, [])) ∧
    (HandleConnection "F" ⟨6, "10.0.0.1:7000", false, []⟩
      (Server.run collisionTrace (Server.init ":8080"))).server.IpAddresses =
      (Server.run collisionTrace (Server.init ":8080")).IpAddresses :=
  have h := registry_one_session_per_ip (Server.init ":8080") (registered_init ":8080")
    collisionTrace
    (by
      intro e he
      simp only [collisionTrace, List.mem_cons, List.mem_singleton, List.not_mem_nil,
        or_false] at he
      rcases he with rfl | rfl | rfl | rfl | rfl | rfl | rfl
      · trivial
      · trivial
      · trivial
      · trivial
      · exact demoEnv_keepsRegistry
      · exact demoEnv_keepsRegistry
      · exact demoEnv_keepsRegistry)
    _ rfl
  ⟨h.1,
    ((((h.2 "E" ⟨5, "10.0.0.9:5000", false, [some "eve", some "/home/eve"]⟩ "10.0.0.9" "5000"
      (by unfold colonFree; decide) (by decide)).2 (by decide)).2.1
      "eve" "/home/eve" [] rfl).2.2.2.2.2),
    ((h.2 "F" ⟨6, "10.0.0.1:7000", false, []⟩ "10.0.0.1" "7000"
      (by unfold colonFree; decide) (by decide)).1 0 (by decide)).2.2.1⟩

end DrizLink
